import Mathlib

/-!
# snappy/click.go: install, activate and remove engine

A shallow embedding of `src/snappy/click.go`.

* Go `error` values are `Option Err` (`none` is `nil`). A result `(x, err)`
  whose `x` is read only when `err` is nil is `Except Err α`; `installClick`
  and `generateSnapBinaryWrapper` return the pair, with the empty string
  beside an error as in the source.
* Stateful code passes a `World` explicitly: the on-disk state (`Disk`) and
  the list of calls made so far to the operating system and to the
  collaborators (`World.calls`).
* Whether a call to the operating system or to a collaborator fails is
  decided by the environment `Env`, as a function of the calls made so far
  and of the call itself, so every theorem quantified over `Env` covers every
  deterministic behaviour of the surroundings.  A failed call is recorded and
  leaves the disk unchanged.
* Paths are kept in structured form (`ClickDir`, `DataDir`, `Path`): a click
  directory is the clean path `<parent>/<version>`, so that
  `filepath.Dir`, `filepath.Base` and `filepath.Join(dir, "..", "current")`
  are projections.  `filepath.EvalSymlinks` of the `current` symlink follows
  the relative link inside `<parent>`.
* Go maps are association lists that hold the entries in the order in which
  they were declared or inserted.  The order in which a `range` statement
  visits the entries of a map is not specified by Go: it is chosen by the
  environment (`Env.rangeApps`, `Env.rangeHooks`, `Env.rangeServices`), which
  answers with a permutation of the entries.
* `os.Stat` follows symbolic links: for a hook link it succeeds when the link
  is there and the file it points to exists (`Env.fileExists`).
* Go strings are Lean strings; where a byte index matters
  (`stripGlobalRootDirImpl`) a string is the list of its bytes (`goBytes`), and
  a slice expression that is out of range is a `GoPanic`.
* A variable that a `:=` inside a block declares anew is a variable of its
  own: the functions deferred by `installClick` take the value of the
  variable they read as an argument.
* Which entries a callback is invoked for is observed through a ghost log:
  `iterHooksLog` is `iterHooks` with the log of the invocations, and is
  `iterHooks` again when the log is erased (`iterHooksLog_fst`).
-/

namespace Snappy

/-! ## Data model -/

/-- The package types of `pkg.Type` this file distinguishes. -/
inductive PkgType where
  | app
  | framework
  | oem
  | other
deriving DecidableEq, Repr

/-- The clean path `<parent>/<ver>` of one installed version. -/
structure ClickDir where
  parent : String
  ver : String
deriving DecidableEq, Repr

/-- The path string of a click directory. -/
def ClickDir.path (d : ClickDir) : String := d.parent ++ "/" ++ d.ver

/-- Where a data directory lives: under one home directory matched by
`snapDataHomeGlob`, or under `snapDataDir`. -/
inductive DataLoc where
  | home (h : String)
  | system
deriving DecidableEq, Repr

/-- The data directory `<loc>/<fullName>/<version>`. -/
structure DataDir where
  loc : DataLoc
  fullName : String
  version : String
deriving DecidableEq, Repr

/-- Error values. `other n` stands for any error value of the operating system
or of a collaborator that the code does not inspect. -/
inductive Err where
  /-- `ErrSnapNotActive` -/
  | snapNotActive
  /-- an error for which `os.IsNotExist` holds -/
  | notExist
  /-- the error of `os.Symlink` on an existing link name -/
  | fileExists
  /-- `fmt.Errorf("Error: got %v manifests in %v", ...)` -/
  | manifestCount (n : Nat)
  /-- `ErrStructIllegalContent` -/
  | structIllegalContent (field content whitelist : String)
  /-- `ErrHookFailed` -/
  | hookFailed (cmd : String) (exitCode : Nat)
  /-- `ErrDataCopyFailed` -/
  | dataCopyFailed (oldPath newPath : DataDir) (exitCode : Nat)
  /-- `ErrUnpackFailed` -/
  | unpackFailed (instDir : ClickDir) (origErr : Err)
  /-- `ErrUnpackHelperNotFound` -/
  | unpackHelperNotFound
  /-- an error for which `helpers.ExitCode` gives the exit code -/
  | exitError (exitCode : Nat)
  /-- an error for which `systemd.IsTimeout` holds -/
  | timeout (n : Nat)
  | other (n : Nat)
deriving DecidableEq, Repr

/-- The paths the engine touches. -/
inductive Path where
  | clickDir (d : ClickDir)
  /-- `filepath.Dir(clickDir)` -/
  | pkgDir (parent : String)
  /-- `<parent>/current` -/
  | current (parent : String)
  /-- `<clickDir>/.click/info` -/
  | clickMeta (d : ClickDir)
  | data (d : DataDir)
  /-- `filepath.Dir` of a data directory -/
  | dataParent (d : DataDir)
  | binariesDir
  /-- `filepath.Join(snapBinariesDir, name)` -/
  | binary (name : String)
  | servicesDir
  /-- `filepath.Join(snapServicesDir, name)` -/
  | service (name : String)
  | busPolicyDir
  /-- `filepath.Join(snapBusPolicyDir, name)` -/
  | busPolicy (name : String)
  /-- `filepath.Join(snapSeccompDir, name)` -/
  | seccomp (name : String)
  /-- a hook link: the `dst` of line 205 -/
  | hook (target : String)
deriving DecidableEq, Repr

/-- The patterns handed to `filepath.Glob`. -/
inductive GlobPattern where
  | manifests (d : ClickDir)
  | hookFiles
  | dataHomes (fullName version : String)
deriving DecidableEq, Repr

mutual
/-- A Go value as package `reflect` shows it to
`verifyStructStringsAgainstWhitelist`. -/
inductive GoValue where
  | str (s : String)
  | struct (fields : GoFields)
  | nilPtr
  | ptr (elem : GoValue)
  | other
/-- The fields of a struct in declaration order: name, whether the field is
exported (`PkgPath == ""`), value. -/
inductive GoFields where
  | nil
  | cons (name : String) (exported : Bool) (v : GoValue) (rest : GoFields)
end

/-- Modelled from the spec: the declaration of `Binary` is not in src/; the
spec names its `name` and `exec` strings, the code reads `Name` and `Exec`.
`extra` stands for the fields declared after them (the security
definitions). -/
structure Binary where
  name : String
  exec : String
  extra : GoFields

/-- Modelled from the spec: the declaration of `Service` is not in src/; the
fields are the ones the code reads (lines 449-461), `extra` the ones declared
after them. -/
structure Service where
  name : String
  description : String
  start : String
  stop : String
  postStop : String
  stopTimeout : Nat
  busName : String
  extra : GoFields

/-- Modelled from the spec: the declaration of `packageYaml` is not in src/;
the fields are the ones the code reads. `integration` is the map
`Integration: map[appName]map[hookName]sourceFile`. -/
structure PackageYaml where
  name : String
  version : String
  type : PkgType
  services : List Service
  binaries : List Binary
  integration : List (String × List (String × String))

/-- Modelled from the spec: `packageYaml.qualifiedName` is not in src/; the
spec gives `qualifiedName = origin==""? name : name+"."+origin`. -/
def PackageYaml.qualifiedName (m : PackageYaml) (origin : String) : String :=
  if origin = "" then m.name else m.name ++ "." ++ origin

/-- The struct `clickManifest` (lines 57-69). -/
structure ClickManifest where
  name : String
  version : String
  architecture : List String
  type : PkgType
  framework : String
  description : String
  icon : String
  installedSize : String
  maintainer : String
  title : String
  hooks : List (String × List (String × String))
deriving DecidableEq, Repr

/-- The struct `clickHook` (lines 71-76). -/
structure ClickHook where
  name : String
  exec : String
  user : String
  pattern : String
deriving DecidableEq, Repr

/-- The argument of `GenServiceFile` (lines 448-461). -/
structure ServiceDescription where
  appName : String
  serviceName : String
  version : String
  description : String
  appPath : String
  start : String
  stop : String
  postStop : String
  stopTimeout : Nat
  aaProfile : String
  isFramework : Bool
  busName : String
  udevAppName : String
deriving DecidableEq, Repr

/-- The texts of `logger.Noticef`, `fmt.Printf` and `inter.Notify`, by the
line that writes them. -/
inductive Msg where
  /-- line 126 -/
  | warningFailedToRead (file : String)
  /-- line 131 -/
  | warningFailedToParse (file : String)
  /-- line 161 -/
  | cantReadHookFile (file : String) (e : Err)
  /-- line 201 -/
  | skippingHook (hookName : String)
  /-- lines 209, 842, 1102, 1165 -/
  | failedToRemove (p : Path) (e : Err)
  /-- line 577 -/
  | refusedToStop (svc : String)
  /-- line 585 -/
  | failedToRemoveServiceFile (svc : String) (e : Err)
  /-- line 590 -/
  | failedToRemoveBusPolicy (svc : String) (e : Err)
  /-- line 819 -/
  | snapInspectFailed (e : Err)
  /-- line 835 -/
  | canNotCreate (d : ClickDir) (e : Err)
  /-- line 886 -/
  | settingOldBackFailed (e : Err)
  /-- line 902 -/
  | cleaningUpData (e : Err)
  /-- line 916 -/
  | whenSettingOldBack (e : Err)
  /-- line 937 -/
  | unableToRestartOld (svc : String) (e : Err)
  /-- line 951 -/
  | unableToStopAborting (svc : String) (e : Err)
  /-- line 967 -/
  | unableToStopOld (svc : String) (e : Err)
  /-- line 974 -/
  | unableToRestartAborting (svc : String) (e : Err)
deriving DecidableEq, Repr

/-- The calls to the operating system and to the collaborators. -/
inductive Call where
  | mkdirAll (p : Path)
  | removeAll (p : Path)
  | remove (p : Path)
  | symlink (target : String) (p : Path)
  | writeFile (p : Path) (content : String)
  /-- `ioutil.WriteFile` of the marshalled manifest, line 795 -/
  | writeManifest (d : ClickDir) (file : String) (cm : ClickManifest)
  /-- `cp -a old new`, line 1039 -/
  | cp (old new : DataDir)
  /-- `d.Unpack(instDir)`, line 740 -/
  | unpack (d : ClickDir)
  /-- the privileged unpack helper, line 755 -/
  | unpackHelper (helper : String) (d : ClickDir)
  | extractHashes (d : ClickDir)
  | closeArchive
  | oemUdevRules
  | daemonReload
  | enable (svc : String)
  | disable (svc : String)
  | start (svc : String)
  | stop (svc : String) (timeout : Nat)
  | kill (svc : String) (signal : String)
  /-- `time.Sleep(killWait)` -/
  | sleep
  | policyInstall (name : String) (d : ClickDir)
  | policyRemove (name : String) (d : ClickDir)
  | refreshDependentsSecurity (old : Option ClickDir)
  /-- `sh -c cmd`, line 94 -/
  | exec (cmd : String)
  /-- `inter.Notify` -/
  | notify (m : Msg)
  /-- `logger.Noticef` -/
  | notice (m : Msg)
  /-- `fmt.Printf` -/
  | print (m : Msg)
deriving DecidableEq, Repr

/-- Modelled from the spec: the type of the dependents returned by
`part.Dependents()` is not in src/; the code calls `IsActive()`,
`Services()` and reads `m` (lines 943-948). -/
structure Dependent where
  m : PackageYaml
  isActive : Bool
  services : List Service

/-- Modelled from the spec: `SnapPart` is not in src/; `installClick` reads
`basedir`, `m`, `Type()`, `Name()`, `Version()` and `QualifiedName(part)`. -/
structure SnapPart where
  name : String
  version : String
  type : PkgType
  fullName : String
  basedir : ClickDir
  m : PackageYaml

/-- Modelled from the spec: `InstallFlags` is not in src/; the spec lists the
bits `AllowUnauthenticated`, `AllowOEM`, `InhibitHooks` (lines 803-805 test
them one by one). -/
structure InstallFlags where
  allowUnauthenticated : Bool
  allowOEM : Bool
  inhibitHooks : Bool
deriving DecidableEq, Repr

/-- One file of `clickSystemHooksDir` matching `*.hook`: its path and what
reading and parsing it gives. `content = none`: `ioutil.ReadFile` fails with
`readErr`; `content = some none`: `cfg.Read` fails with `parseErr`;
`content = some (some kv)`: the options of the section `[hook]`. -/
structure HookFile where
  path : String
  content : Option (Option (List (String × String)))
  readErr : Err
  parseErr : Err

/-- The surroundings of the engine: the outcome of every call, and the
collaborator functions that are not in src/. -/
structure Env where
  /-- given the calls made so far, whether this call fails and with what -/
  outcome : List Call → Call → Option Err
  /-- the error of `filepath.Glob` on a malformed pattern -/
  globError : GlobPattern → Option Err
  /-- the home directories matched by `snapDataHomeGlob` -/
  homes : List String
  /-- the files `clickSystemHooksDir/*.hook` -/
  hookFiles : List HookFile
  /-- the package variable `globalRootDir` -/
  globalRootDir : String
  /-- given the calls made so far, whether a file exists at the target of a
  hook link -/
  fileExists : List Call → String → Bool
  /-- the order in which a `range` over the map `m.Integration` visits the
  apps, in a run of `iterHooks` that starts after the given calls -/
  rangeApps : List Call → (integration : List (String × List (String × String))) →
    { visited : List (String × List (String × String)) // visited.Perm integration }
  /-- the order in which that run ranges over the hooks of the given app -/
  rangeHooks : List Call → String → (hook : List (String × String)) →
    { visited : List (String × String) // visited.Perm hook }
  /-- the order in which a `range` over a map of services visits them, given
  the calls made so far -/
  rangeServices : List Call → (services : List (String × Nat)) →
    { visited : List (String × Nat) // visited.Perm services }
  originFromBasedir : String → String
  /-- the variable `stripGlobalRootDir` (line 476) -/
  stripGlobalRootDir : String → String
  getSecurityProfile : PackageYaml → String → String → Except Err String
  generateSeccompPolicy : String → String → GoFields → Except Err String
  genServiceFile : ServiceDescription → String
  genBusPolicyFile : String → Except Err String
  newSnapPartFromSnap : String → String → Bool → Except Err SnapPart
  canInstall : SnapPart → Bool → Option Err
  /-- `part.deb.ControlMember("manifest")`; the bytes are given by what
  `json.Unmarshal` makes of them (`none`: not valid JSON, with that error) -/
  controlMember : SnapPart → Except Err (Except Err ClickManifest)
  dependents : List Call → SnapPart → Except Err (List Dependent)
  shouldDropPrivs : Bool
  /-- what the search of lines 744-750 over PATH and GOPATH finds -/
  privHelper : String

/-! ## Library functions -/

/-- `filepath.Base` for a slash-separated path: trailing slashes are dropped,
the last element is returned, "." for the empty path and "/" for a path of
slashes only. -/
def filepathBase (p : String) : String :=
  if p = "" then "." else
  let cs := (p.toList.reverse.dropWhile (fun c => c = '/'))
  if cs = [] then "/" else
  String.mk (cs.takeWhile (fun c => c ≠ '/')).reverse

/-- The elements of a path between its slashes (`"a//b"` has the elements
`a`, the empty one and `b`). -/
def pathElements : List Char → List (List Char)
  | [] => [[]]
  | c :: cs =>
    if c = '/' then [] :: pathElements cs
    else
      match pathElements cs with
      | [] => [[c]]
      | x :: xs => (c :: x) :: xs

/-- The loop of `filepath.Clean` over the elements of the path; `out` holds
the elements written so far, the last one first. An empty element and `.` are
dropped; `..` takes back the element before it when that one is not `..`
itself, is dropped at the root of a rooted path, and is kept otherwise. -/
def filepathClean.loop (rooted : Bool) : List String → List (List Char) → List String
  | out, [] => out
  | out, e :: rest =>
    if e = [] ∨ e = ['.'] then filepathClean.loop rooted out rest
    else if e = ['.', '.'] then
      match out with
      | top :: below =>
        if top = ".." then filepathClean.loop rooted (".." :: out) rest
        else filepathClean.loop rooted below rest
      | [] =>
        if rooted then filepathClean.loop rooted [] rest
        else filepathClean.loop rooted [".."] rest
    else filepathClean.loop rooted (String.mk e :: out) rest

/-- `filepath.Clean` for slash-separated paths: the shortest path that is
lexically the same; "." for the empty one. -/
def filepathClean (path : String) : String :=
  let rooted := path.toList.head? = some '/'
  let out := (filepathClean.loop rooted [] (pathElements path.toList)).reverse
  let cleaned := (if rooted then "/" else "") ++ "/".intercalate out
  if cleaned = "" then "." else cleaned

/-- `filepath.Join(dir, elem)`: the empty string when both are empty;
otherwise the elements from the first non-empty one on are joined by a slash
and the result is cleaned. -/
def filepathJoin (dir elem : String) : String :=
  if dir ≠ "" then filepathClean (dir ++ "/" ++ elem)
  else if elem ≠ "" then filepathClean elem
  else ""

/-! ## Whitelist validation (lines 87-89, 309-311, 393-438) -/

/-- The constant of line 89. -/
def servicesBinariesStringsWhitelist : String := "^[A-Za-z0-9/. _#:-]*$"

/-- The character class `[A-Za-z0-9/. _#:-]`. -/
def whitelistChar (c : Char) : Bool :=
  decide (('A'.toNat ≤ c.toNat ∧ c.toNat ≤ 'Z'.toNat) ∨
    ('a'.toNat ≤ c.toNat ∧ c.toNat ≤ 'z'.toNat) ∨
    ('0'.toNat ≤ c.toNat ∧ c.toNat ≤ '9'.toNat) ∨
    c = '/' ∨ c = '.' ∨ c = ' ' ∨ c = '_' ∨ c = '#' ∨ c = ':' ∨ c = '-')

/-- What `r.MatchString` answers for `r` compiled from
`servicesBinariesStringsWhitelist`: `^[...]*$` matches a text exactly when
every character of it is in the class (in Go, `$` without the flag `m`
matches at the end of the text only). -/
def whitelistMatch (s : String) : Bool := s.toList.all whitelistChar

/-- The loop of lines 404-431, for a whitelist that compiled to `r`. The
recursive calls of lines 413 and 418 pass the same whitelist, which compiles
again. -/
def verifyFields (r : String → Bool) (whitelist : String) : GoFields → Option Err
  | .nil => none
  | .cons name exported v rest =>
    -- PkgPath means its a unexported field and we can ignore it
    if !exported then verifyFields r whitelist rest
    else
      match v with
      | .ptr (.struct fs) => verifyFields r whitelist fs
      | .struct fs => verifyFields r whitelist fs
      | .str value =>
        if !r value then some (.structIllegalContent name value whitelist)
        else verifyFields r whitelist rest
      | _ => verifyFields r whitelist rest

/-- Lines 395-434. `compiled` is what `regexp.Compile(whitelist)` returns. -/
def verifyStructStringsAgainstWhitelist (compiled : Except Err (String → Bool))
    (s : GoFields) (whitelist : String) : Option Err :=
  match compiled with
  | .error err => some err
  | .ok r => verifyFields r whitelist s

/-- What package `reflect` shows of a `Binary`. -/
def Binary.fields (b : Binary) : GoFields :=
  .cons "Name" true (.str b.name) (.cons "Exec" true (.str b.exec) b.extra)

/-- What package `reflect` shows of a `Service`. -/
def Service.fields (s : Service) : GoFields :=
  .cons "Name" true (.str s.name) (.cons "Description" true (.str s.description)
    (.cons "Start" true (.str s.start) (.cons "Stop" true (.str s.stop)
      (.cons "PostStop" true (.str s.postStop) (.cons "StopTimeout" true .other
        (.cons "BusName" true (.str s.busName) s.extra))))))

/-- Lines 309-311. -/
def verifyBinariesYaml (binary : Binary) : Option Err :=
  verifyStructStringsAgainstWhitelist (.ok whitelistMatch) binary.fields
    servicesBinariesStringsWhitelist

/-- Lines 436-438. -/
def verifyServiceYaml (service : Service) : Option Err :=
  verifyStructStringsAgainstWhitelist (.ok whitelistMatch) service.fields
    servicesBinariesStringsWhitelist

/-- Lines 305-307. -/
def binPathForBinary (pkgPath : String) (binary : Binary) : String :=
  filepathJoin pkgPath binary.exec

/-- The template of lines 314-357 executed on `wrapperData`
(`text/template` inserts the strings as they are). -/
def wrapperTemplate (name version target path aaProfile udevAppName origin : String) :
    String :=
  "#!/bin/sh\n" ++
  "# !!!never remove this line!!!\n" ++
  "##TARGET=" ++ target ++ "\n" ++
  "\n" ++
  "set -e\n" ++
  "\n" ++
  "TMPDIR=\"/tmp/snaps/" ++ udevAppName ++ "/" ++ version ++ "/tmp\"\n" ++
  "if [ ! -d \"$TMPDIR\" ]; then\n" ++
  "    mkdir -p -m1777 \"$TMPDIR\"\n" ++
  "fi\n" ++
  "export TMPDIR\n" ++
  "export TEMPDIR=\"$TMPDIR\"\n" ++
  "\n" ++
  "# app paths (deprecated)\n" ++
  "export SNAPP_APP_PATH=\"" ++ path ++ "\"\n" ++
  "export SNAPP_APP_DATA_PATH=\"/var/lib/" ++ path ++ "\"\n" ++
  "export SNAPP_APP_USER_DATA_PATH=\"$HOME/" ++ path ++ "\"\n" ++
  "export SNAPP_APP_TMPDIR=\"$TMPDIR\"\n" ++
  "export SNAPP_OLD_PWD=\"$(pwd)\"\n" ++
  "\n" ++
  "# app info\n" ++
  "export SNAP_NAME=\"" ++ name ++ "\"\n" ++
  "export SNAP_ORIGIN=\"" ++ origin ++ "\"\n" ++
  "export SNAP_FULLNAME=\"" ++ udevAppName ++ "\"\n" ++
  "\n" ++
  "# app paths\n" ++
  "export SNAP_APP_PATH=\"" ++ path ++ "\"\n" ++
  "export SNAP_APP_DATA_PATH=\"/var/lib/" ++ path ++ "\"\n" ++
  "export SNAP_APP_USER_DATA_PATH=\"$HOME/" ++ path ++ "\"\n" ++
  "export SNAP_APP_TMPDIR=\"$TMPDIR\"\n" ++
  "\n" ++
  "# FIXME: this will need to become snappy arch or something\n" ++
  "export SNAPPY_APP_ARCH=\"$(dpkg --print-architecture)\"\n" ++
  "\n" ++
  "if [ ! -d \"$SNAP_APP_USER_DATA_PATH\" ]; then\n" ++
  "   mkdir -p \"$SNAP_APP_USER_DATA_PATH\"\n" ++
  "fi\n" ++
  "export HOME=\"$SNAP_APP_USER_DATA_PATH\"\n" ++
  "\n" ++
  "# export old pwd\n" ++
  "export SNAP_OLD_PWD=\"$(pwd)\"\n" ++
  "cd " ++ path ++ "\n" ++
  "ubuntu-core-launcher " ++ udevAppName ++ " " ++ aaProfile ++ " " ++ target ++ " \"$@\"\n"

/-- Lines 313-391. -/
def generateSnapBinaryWrapper (env : Env) (binary : Binary) (pkgPath aaProfile : String)
    (m : PackageYaml) : String × Option Err :=
  -- it's fine for this to error out; we might be in a framework or sth
  let origin := env.originFromBasedir pkgPath
  match verifyBinariesYaml binary with
  | some err => ("", some err)
  | none =>
    let actualBinPath := binPathForBinary pkgPath binary
    let udevPartName := m.qualifiedName origin
    (wrapperTemplate m.name m.version actualBinPath pkgPath aaProfile udevPartName origin,
      none)

/-! ## The world -/

/-- What a version directory holds, as far as the engine reads it:
what `parsePackageYamlFile` makes of `meta/package.yaml`, and the files
`.click/info/*.manifest` with what `readClickManifest` makes of each. -/
structure DirContent where
  yaml : Except Err PackageYaml
  manifests : List (String × Except Err ClickManifest)

/-- The on-disk state: the version directories, the `current` symlink of each
package directory (the version name it points to), the data directories with
their content, and the generated files and hook links with their content. -/
structure Disk where
  dirs : ClickDir → Option DirContent
  current : String → Option String
  data : DataDir → Option String
  files : Path → Option String

/-- The disk and the calls made so far. -/
structure World where
  disk : Disk
  calls : List Call

/-- A freshly created version directory. -/
def emptyDir : DirContent := { yaml := .error .notExist, manifests := [] }

def Disk.setDir (k : Disk) (d : ClickDir) (c : Option DirContent) : Disk :=
  { k with dirs := fun x => if x = d then c else k.dirs x }

def Disk.setCurrent (k : Disk) (parent : String) (v : Option String) : Disk :=
  { k with current := fun x => if x = parent then v else k.current x }

def Disk.setData (k : Disk) (d : DataDir) (c : Option String) : Disk :=
  { k with data := fun x => if x = d then c else k.data x }

def Disk.setFile (k : Disk) (p : Path) (c : Option String) : Disk :=
  { k with files := fun x => if x = p then c else k.files x }

/-- The effect of `os.MkdirAll` on a version directory. -/
def Disk.createDir (k : Disk) (d : ClickDir) : Disk :=
  if (k.dirs d).isSome then k else k.setDir d (some emptyDir)

/-- The effect of `os.MkdirAll` on a data directory. -/
def Disk.createData (k : Disk) (d : DataDir) : Disk :=
  if (k.data d).isSome then k else k.setData d (some "")

/-- The call is written to the record. -/
def World.record (w : World) (c : Call) : World :=
  { w with calls := w.calls ++ [c] }

/-- One call to the operating system or to a collaborator: it is recorded,
and its effect is applied when the environment lets it succeed. -/
def attempt (env : Env) (c : Call) (eff : Disk → Disk) (w : World) : Option Err × World :=
  match env.outcome w.calls c with
  | some err => (some err, w.record c)
  | none => (none, { disk := eff w.disk, calls := w.calls ++ [c] })

/-- `os.IsNotExist`. -/
def Err.isNotExist (e : Err) : Bool := decide (e = .notExist)

/-- `systemd.IsTimeout`. -/
def Err.isTimeout : Err → Bool
  | .timeout _ => true
  | _ => false

/-- `helpers.ExitCode`. -/
def helpersExitCode : Err → Option Nat
  | .exitError code => some code
  | _ => none

/-- `os.Remove` of a generated file or hook link: it fails when there is no
such file. -/
def osRemove (env : Env) (p : Path) (w : World) : Option Err × World :=
  if (w.disk.files p).isNone then (some .notExist, w.record (.remove p))
  else attempt env (.remove p) (fun k => k.setFile p none) w

/-- `os.Symlink(target, p)` for a hook link: it fails when `p` exists. -/
def osSymlink (env : Env) (target : String) (p : Path) (w : World) : Option Err × World :=
  if (w.disk.files p).isSome then (some .fileExists, w.record (.symlink target p))
  else attempt env (.symlink target p) (fun k => k.setFile p (some target)) w

/-- Whether `os.Stat(p)` of a hook link returns no error: it follows the link,
so it fails when there is nothing at `p` and when the file the link points to
does not exist. -/
def osStat (env : Env) (p : Path) (w : World) : Bool :=
  match w.disk.files p with
  | none => false
  | some target => env.fileExists w.calls target

/-- `ioutil.WriteFile(p, content, mode)` of a generated file. -/
def writeFile (env : Env) (p : Path) (content : String) (w : World) : Option Err × World :=
  attempt env (.writeFile p content) (fun k => k.setFile p (some content)) w

/-- `os.Remove` of the symlink `<parent>/current`. -/
def removeCurrent (env : Env) (parent : String) (w : World) : Option Err × World :=
  if (w.disk.current parent).isNone then (some .notExist, w.record (.remove (.current parent)))
  else attempt env (.remove (.current parent)) (fun k => k.setCurrent parent none) w

/-- `os.Symlink(target, <parent>/current)`. -/
def symlinkCurrent (env : Env) (target parent : String) (w : World) : Option Err × World :=
  if (w.disk.current parent).isSome then
    (some .fileExists, w.record (.symlink target (.current parent)))
  else attempt env (.symlink target (.current parent))
    (fun k => k.setCurrent parent (some target)) w

/-- `filepath.EvalSymlinks(<parent>/current)`: the link is relative to
`<parent>` and names a version; it resolves when that directory exists. -/
def evalCurrent (k : Disk) (parent : String) : Except Err ClickDir :=
  match k.current parent with
  | none => .error .notExist
  | some v =>
    match k.dirs ⟨parent, v⟩ with
    | none => .error .notExist
    | some _ => .ok ⟨parent, v⟩

/-- The `currentActiveDir` of `dir, _ := filepath.EvalSymlinks(...)`:
`none` stands for the empty string. -/
def currentActiveDirOf (k : Disk) (parent : String) : Option ClickDir :=
  match evalCurrent k parent with
  | .ok d => some d
  | .error _ => none

/-- `parsePackageYamlFile(filepath.Join(clickDir, "meta", "package.yaml"))`. -/
def parsePackageYamlFile (clickDir : ClickDir) (k : Disk) : Except Err PackageYaml :=
  match k.dirs clickDir with
  | none => .error .notExist
  | some c => c.yaml

/-- Lines 251-262. -/
def readClickManifestFromClickDir (env : Env) (clickDir : ClickDir) (k : Disk) :
    Except Err ClickManifest :=
  match env.globError (.manifests clickDir) with
  | some err => .error err
  | none =>
    let manifestFiles := match k.dirs clickDir with
      | none => []
      | some c => c.manifests
    match manifestFiles with
    | [(_, manifest)] => manifest
    | _ => .error (.manifestCount manifestFiles.length)

/-- The assignment `m[key] = v` of a Go map. -/
def mapSet {α : Type} (m : List (String × α)) (key : String) (v : α) : List (String × α) :=
  match m with
  | [] => [(key, v)]
  | (k, x) :: rest => if k = key then (key, v) :: rest else (k, x) :: mapSet rest key v

/-! ## Hooks (lines 78-82, 91-104, 119-249) -/

/-- The map of lines 79-82. -/
def ignoreHooks (hookName : String) : Bool :=
  hookName = "bin-path" || hookName = "snappy-systemd"

/-- Lines 92-104. -/
def execHook (env : Env) (execCmd : String) (w : World) : Option Err × World :=
  match attempt env (.exec execCmd) id w with
  | (some err, w1) =>
    match helpersExitCode err with
    | some exitCode => (some (.hookFailed execCmd exitCode), w1)
    | none => (some err, w1)
  | (none, w1) => (none, w1)

/-- `value, _ := cfg.Get("hook", key)`. -/
def cfgGet (kv : List (String × String)) (key : String) : String :=
  (kv.lookup key).getD ""

/-- `strings.Split(s, ".")[0]`: the text before the first dot. -/
def splitFirst (s : String) : String :=
  String.mk (s.toList.takeWhile (fun c => c ≠ '.'))

/-- Lines 119-149. -/
def readClickHookFile (hookFile : HookFile) (w : World) : Except Err ClickHook × World :=
  match hookFile.content with
  | none => (.error hookFile.readErr, w.record (.print (.warningFailedToRead hookFile.path)))
  | some none =>
    (.error hookFile.parseErr, w.record (.print (.warningFailedToParse hookFile.path)))
  | some (some cfg) =>
    let name := cfgGet cfg "Hook-Name"
    -- urgh, click allows empty "Hook-Name"
    let name := if name = "" then splitFirst (filepathBase hookFile.path) else name
    (.ok { name := name, exec := cfgGet cfg "Exec", user := cfgGet cfg "User",
           pattern := cfgGet cfg "Pattern" }, w)

/-- The loop of lines 158-165. -/
def systemClickHooks.loop : List HookFile → List (String × ClickHook) → World →
    List (String × ClickHook) × World
  | [], hooks, w => (hooks, w)
  | f :: rest, hooks, w =>
    match readClickHookFile f w with
    | (.error err, w1) =>
      systemClickHooks.loop rest hooks (w1.record (.notice (.cantReadHookFile f.path err)))
    | (.ok hook, w1) => systemClickHooks.loop rest (mapSet hooks hook.name hook) w1

/-- Lines 151-168. -/
def systemClickHooks (env : Env) (w : World) : Except Err (List (String × ClickHook)) × World :=
  match env.globError .hookFiles with
  | some err => (.error err, w)
  | none =>
    let r := systemClickHooks.loop env.hookFiles [] w
    (.ok r.1, r.2)

/-- `strings.Replace(s, old, new, -1)` for a non-empty `old`, on the
characters of `s`; the first argument counts the characters of a match still
to be skipped. -/
def stringsReplaceAll.go (old new : List Char) : Nat → List Char → List Char
  | _, [] => []
  | skip + 1, _ :: cs => stringsReplaceAll.go old new skip cs
  | 0, c :: cs =>
    if old.isPrefixOf (c :: cs) then new ++ stringsReplaceAll.go old new (old.length - 1) cs
    else c :: stringsReplaceAll.go old new 0 cs

/-- `strings.Replace(s, old, new, -1)` for a non-empty `old`. -/
def stringsReplaceAll (s old new : String) : String :=
  String.mk (stringsReplaceAll.go old.toList new.toList 0 s.toList)

/-- Lines 170-178. -/
def expandHookPattern (name app version pattern : String) : String :=
  let id := name ++ "_" ++ app ++ "_" ++ version
  stringsReplaceAll pattern "$\x7bid\x7d" id

/-- The type `iterHooksFunc` (line 180); `dst` is given by the expanded
pattern, the path is `Path.hook dst`. -/
abbrev IterHooksFunc := String → String → ClickHook → World → Option Err × World

/-- The `dst` of line 205. -/
def iterHooks.dst (env : Env) (m : PackageYaml) (origin app : String) (systemHook : ClickHook) :
    String :=
  filepathJoin env.globalRootDir
    (expandHookPattern (m.qualifiedName origin) app m.version systemHook.pattern)

/-- Lines 207-211: a target that `os.Stat` finds is removed before the
callback runs. -/
def iterHooks.unlink (env : Env) (dst : String) (w : World) : World :=
  if osStat env (.hook dst) w then
    match osRemove env (.hook dst) w with
    | (some err, w0) => w0.record (.notice (.failedToRemove (.hook dst) err))
    | (none, w0) => w0
  else w

/-- The body of the inner loop of `iterHooks` (lines 191-224) for the hooks of
one app, given in the order in which the `range` visits them. -/
def iterHooks.hooks (env : Env) (m : PackageYaml) (origin : String) (inhibitHooks : Bool)
    (f : IterHooksFunc) (systemHooks : List (String × ClickHook)) (app : String) :
    List (String × String) → World → Option Err × World
  | [], w => (none, w)
  | (hookName, hookSourceFile) :: rest, w =>
    -- ignore hooks that only exist for compatibility
    if ignoreHooks hookName then
      iterHooks.hooks env m origin inhibitHooks f systemHooks app rest w
    else
      match systemHooks.lookup hookName with
      | none =>
        iterHooks.hooks env m origin inhibitHooks f systemHooks app rest
          (w.record (.notice (.skippingHook hookName)))
      | some systemHook =>
        let dst := iterHooks.dst env m origin app systemHook
        let w1 := iterHooks.unlink env dst w
        -- run iter func here
        match f hookSourceFile dst systemHook w1 with
        | (some err, w2) => (some err, w2)
        | (none, w2) =>
          if systemHook.exec ≠ "" && !inhibitHooks then
            match execHook env systemHook.exec w2 with
            | (some err, w3) => (some err, (osRemove env (.hook dst) w3).2)
            | (none, w3) => iterHooks.hooks env m origin inhibitHooks f systemHooks app rest w3
          else iterHooks.hooks env m origin inhibitHooks f systemHooks app rest w2

/-- The body of the outer loop of `iterHooks` (lines 190-225) for the apps,
given in the order in which the `range` visits them, each with its hooks in
the order of the inner `range`. -/
def iterHooks.apps (env : Env) (m : PackageYaml) (origin : String) (inhibitHooks : Bool)
    (f : IterHooksFunc) (systemHooks : List (String × ClickHook)) :
    List (String × List (String × String)) → World → Option Err × World
  | [], w => (none, w)
  | (app, hook) :: rest, w =>
    match iterHooks.hooks env m origin inhibitHooks f systemHooks app hook w with
    | (some err, w1) => (some err, w1)
    | (none, w1) => iterHooks.apps env m origin inhibitHooks f systemHooks rest w1

/-- The entries of the map `m.Integration` in the order in which the two
`range` statements of lines 190 and 191 visit them, in a run of `iterHooks`
that starts after the calls `h`: a permutation of the apps, each with a
permutation of its hooks. A run ranges over the hooks of an app at most once,
so the order of each inner `range` is given per run and app. -/
def Env.rangeIntegration (env : Env) (h : List Call)
    (integration : List (String × List (String × String))) :
    List (String × List (String × String)) :=
  (env.rangeApps h integration).val.map (fun a => (a.1, (env.rangeHooks h a.1 a.2).val))

/-- Lines 184-228. -/
def iterHooks (env : Env) (m : PackageYaml) (origin : String) (inhibitHooks : Bool)
    (f : IterHooksFunc) (w : World) : Option Err × World :=
  match systemClickHooks env w with
  | (.error err, w1) => (some err, w1)
  | (.ok systemHooks, w1) =>
    iterHooks.apps env m origin inhibitHooks f systemHooks
      (env.rangeIntegration w1.calls m.integration) w1

/-- Lines 230-241. -/
def installClickHooks (env : Env) (targetDir : ClickDir) (m : PackageYaml) (origin : String)
    (inhibitHooks : Bool) (w : World) : Option Err × World :=
  iterHooks env m origin inhibitHooks
    (fun src dst _ w0 =>
      -- setup the new link target here, iterHooks will take care of running the hook
      let realSrc := env.stripGlobalRootDir (filepathJoin targetDir.path src)
      osSymlink env realSrc (.hook dst) w0) w

/-- Lines 243-249. -/
def removeClickHooks (env : Env) (m : PackageYaml) (origin : String) (inhibitHooks : Bool)
    (w : World) : Option Err × World :=
  iterHooks env m origin inhibitHooks (fun _ _ _ w0 => (none, w0)) w

/-! ## Generated binaries, services and security policy (lines 293-311, 436-471, 495-715) -/

/-- Lines 294-303; `Path.binary n` is `filepath.Join(snapBinariesDir, n)`. -/
def generateBinaryName (m : PackageYaml) (binary : Binary) : Path :=
  let binName :=
    if m.type = .framework then filepathBase binary.name
    else m.name ++ "." ++ filepathBase binary.name
  .binary binName

/-- The file name of line 466, below `snapServicesDir`. -/
def serviceFileName (m : PackageYaml) (service : Service) : String :=
  m.name ++ "_" ++ service.name ++ "_" ++ m.version ++ ".service"

/-- Lines 465-467. -/
def generateServiceFileName (m : PackageYaml) (service : Service) : Path :=
  .service (serviceFileName m service)

/-- Lines 469-471. -/
def generateBusPolicyFileName (m : PackageYaml) (service : Service) : Path :=
  .busPolicy (m.name ++ "_" ++ service.name ++ "_" ++ m.version ++ ".conf")

/-- The `serviceName` of lines 539, 569 and 948:
`filepath.Base(generateServiceFileName(m, service))`. -/
def serviceNameOf (m : PackageYaml) (service : Service) : String :=
  filepathBase (serviceFileName m service)

/-- Lines 440-463. -/
def generateSnapServicesFile (env : Env) (service : Service) (baseDir aaProfile : String)
    (m : PackageYaml) : String × Option Err :=
  match verifyServiceYaml service with
  | some err => ("", some err)
  | none =>
    let udevPartName := m.qualifiedName (env.originFromBasedir baseDir)
    (env.genServiceFile
      { appName := m.name, serviceName := service.name, version := m.version,
        description := service.description, appPath := baseDir, start := service.start,
        stop := service.stop, postStop := service.postStop,
        stopTimeout := service.stopTimeout, aaProfile := aaProfile,
        isFramework := decide (m.type = .framework), busName := service.busName,
        udevAppName := udevPartName }, none)

/-- The body of the loop of lines 501-557 from line 521 on, after the unit
file is written. -/
def addPackageServices.enable (env : Env) (m : PackageYaml) (service : Service)
    (inhibitHooks : Bool) (w : World) : Option Err × World :=
  -- If necessary, generate the DBus policy file so the framework service is allowed to start
  let r : Option Err × World :=
    if m.type = .framework ∧ service.busName ≠ "" then
      match env.genBusPolicyFile service.busName with
      | .error err => (some err, w)
      | .ok content =>
        let policyFilename := generateBusPolicyFileName m service
        let w1 := (attempt env (.mkdirAll .busPolicyDir) id w).2
        writeFile env policyFilename content w1
    else (none, w)
  match r with
  | (some err, w2) => (some err, w2)
  | (none, w2) =>
    -- daemon-reload and start only if we are not in the inhibitHooks mode
    -- *but* always run enable (which just sets a symlink)
    let serviceName := serviceNameOf m service
    let r3 : Option Err × World :=
      if !inhibitHooks then attempt env .daemonReload id w2 else (none, w2)
    match r3 with
    | (some err, w3) => (some err, w3)
    | (none, w3) =>
      -- we always enable the service even in inhibit hooks
      match attempt env (.enable serviceName) id w3 with
      | (some err, w4) => (some err, w4)
      | (none, w4) =>
        if !inhibitHooks then attempt env (.start serviceName) id w4 else (none, w4)

/-- The loop of lines 501-557. -/
def addPackageServices.loop (env : Env) (baseDir : ClickDir) (inhibitHooks : Bool)
    (m : PackageYaml) : List Service → World → Option Err × World
  | [], w => (none, w)
  | service :: rest, w =>
    match env.getSecurityProfile m service.name baseDir.path with
    | .error err => (some err, w)
    | .ok aaProfile =>
      let realBaseDir := env.stripGlobalRootDir baseDir.path
      match generateSnapServicesFile env service realBaseDir aaProfile m with
      | (_, some err) => (some err, w)
      | (content, none) =>
        let serviceFilename := generateServiceFileName m service
        let w1 := (attempt env (.mkdirAll .servicesDir) id w).2
        match writeFile env serviceFilename content w1 with
        | (some err, w2) => (some err, w2)
        | (none, w2) =>
          match addPackageServices.enable env m service inhibitHooks w2 with
          | (some err, w3) => (some err, w3)
          | (none, w3) => addPackageServices.loop env baseDir inhibitHooks m rest w3

/-- Lines 495-560. -/
def addPackageServices (env : Env) (baseDir : ClickDir) (inhibitHooks : Bool) (w : World) :
    Option Err × World :=
  match parsePackageYamlFile baseDir w.disk with
  | .error err => (some err, w)
  | .ok m => addPackageServices.loop env baseDir inhibitHooks m m.services w

/-- The loop of lines 568-592. -/
def removePackageServices.loop (env : Env) (m : PackageYaml) :
    List Service → World → Option Err × World
  | [], w => (none, w)
  | service :: rest, w =>
    let serviceName := serviceNameOf m service
    match attempt env (.disable serviceName) id w with
    | (some err, w1) => (some err, w1)
    | (none, w1) =>
      let r : Option Err × World :=
        match attempt env (.stop serviceName service.stopTimeout) id w1 with
        | (some err, w2) =>
          if !err.isTimeout then (some err, w2)
          else
            let w3 := w2.record (.notify (.refusedToStop serviceName))
            -- ignore errors for kill; nothing we'd do differently at this point
            let w4 := (attempt env (.kill serviceName "TERM") id w3).2
            let w5 := w4.record .sleep
            (none, (attempt env (.kill serviceName "KILL") id w5).2)
        | (none, w2) => (none, w2)
      match r with
      | (some err, w6) => (some err, w6)
      | (none, w6) =>
        let w7 :=
          match osRemove env (generateServiceFileName m service) w6 with
          | (some err, w0) =>
            if !err.isNotExist then w0.record (.notice (.failedToRemoveServiceFile serviceName err))
            else w0
          | (none, w0) => w0
        -- Also remove DBus system policy file
        let w8 :=
          match osRemove env (generateBusPolicyFileName m service) w7 with
          | (some err, w0) =>
            if !err.isNotExist then w0.record (.notice (.failedToRemoveBusPolicy serviceName err))
            else w0
          | (none, w0) => w0
        removePackageServices.loop env m rest w8

/-- Lines 562-602. -/
def removePackageServices (env : Env) (baseDir : ClickDir) (w : World) : Option Err × World :=
  match parsePackageYamlFile baseDir w.disk with
  | .error err => (some err, w)
  | .ok m =>
    match removePackageServices.loop env m m.services w with
    | (some err, w1) => (some err, w1)
    | (none, w1) =>
      -- only reload if we actually had services
      if m.services.length > 0 then attempt env .daemonReload id w1 else (none, w1)

/-- The loop of lines 614-632. -/
def addPackageBinaries.loop (env : Env) (baseDir : ClickDir) (m : PackageYaml) :
    List Binary → World → Option Err × World
  | [], w => (none, w)
  | binary :: rest, w =>
    match env.getSecurityProfile m binary.name baseDir.path with
    | .error err => (some err, w)
    | .ok aaProfile =>
      let realBaseDir := env.stripGlobalRootDir baseDir.path
      match generateSnapBinaryWrapper env binary realBaseDir aaProfile m with
      | (_, some err) => (some err, w)
      | (content, none) =>
        match writeFile env (generateBinaryName m binary) content w with
        | (some err, w1) => (some err, w1)
        | (none, w1) => addPackageBinaries.loop env baseDir m rest w1

/-- Lines 604-635. -/
def addPackageBinaries (env : Env) (baseDir : ClickDir) (w : World) : Option Err × World :=
  match parsePackageYamlFile baseDir w.disk with
  | .error err => (some err, w)
  | .ok m =>
    match attempt env (.mkdirAll .binariesDir) id w with
    | (some err, w1) => (some err, w1)
    | (none, w1) => addPackageBinaries.loop env baseDir m m.binaries w1

/-- The loop of lines 642-644. -/
def removePackageBinaries.loop (env : Env) (m : PackageYaml) : List Binary → World → World
  | [], w => w
  | binary :: rest, w =>
    removePackageBinaries.loop env m rest (osRemove env (generateBinaryName m binary) w).2

/-- Lines 637-647. -/
def removePackageBinaries (env : Env) (baseDir : ClickDir) (w : World) : Option Err × World :=
  match parsePackageYamlFile baseDir w.disk with
  | .error err => (some err, w)
  | .ok m => (none, removePackageBinaries.loop env m m.binaries w)

/-- Lines 649-665; `sd` is the `SecurityDefinitions` of the service or
binary. -/
def addOneSecurityPolicy (env : Env) (m : PackageYaml) (name : String) (sd : GoFields)
    (baseDir : ClickDir) (w : World) : Option Err × World :=
  match env.getSecurityProfile m (filepathBase name) baseDir.path with
  | .error err => (some err, w)
  | .ok profileName =>
    match env.generateSeccompPolicy baseDir.path name sd with
    | .error err => (some err, w)
    | .ok content => writeFile env (.seccomp profileName) content w

/-- The loop of lines 672-676. -/
def addSecurityPolicy.services (env : Env) (m : PackageYaml) (baseDir : ClickDir) :
    List Service → World → Option Err × World
  | [], w => (none, w)
  | svc :: rest, w =>
    match addOneSecurityPolicy env m svc.name svc.extra baseDir w with
    | (some err, w1) => (some err, w1)
    | (none, w1) => addSecurityPolicy.services env m baseDir rest w1

/-- The loop of lines 678-682. -/
def addSecurityPolicy.binaries (env : Env) (m : PackageYaml) (baseDir : ClickDir) :
    List Binary → World → Option Err × World
  | [], w => (none, w)
  | bin :: rest, w =>
    match addOneSecurityPolicy env m bin.name bin.extra baseDir w with
    | (some err, w1) => (some err, w1)
    | (none, w1) => addSecurityPolicy.binaries env m baseDir rest w1

/-- Lines 667-685. -/
def addSecurityPolicy (env : Env) (m : PackageYaml) (baseDir : ClickDir) (w : World) :
    Option Err × World :=
  match addSecurityPolicy.services env m baseDir m.services w with
  | (some err, w1) => (some err, w1)
  | (none, w1) => addSecurityPolicy.binaries env m baseDir m.binaries w1

/-- Lines 687-698. -/
def removeOneSecurityPolicy (env : Env) (m : PackageYaml) (name : String) (baseDir : ClickDir)
    (w : World) : Option Err × World :=
  match env.getSecurityProfile m (filepathBase name) baseDir.path with
  | .error err => (some err, w)
  | .ok profileName =>
    match osRemove env (.seccomp profileName) w with
    | (some err, w1) => if !err.isNotExist then (some err, w1) else (none, w1)
    | (none, w1) => (none, w1)

/-- The loops of lines 702-706 and 708-712, over the names. -/
def removeSecurityPolicy.loop (env : Env) (m : PackageYaml) (baseDir : ClickDir) :
    List String → World → Option Err × World
  | [], w => (none, w)
  | name :: rest, w =>
    match removeOneSecurityPolicy env m name baseDir w with
    | (some err, w1) => (some err, w1)
    | (none, w1) => removeSecurityPolicy.loop env m baseDir rest w1

/-- Lines 700-715. -/
def removeSecurityPolicy (env : Env) (m : PackageYaml) (baseDir : ClickDir) (w : World) :
    Option Err × World :=
  match removeSecurityPolicy.loop env m baseDir (m.services.map (fun s => s.name)) w with
  | (some err, w1) => (some err, w1)
  | (none, w1) => removeSecurityPolicy.loop env m baseDir (m.binaries.map (fun b => b.name)) w1

/-! ## Data directories (lines 984-1052) -/

/-- Lines 1002-1013: the data directories of the homes that exist, then the
system one. -/
def snapDataDirs (env : Env) (fullName version : String) (k : Disk) :
    Except Err (List DataDir) :=
  -- collect the directories, homes first
  match env.globError (.dataHomes fullName version) with
  | some err => .error err
  | none =>
    let dirs := (env.homes.filter
      (fun h => (k.data ⟨.home h, fullName, version⟩).isSome)).map
      (fun h => (⟨.home h, fullName, version⟩ : DataDir))
    -- then system data
    .ok (dirs ++ [⟨.system, fullName, version⟩])

/-- The loop of lines 991-996. -/
def removeSnapData.loop (env : Env) : List DataDir → World → Option Err × World
  | [], w => (none, w)
  | dir :: rest, w =>
    match attempt env (.removeAll (.data dir)) (fun k => k.setData dir none) w with
    | (some err, w1) =>
      if !err.isNotExist then (some err, w1)
      else removeSnapData.loop env rest (attempt env (.remove (.dataParent dir)) id w1).2
    | (none, w1) => removeSnapData.loop env rest (attempt env (.remove (.dataParent dir)) id w1).2

/-- Lines 985-999. -/
def removeSnapData (env : Env) (fullName version : String) (w : World) : Option Err × World :=
  match snapDataDirs env fullName version w.disk with
  | .error err => (some err, w)
  | .ok dirs => removeSnapData.loop env dirs w

/-- Lines 1035-1052. -/
def copySnapDataDirectory (env : Env) (oldPath newPath : DataDir) (w : World) :
    Option Err × World :=
  if (w.disk.data oldPath).isSome then
    if (w.disk.data newPath).isNone then
      -- there is no golang "CopyFile"
      match attempt env (.cp oldPath newPath)
          (fun k => k.setData newPath (k.data oldPath)) w with
      | (some err, w1) =>
        match helpersExitCode err with
        | some exitCode => (some (.dataCopyFailed oldPath newPath exitCode), w1)
        | none => (some err, w1)
      | (none, w1) => (none, w1)
    else (none, w)
  else (none, w)

/-- The loop of lines 1023-1029. -/
def copySnapData.loop (env : Env) (newVersion : String) :
    List DataDir → World → Option Err × World
  | [], w => (none, w)
  | oldDir :: rest, w =>
    -- replace the trailing "../$old-ver" with the "../$new-ver"
    let newDir : DataDir := ⟨oldDir.loc, oldDir.fullName, newVersion⟩
    match copySnapDataDirectory env oldDir newDir w with
    | (some err, w1) => (some err, w1)
    | (none, w1) => copySnapData.loop env newVersion rest w1

/-- Lines 1017-1032. -/
def copySnapData (env : Env) (fullName oldVersion newVersion : String) (w : World) :
    Option Err × World :=
  match snapDataDirs env fullName oldVersion w.disk with
  | .error err => (some err, w)
  | .ok oldDataDirs => copySnapData.loop env newVersion oldDataDirs w

/-! ## Activation (lines 1054-1170) and removal (lines 264-291) -/

/-- Lines 1054-1106. -/
def unsetActiveClick (env : Env) (clickDir : ClickDir) (inhibitHooks : Bool) (w : World) :
    Option Err × World :=
  -- currentSymlink := filepath.Join(clickDir, "..", "current")
  -- sanity check
  match evalCurrent w.disk clickDir.parent with
  | .error err => (some err, w)
  | .ok currentActiveDir =>
    if clickDir ≠ currentActiveDir then (some .snapNotActive, w)
    else
      -- remove generated services, binaries, clickHooks, security policy
      match removePackageBinaries env clickDir w with
      | (some err, w1) => (some err, w1)
      | (none, w1) =>
        match removePackageServices env clickDir w1 with
        | (some err, w2) => (some err, w2)
        | (none, w2) =>
          match parsePackageYamlFile clickDir w2.disk with
          | .error err => (some err, w2)
          | .ok m =>
            match removeSecurityPolicy env m clickDir w2 with
            | (some err, w3) => (some err, w3)
            | (none, w3) =>
              match readClickManifestFromClickDir env clickDir w3.disk with
              | .error err => (some err, w3)
              | .ok manifest =>
                let r : Option Err × World :=
                  if manifest.type = .framework then
                    attempt env (.policyRemove m.name clickDir) id w3
                  else (none, w3)
                match r with
                | (some err, w4) => (some err, w4)
                | (none, w4) =>
                  match removeClickHooks env m (env.originFromBasedir clickDir.path)
                      inhibitHooks w4 with
                  | (some err, w5) => (some err, w5)
                  | (none, w5) =>
                    -- and finally the current symlink
                    match removeCurrent env clickDir.parent w5 with
                    | (some err, w6) =>
                      (none, w6.record
                        (.notice (.failedToRemove (.current clickDir.parent) err)))
                    | (none, w6) => (none, w6)

/-- Lines 1108-1170. -/
def setActiveClick (env : Env) (baseDir : ClickDir) (inhibitHooks : Bool) (w : World) :
    Option Err × World :=
  -- currentActiveSymlink := filepath.Join(baseDir, "..", "current")
  let currentActiveDir := currentActiveDirOf w.disk baseDir.parent
  -- already active, nothing to do
  if some baseDir = currentActiveDir then (none, w)
  else
    -- there is already an active part
    let w1 :=
      match currentActiveDir with
      | some cur => (unsetActiveClick env cur inhibitHooks w).2
      | none => w
    -- make new part active
    match readClickManifestFromClickDir env baseDir w1.disk with
    | .error err => (some err, w1)
    | .ok newActiveManifest =>
      -- yes, its confusing, we have two manifests, this is the important one, the YAML one
      match parsePackageYamlFile baseDir w1.disk with
      | .error err => (some err, w1)
      | .ok m =>
        let origin := env.originFromBasedir baseDir.path
        let r : Option Err × World :=
          if newActiveManifest.type = .framework then
            attempt env (.policyInstall m.name baseDir) id w1
          else (none, w1)
        match r with
        | (some err, w2) => (some err, w2)
        | (none, w2) =>
          match installClickHooks env baseDir m origin inhibitHooks w2 with
          | (some err, w3) =>
            -- cleanup the failed hooks
            (some err, (removeClickHooks env m origin inhibitHooks w3).2)
          | (none, w3) =>
            -- generate the security policy from the package.yaml
            match addSecurityPolicy env m baseDir w3 with
            | (some err, w4) => (some err, w4)
            | (none, w4) =>
              -- add the "binaries:" from the package.yaml
              match addPackageBinaries env baseDir w4 with
              | (some err, w5) => (some err, w5)
              | (none, w5) =>
                -- add the "services:" from the package.yaml
                match addPackageServices env baseDir inhibitHooks w5 with
                | (some err, w6) => (some err, w6)
                | (none, w6) =>
                  -- FIXME: we want to get rid of the current symlink
                  let w7 :=
                    match removeCurrent env baseDir.parent w6 with
                    | (some err, w0) =>
                      if !err.isNotExist then
                        w0.record (.notice (.failedToRemove (.current baseDir.parent) err))
                      else w0
                    | (none, w0) => w0
                  -- symlink is relative to parent dir
                  symlinkCurrent env baseDir.ver baseDir.parent w7

/-- Lines 264-291. -/
def removeClick (env : Env) (clickDir : ClickDir) (w : World) : Option Err × World :=
  match parsePackageYamlFile clickDir w.disk with
  | .error err => (some err, w)
  | .ok m =>
    match removeClickHooks env m (env.originFromBasedir clickDir.path) false w with
    | (some err, w1) => (some err, w1)
    | (none, w1) =>
      -- maybe remove current symlink
      let p := currentActiveDirOf w1.disk clickDir.parent
      let r : Option Err × World :=
        if some clickDir = p then unsetActiveClick env clickDir false w1 else (none, w1)
      match r with
      | (some err, w2) => (some err, w2)
      | (none, w2) =>
        match attempt env (.removeAll (.clickDir clickDir)) (fun k => k.setDir clickDir none)
            w2 with
        | (some err, w3) => (some err, w3)
        | (none, w3) => (none, (attempt env (.remove (.pkgDir clickDir.parent)) id w3).2)

/-! ## Installation (lines 732-767, 778-982) -/

/-- The effect of unpacking the archive of `part` into `instDir`: the
directory exists and its `meta/package.yaml` is the one of the archive, which
parses to `part.m`. -/
def unpackInto (part : SnapPart) (instDir : ClickDir) (k : Disk) : Disk :=
  k.setDir instDir (some { (k.dirs instDir).getD emptyDir with yaml := .ok part.m })

/-- Lines 737-767. -/
def unpackWithDropPrivs (env : Env) (part : SnapPart) (instDir : ClickDir) (w : World) :
    Option Err × World :=
  -- no need to drop privs, we are not root
  if !env.shouldDropPrivs then attempt env (.unpack instDir) (unpackInto part instDir) w
  else
    -- find priv helper executable
    let privHelper := env.privHelper
    if privHelper = "" then (some .unpackHelperNotFound, w)
    else
      match attempt env (.unpackHelper privHelper instDir) (unpackInto part instDir) w with
      | (some err, w1) => (some (.unpackFailed instDir err), w1)
      | (none, w1) => (none, w1)

/-- The effect of writing the file `file` with the manifest `cm` into
`<d>/.click/info`. -/
def addManifest (d : ClickDir) (file : String) (cm : ClickManifest) (k : Disk) : Disk :=
  let c := (k.dirs d).getD emptyDir
  k.setDir d (some { c with manifests := mapSet c.manifests file (.ok cm) })

/-- Lines 780-800; `manifestData` is given by what `json.Unmarshal` makes of
it, `clickMetaDir` by its click directory. Marshalling a `clickManifest`
does not fail. -/
def writeCompatManifestJSON (env : Env) (clickMetaDir : ClickDir)
    (manifestData : Except Err ClickManifest) (origin : String) (w : World) :
    Option Err × World :=
  match manifestData with
  | .error err => (some err, w)
  | .ok cm =>
    let cm : ClickManifest :=
      if cm.type ≠ .framework ∧ cm.type ≠ .oem then
        -- add the origin to the name
        { cm with name := cm.name ++ "." ++ origin }
      else cm
    if (w.disk.dirs clickMetaDir).isNone then
      (some .notExist, w.record (.writeManifest clickMetaDir (cm.name ++ ".manifest") cm))
    else
      attempt env (.writeManifest clickMetaDir (cm.name ++ ".manifest") cm)
        (addManifest clickMetaDir (cm.name ++ ".manifest") cm) w

/-- The services stopped or started so far: `map[string]time.Duration`. -/
abbrev ServiceMap := List (String × Nat)

/-- The loop of lines 947-955 over the services of one active dependent. -/
def installClick.stopServices (env : Env) (dep : Dependent) :
    List Service → ServiceMap → World → Option Err × ServiceMap × World
  | [], stopped, w => (none, stopped, w)
  | svc :: rest, stopped, w =>
    let serviceName := serviceNameOf dep.m svc
    let timeout := svc.stopTimeout
    match attempt env (.stop serviceName timeout) id w with
    | (some err, w1) =>
      (some err, stopped, w1.record (.notify (.unableToStopAborting serviceName err)))
    | (none, w1) =>
      installClick.stopServices env dep rest (mapSet stopped serviceName timeout) w1

/-- The loop of lines 943-956. -/
def installClick.stopDependents (env : Env) :
    List Dependent → ServiceMap → World → Option Err × ServiceMap × World
  | [], stopped, w => (none, stopped, w)
  | dep :: rest, stopped, w =>
    if !dep.isActive then installClick.stopDependents env rest stopped w
    else
      match installClick.stopServices env dep dep.services stopped w with
      | (some err, stopped1, w1) => (some err, stopped1, w1)
      | (none, stopped1, w1) => installClick.stopDependents env rest stopped1 w1

/-- The body of the loop of lines 935-939, for the services in the order in
which the `range` visits them. -/
def installClick.startStopped (env : Env) : ServiceMap → World → World
  | [], w => w
  | (serviceName, _) :: rest, w =>
    match attempt env (.start serviceName) id w with
    | (some e, w1) =>
      installClick.startStopped env rest (w1.record (.notify (.unableToRestartOld serviceName e)))
    | (none, w1) => installClick.startStopped env rest w1

/-- The function deferred at line 933. `err` is the variable it reads: the
one declared at line 926 by `deps, err := part.Dependents()`. -/
def installClick.defer933 (env : Env) (err : Option Err) (stopped : ServiceMap) (w : World) :
    World :=
  match err with
  | some _ => installClick.startStopped env (env.rangeServices w.calls stopped).val w
  | none => w

/-- The body of the loop of lines 965-969, for the services in the order in
which the `range` visits them. -/
def installClick.stopStarted (env : Env) : ServiceMap → World → World
  | [], w => w
  | (serviceName, timeout) :: rest, w =>
    match attempt env (.stop serviceName timeout) id w with
    | (some e, w1) =>
      installClick.stopStarted env rest (w1.record (.notify (.unableToStopOld serviceName e)))
    | (none, w1) => installClick.stopStarted env rest w1

/-- The function deferred at line 963; it reads the `err` of line 926. -/
def installClick.defer963 (env : Env) (err : Option Err) (started : ServiceMap) (w : World) :
    World :=
  match err with
  | some _ => installClick.stopStarted env (env.rangeServices w.calls started).val w
  | none => w

/-- The body of the loop of lines 972-978, for the services in the order in
which the `range` visits them. -/
def installClick.restart (env : Env) :
    ServiceMap → ServiceMap → World → Option Err × ServiceMap × World
  | [], started, w => (none, started, w)
  | (serviceName, timeout) :: rest, started, w =>
    match attempt env (.start serviceName) id w with
    | (some err, w1) =>
      (some err, started, w1.record (.notify (.unableToRestartAborting serviceName err)))
    | (none, w1) => installClick.restart env rest (mapSet started serviceName timeout) w1

/-- The block of lines 925-979 (`if !inhibitHooks`) with the two functions it
defers; the result is the error of the `return "", err` that leaves it, or
`none` when line 981 is reached. Inside the block `err` is the variable
declared at line 926, which shadows the result `err` of the function; the
`err` of line 958 is a third variable, local to that `if`. -/
def installClick.refreshSecurity (env : Env) (part : SnapPart)
    (currentActiveDir : Option ClickDir) (w : World) : Option Err × World :=
  match env.dependents w.calls part with
  | .error err => (some err, w)
  | .ok deps =>
    -- line 933: defer, reading the err of line 926
    match installClick.stopDependents env deps [] w with
    | (some err, stopped, w1) =>
      -- line 952: the err of line 926 holds the error of sysd.Stop
      (some err, installClick.defer933 env (some err) stopped w1)
    | (none, stopped, w1) =>
      match attempt env (.refreshDependentsSecurity currentActiveDir) id w1 with
      | (some err, w2) =>
        -- line 959 returns the err of line 958; the err of line 926 is nil
        (some err, installClick.defer933 env none stopped w2)
      | (none, w2) =>
        -- line 963: defer, reading the err of line 926
        match installClick.restart env (env.rangeServices w2.calls stopped).val [] w2 with
        | (some err, started, w3) =>
          -- line 975: the err of line 926 holds the error of sysd.Start
          (some err, installClick.defer933 env (some err) stopped
            (installClick.defer963 env (some err) started w3))
        | (none, started, w3) =>
          (none, installClick.defer933 env none stopped
            (installClick.defer963 env none started w3))

/-- The function deferred at line 913 (lines 914-918); `err` is the result
`err` of `installClick`. -/
def installClick.defer913 (env : Env) (err : Option Err) (currentActiveDir : Option ClickDir)
    (inhibitHooks : Bool) (w : World) : World :=
  match err, currentActiveDir with
  | some _, some cur =>
    match setActiveClick env cur inhibitHooks w with
    | (some cerr, w1) => w1.record (.notice (.whenSettingOldBack cerr))
    | (none, w1) => w1
  | _, _ => w

/-- The function deferred at line 899 (lines 900-904); `err` is the result
`err` of `installClick`. -/
def installClick.defer899 (env : Env) (err : Option Err) (part : SnapPart) (w : World) :
    World :=
  match err with
  | some _ =>
    match removeSnapData env part.fullName part.version w with
    | (some cerr, w1) => w1.record (.notice (.cleaningUpData cerr))
    | (none, w1) => w1
  | none => w

/-- The function deferred at line 883 (lines 884-888); `err` is the variable
it reads: the one declared at line 876 by `oldM, err := ...`, inside the block
of line 875. -/
def installClick.defer883 (env : Env) (err : Option Err) (currentActiveDir : ClickDir)
    (inhibitHooks : Bool) (w : World) : World :=
  match err with
  | some _ =>
    match setActiveClick env currentActiveDir inhibitHooks w with
    | (some cerr, w1) => w1.record (.notice (.settingOldBackFailed cerr))
    | (none, w1) => w1
  | none => w

/-- The function deferred at line 839 (lines 840-844); `err` is the result
`err` of `installClick`. -/
def installClick.defer839 (env : Env) (err : Option Err) (part : SnapPart) (w : World) :
    World :=
  match err with
  | some _ =>
    match attempt env (.removeAll (.clickDir part.basedir))
        (fun k => k.setDir part.basedir none) w with
    | (some e, w1) =>
      if !e.isNotExist then w1.record (.notice (.failedToRemove (.clickDir part.basedir) e))
      else w1
    | (none, w1) => w1
  | none => w

/-- Lines 899-981: from the `defer` of line 899 to the end, with the
functions deferred at lines 899 and 913. `err` is the value of the result
`err` of `installClick` when line 899 is reached. -/
def installClick.activate (env : Env) (part : SnapPart) (currentActiveDir : Option ClickDir)
    (inhibitHooks : Bool) (err : Option Err) (w : World) : (String × Option Err) × World :=
  let r : (String × Option Err) × World :=
    match err with
    | some e => (("", some e), w)
    | none =>
      -- and finally make active
      let r1 := setActiveClick env part.basedir inhibitHooks w
      let r2 : (String × Option Err) × World :=
        match r1 with
        | (some e, w1) => (("", some e), w1)
        | (none, w1) =>
          -- oh, one more thing: refresh the security bits
          if !inhibitHooks then
            match installClick.refreshSecurity env part currentActiveDir w1 with
            | (some e, w2) => (("", some e), w2)
            | (none, w2) => ((part.name, none), w2)
          else ((part.name, none), w1)
      (r2.1, installClick.defer913 env r2.1.2 currentActiveDir inhibitHooks r2.2)
  (r.1, installClick.defer899 env r.1.2 part r.2)

/-- Lines 849-981: the body after the `defer` of line 839. In the block of
lines 875-895 `err` is the variable declared at line 876; the assignment of
line 894 changes that variable, and the result `err` of the function, which
line 907 tests, is still nil. -/
def installClick.body (env : Env) (part : SnapPart) (origin : String)
    (manifestData : Except Err ClickManifest) (currentActiveDir : Option ClickDir)
    (inhibitHooks : Bool) (w : World) : (String × Option Err) × World :=
  -- we need to call the external helper so that we can reliable drop privs
  match unpackWithDropPrivs env part part.basedir w with
  | (some err, w1) => (("", some err), w1)
  | (none, w1) =>
    -- legacy, the hooks (e.g. apparmor) need this
    match attempt env (.mkdirAll (.clickMeta part.basedir))
        (fun k => k.createDir part.basedir) w1 with
    | (some err, w2) => (("", some err), w2)
    | (none, w2) =>
      match writeCompatManifestJSON env part.basedir manifestData origin w2 with
      | (some err, w3) => (("", some err), w3)
      | (none, w3) =>
        -- write the hashes now
        match attempt env (.extractHashes part.basedir) id w3 with
        | (some err, w4) => (("", some err), w4)
        | (none, w4) =>
          match currentActiveDir with
          | some cur =>
            match parsePackageYamlFile cur w4.disk with
            | .error err => (("", some err), w4)
            | .ok oldM =>
              -- we need to stop making it active
              match unsetActiveClick env cur inhibitHooks w4 with
              | (some err, w5) =>
                (("", some err), installClick.defer883 env (some err) cur inhibitHooks w5)
              | (none, w5) =>
                -- line 894: err = copySnapData(...), the err of line 876
                let copied := copySnapData env part.fullName oldM.version part.version w5
                let r := installClick.activate env part currentActiveDir inhibitHooks none
                  copied.2
                (r.1, installClick.defer883 env copied.1 cur inhibitHooks r.2)
          | none =>
            let dataDir : DataDir := ⟨.system, part.fullName, part.version⟩
            let made := attempt env (.mkdirAll (.data dataDir))
              (fun k => k.createData dataDir) w4
            installClick.activate env part currentActiveDir inhibitHooks made.1 made.2

/-- Lines 813-981: after the archive is opened, before `part.deb.Close()`. -/
def installClick.opened (env : Env) (part : SnapPart) (flags : InstallFlags)
    (origin : String) (w : World) : (String × Option Err) × World :=
  let allowOEM := flags.allowOEM
  let inhibitHooks := flags.inhibitHooks
  match env.canInstall part allowOEM with
  | some err => (("", some err), w)
  | none =>
    match env.controlMember part with
    | .error err => (("", some err), w.record (.notice (.snapInspectFailed err)))
    | .ok manifestData =>
      -- the "oem" parts are special
      let r : Option Err × World :=
        if part.type = .oem then attempt env .oemUdevRules id w else (none, w)
      match r with
      | (some err, w1) => (("", some err), w1)
      | (none, w1) =>
        let currentActiveDir := currentActiveDirOf w1.disk part.basedir.parent
        let w2 :=
          match attempt env (.mkdirAll (.clickDir part.basedir))
              (fun k => k.createDir part.basedir) w1 with
          | (some err, w0) => w0.record (.notice (.canNotCreate part.basedir err))
          | (none, w0) => w0
        -- if anything goes wrong here we cleanup
        let r3 := installClick.body env part origin manifestData currentActiveDir
          inhibitHooks w2
        (r3.1, installClick.defer839 env r3.1.2 part r3.2)

/-- Lines 802-982. -/
def installClick (env : Env) (snapFile : String) (flags : InstallFlags) (origin : String)
    (w : World) : (String × Option Err) × World :=
  let allowUnauthenticated := flags.allowUnauthenticated
  match env.newSnapPartFromSnap snapFile origin allowUnauthenticated with
  | .error err => (("", some err), w)
  | .ok part =>
    let r := installClick.opened env part flags origin w
    (r.1, r.2.record .closeArchive)

/-! ## Predicates of the statements -/

mutual
/-- Every string found in the value, at any depth, satisfies `p`. -/
def GoValue.allStrings (p : String → Bool) : GoValue → Bool
  | .str s => p s
  | .struct fs => GoFields.allStrings p fs
  | .ptr v => GoValue.allStrings p v
  | .nilPtr => true
  | .other => true
/-- Every string field of the struct, at any depth, satisfies `p`. -/
def GoFields.allStrings (p : String → Bool) : GoFields → Bool
  | .nil => true
  | .cons _ _ v rest => GoValue.allStrings p v && GoFields.allStrings p rest
end

/-! ## Concrete surroundings and packages for the examples -/

/-- Surroundings in which every call succeeds: no hook files, no home
directories, no dependents, and no archive to open; the root directory is
`/`, the target of every hook link exists, and a `range` visits the entries
of a map in the order in which they were inserted. -/
def envOk : Env :=
  { outcome := fun _ _ => none
    globError := fun _ => none
    homes := []
    hookFiles := []
    globalRootDir := "/"
    fileExists := fun _ _ => true
    rangeApps := fun _ integration => ⟨integration, List.Perm.refl _⟩
    rangeHooks := fun _ _ hook => ⟨hook, List.Perm.refl _⟩
    rangeServices := fun _ services => ⟨services, List.Perm.refl _⟩
    originFromBasedir := fun _ => ""
    stripGlobalRootDir := fun s => s
    getSecurityProfile := fun m n _ => .ok (m.name ++ "_" ++ n ++ "_" ++ m.version)
    generateSeccompPolicy := fun _ _ _ => .ok "policy"
    genServiceFile := fun d => d.serviceName
    genBusPolicyFile := fun _ => .ok "bus"
    newSnapPartFromSnap := fun _ _ _ => .error .notExist
    canInstall := fun _ _ => none
    controlMember := fun _ => .error .notExist
    dependents := fun _ _ => .ok []
    shouldDropPrivs := false
    privHelper := "" }

/-- The `package.yaml` of an app `foo` without services, binaries and hooks. -/
def yamlFoo (version : String) : PackageYaml :=
  { name := "foo", version := version, type := .app, services := [], binaries := [],
    integration := [] }

/-- The `package.yaml` of `foo` 1.0. -/
def yamlFoo1 : PackageYaml := yamlFoo "1.0"

/-- The click manifest of `foo`. -/
def manifestFoo (version : String) : ClickManifest :=
  { name := "foo", version := version, architecture := [], type := .app, framework := "",
    description := "", icon := "", installedSize := "", maintainer := "", title := "",
    hooks := [] }

/-- The record of `w2` is the record of `w` followed by calls that satisfy
`P`. -/
def Calls (P : Call → Prop) (w w2 : World) : Prop :=
  ∃ added, w2.calls = w.calls ++ added ∧ ∀ c ∈ added, P c

/-- The calls made since the record had `n` entries. -/
def World.callsSince (w : World) (n : Nat) : List Call := w.calls.drop n

/-- The generated files and their directories. -/
def Path.isGenerated : Path → Bool
  | .binariesDir => true
  | .binary _ => true
  | .servicesDir => true
  | .service _ => true
  | .busPolicyDir => true
  | .busPolicy _ => true
  | .seccomp _ => true
  | .hook _ => true
  | _ => false

/-- The symlinks `<parent>/current`. -/
def Path.isCurrent : Path → Bool
  | .current _ => true
  | _ => false

/-- The calls that activating and deactivating a version can make: on the
generated files and the `current` symlink, to the service manager, to the
policy registrar, the hook commands, and their messages. -/
def Call.isActivation : Call → Bool
  | .remove p => p.isGenerated || p.isCurrent
  | .symlink _ p => p.isGenerated || p.isCurrent
  | .writeFile p _ => p.isGenerated
  | .mkdirAll p => p.isGenerated
  | .daemonReload => true
  | .enable _ => true
  | .disable _ => true
  | .start _ => true
  | .stop _ _ => true
  | .kill _ _ => true
  | .sleep => true
  | .policyInstall _ _ => true
  | .policyRemove _ _ => true
  | .exec _ => true
  | .notify (.refusedToStop _) => true
  | .notice (.cantReadHookFile _ _) => true
  | .notice (.skippingHook _) => true
  | .notice (.failedToRemoveServiceFile _ _) => true
  | .notice (.failedToRemoveBusPolicy _ _) => true
  | .notice (.failedToRemove p _) => p.isGenerated || p.isCurrent
  | .print _ => true
  | _ => false

/-- The world `w2` comes from `w` by activation calls that leave the version
directories, the `current` symlinks and the data directories alone. -/
def Arti (w w2 : World) : Prop :=
  Calls (fun c => c.isActivation = true) w w2 ∧ w2.disk.dirs = w.disk.dirs ∧
    w2.disk.current = w.disk.current ∧ w2.disk.data = w.disk.data

/-- The world `w2` comes from `w` by activation calls that leave alone the
version directories, the data directories, and the `current` symlink of every
package directory other than `parent`. -/
def Acti (parent : String) (w w2 : World) : Prop :=
  Calls (fun c => c.isActivation = true) w w2 ∧ w2.disk.dirs = w.disk.dirs ∧
    w2.disk.data = w.disk.data ∧ ∀ p, p ≠ parent → w2.disk.current p = w.disk.current p

/-- The content of the version directory of `foo` at `version`. -/
def dirFoo (version : String) : DirContent :=
  { yaml := .ok (yamlFoo version), manifests := [("foo.manifest", .ok (manifestFoo version))] }

/-- The version directory `/apps/foo/<version>`. -/
def fooDir (version : String) : ClickDir := ⟨"/apps/foo", version⟩

/-- Nothing is installed. -/
def worldEmpty : World :=
  { disk := { dirs := fun _ => none, current := fun _ => none, data := fun _ => none,
              files := fun _ => none }
    calls := [] }

/-- Version 1.0 of `foo` is unpacked and not active. -/
def worldFoo1Installed : World :=
  { disk := { dirs := fun d => if d = fooDir "1.0" then some (dirFoo "1.0") else none
              current := fun _ => none
              data := fun _ => none
              files := fun _ => none }
    calls := [] }

/-- Version 1.0 of `foo` is installed and active, with a system data
directory. -/
def worldFoo1Active : World :=
  { disk := { dirs := fun d => if d = fooDir "1.0" then some (dirFoo "1.0") else none
              current := fun p => if p = "/apps/foo" then some "1.0" else none
              data := fun d => if d = ⟨.system, "foo", "1.0"⟩ then some "data 1.0" else none
              files := fun _ => none }
    calls := [] }

/-- The archive `foo_2.0.snap`: version 2.0 of `foo`, to be unpacked into
`/apps/foo/2.0`. -/
def partFoo2 : SnapPart :=
  { name := "foo", version := "2.0", type := .app, fullName := "foo", basedir := fooDir "2.0",
    m := yamlFoo "2.0" }

/-- A service `svc` without bus name. -/
def serviceSvc : Service :=
  { name := "svc", description := "", start := "bin/svc", stop := "", postStop := "",
    stopTimeout := 30, busName := "", extra := .nil }

/-- An active dependent `bar` 1.0 of `foo` with the service `svc`. -/
def dependentBar : Dependent :=
  { m := { name := "bar", version := "1.0", type := .app, services := [serviceSvc],
           binaries := [], integration := [] }
    isActive := true
    services := [serviceSvc] }

/-- Surroundings in which `foo_2.0.snap` opens as `partFoo2`, the calls fail
as `outcome` says, and `foo` has the dependents `deps`. -/
def envInstall (outcome : List Call → Call → Option Err) (deps : List Dependent) : Env :=
  { envOk with
    outcome := outcome
    newSnapPartFromSnap := fun _ _ _ => .ok partFoo2
    controlMember := fun _ => .ok (.ok (manifestFoo "2.0"))
    dependents := fun _ _ => .ok deps }

/-- Only `cp -a` fails, with exit code 1. -/
def failCp : List Call → Call → Option Err
  | _, .cp _ _ => some (.exitError 1)
  | _, _ => none

/-- Only `RefreshDependentsSecurity` fails. -/
def failRefresh : List Call → Call → Option Err
  | _, .refreshDependentsSecurity _ => some (.other 7)
  | _, _ => none

/-- Both `cp -a`, with exit code 1, and `RefreshDependentsSecurity` fail. -/
def failCpRefresh : List Call → Call → Option Err
  | _, .cp _ _ => some (.exitError 1)
  | _, .refreshDependentsSecurity _ => some (.other 7)
  | _, _ => none

/-- Flags with `InhibitHooks` set or not, the others unset. -/
def flagsInhibit (inhibitHooks : Bool) : InstallFlags :=
  { allowUnauthenticated := false, allowOEM := false, inhibitHooks := inhibitHooks }

/-- The calls that only the block of lines 925-979 makes with these
arguments: `RefreshDependentsSecurity`, and the message of line 951. -/
def Call.isRefreshStep : Call → Bool
  | .refreshDependentsSecurity _ => true
  | .notify (.unableToStopAborting _ _) => true
  | _ => false

/-- The world `w2` comes from `w` by calls other than those of
`Call.isRefreshStep`. -/
def Outside (w w2 : World) : Prop := Calls (fun c => c.isRefreshStep = false) w w2

/-- The call stops a service of an active dependent among `deps`. -/
def IsDependentStop (deps : List Dependent) (c : Call) : Prop :=
  ∃ dep, dep ∈ deps ∧ dep.isActive = true ∧
    ∃ svc, svc ∈ dep.services ∧ ∃ t, c = .stop (serviceNameOf dep.m svc) t

/-- The name is the one of a service of an active dependent among `deps`. -/
def IsDependentService (deps : List Dependent) (name : String) : Prop :=
  ∃ dep, dep ∈ deps ∧ dep.isActive = true ∧
    ∃ svc, svc ∈ dep.services ∧ name = serviceNameOf dep.m svc

/-- The calls the block of lines 925-979 can make when the dependents are
`deps`: stops of services of active dependents, starts,
`RefreshDependentsSecurity`, and messages to the user. -/
def IsBlockCall (deps : List Dependent) (c : Call) : Prop :=
  (∃ s t, c = .stop s t ∧ IsDependentService deps s) ∨ (∃ s, c = .start s) ∨
    (∃ old, c = .refreshDependentsSecurity old) ∨ ∃ m, c = .notify m

/-- Either no message of line 951 is among the calls from `w` to `w2`, or
the result is the error `e` of such a message, every such message carries
`e`, and `RefreshDependentsSecurity` is not among the calls. -/
def StopAbort (w w2 : World) (err : Option Err) : Prop :=
  Calls (fun c => ∀ s e, c ≠ .notify (.unableToStopAborting s e)) w w2 ∨
  ∃ e, err = some e ∧
    Calls (fun c => (∀ old, c ≠ .refreshDependentsSecurity old) ∧
      ∀ s e2, c = .notify (.unableToStopAborting s e2) → e2 = e) w w2

/-- The world `w2` comes from `w` by calls outside the security refresh that
leave alone the `current` symlinks, the data directories, and the version
directories other than `basedir`, and remove no version directory. -/
def Diri (basedir : ClickDir) (w w2 : World) : Prop :=
  Outside w w2 ∧ w2.disk.current = w.disk.current ∧ w2.disk.data = w.disk.data ∧
    (∀ d, d ≠ basedir → w2.disk.dirs d = w.disk.dirs d) ∧
    (∀ d, (w.disk.dirs d).isSome = true → (w2.disk.dirs d).isSome = true)

/-- The world `w2` comes from `w` by calls outside the security refresh that
leave alone the version directories and the `current` symlinks. -/
def Dati (w w2 : World) : Prop :=
  Outside w w2 ∧ w2.disk.dirs = w.disk.dirs ∧ w2.disk.current = w.disk.current

/-- Only `sysd.Stop` fails, with an error that is no timeout. -/
def failStop : List Call → Call → Option Err
  | _, .stop _ _ => some (.other 5)
  | _, _ => none

/-- An inactive dependent `baz` 1.0 of `foo` with the service `svc`. -/
def dependentBaz : Dependent :=
  { m := { name := "baz", version := "1.0", type := .app, services := [serviceSvc],
           binaries := [], integration := [] }
    isActive := false
    services := [serviceSvc] }

/-- The `current` symlink of every package directory is absent or resolves
to an existing version directory of that package. -/
def ConsistentCurrent (w : World) : Prop :=
  ∀ parent v, w.disk.current parent = some v → (w.disk.dirs ⟨parent, v⟩).isSome = true

/-- The states reached from a consistent state by `setActiveClick`,
`unsetActiveClick` and `removeClick` calls, and by `installClick` calls that
return a nil error. -/
inductive Reachable (env : Env) : World → Prop where
  | consistent (w : World) : ConsistentCurrent w → Reachable env w
  | setActive (w : World) (baseDir : ClickDir) (inhibitHooks : Bool) :
      Reachable env w → Reachable env (setActiveClick env baseDir inhibitHooks w).2
  | unsetActive (w : World) (clickDir : ClickDir) (inhibitHooks : Bool) :
      Reachable env w → Reachable env (unsetActiveClick env clickDir inhibitHooks w).2
  | removed (w : World) (clickDir : ClickDir) :
      Reachable env w → Reachable env (removeClick env clickDir w).2
  | installed (w : World) (snapFile : String) (flags : InstallFlags) (origin : String) :
      Reachable env w → (installClick env snapFile flags origin w).1.2 = none →
      Reachable env (installClick env snapFile flags origin w).2

/-- No call fails. -/
def failNothing : List Call → Call → Option Err := fun _ _ => none

/-- The messages that report a failed compensation of `installClick`: lines
842, 886, 902 and 916. -/
def Call.isRollbackFailure : Call → Bool
  | .notice (.failedToRemove (.clickDir _) _) => true
  | .notice (.settingOldBackFailed _) => true
  | .notice (.cleaningUpData _) => true
  | .notice (.whenSettingOldBack _) => true
  | _ => false

/-- No compensation reported a failure from `w` to `w2`. -/
def Clean (w w2 : World) : Prop := Calls (fun c => c.isRollbackFailure = false) w w2

/-- The record of `w2` extends the record of `w`. -/
def Ext (w w2 : World) : Prop := Calls (fun _ => True) w w2

/-- The places `snapDataDirs` looks at: the system data directory and the
home directories matched by `snapDataHomeGlob`. -/
def Listed (env : Env) (loc : DataLoc) : Prop :=
  loc = .system ∨ ∃ h, h ∈ env.homes ∧ loc = .home h

/-- What `installClick` leaves of the `current` symlink of `parent` when it
fails: the link to the version `cur` that was active, or, when none was, the
link as it was, no link, or a link to the new version `ver`. -/
def CurrentAfter (cur : Option ClickDir) (parent ver : String) (w w2 : World) : Prop :=
  match cur with
  | some old => w2.disk.current parent = some old.ver
  | none =>
    w2.disk.current parent = w.disk.current parent ∨ w2.disk.current parent = none ∨
      w2.disk.current parent = some ver

/-- The data directories after a failed `installClick`, from line 899 on:
those of the new version in the listed places are gone, the others are as
they were. -/
def DataAfter (env : Env) (part : SnapPart) (w w2 : World) : Prop :=
  (∀ d, d.fullName = part.fullName → d.version = part.version → Listed env d.loc →
    w2.disk.data d = none) ∧
  (∀ d, ¬ (d.fullName = part.fullName ∧ d.version = part.version ∧ Listed env d.loc) →
    w2.disk.data d = w.disk.data d)

/-- Only unpacking the archive fails. -/
def failUnpack : List Call → Call → Option Err
  | _, .unpack _ => some (.other 3)
  | _, _ => none

/-- Versions 1.0 and 2.0 of `foo` are unpacked, 1.0 is active and has a
system data directory. -/
def worldFoo12 : World :=
  { disk := { dirs := fun d =>
                if d = fooDir "1.0" then some (dirFoo "1.0")
                else if d = fooDir "2.0" then some (dirFoo "2.0") else none
              current := fun p => if p = "/apps/foo" then some "1.0" else none
              data := fun d => if d = ⟨.system, "foo", "1.0"⟩ then some "data 1.0" else none
              files := fun _ => none }
    calls := [] }


/-- A struct whose first exported field is a pointer to a struct with a legal
string, followed by an exported string field with the value `content`. -/
def structPtrThenString (content : String) : GoFields :=
  .cons "Ports" true (.ptr (.struct (.cons "Internal" true (.str "8080") .nil)))
    (.cons "SecurityTemplate" true (.str content) .nil)

/-- A struct whose first exported field is an empty struct, followed by an
exported string field with the value `content`. -/
def structThenString (content : String) : GoFields :=
  .cons "Limits" true (.struct .nil) (.cons "SecurityTemplate" true (.str content) .nil)

/-- The fields of `structPtrThenString` in the other order. -/
def stringThenStructPtr (content : String) : GoFields :=
  .cons "SecurityTemplate" true (.str content)
    (.cons "Ports" true (.ptr (.struct (.cons "Internal" true (.str "8080") .nil))) .nil)

/-- The hook file `<clickSystemHooksDir>/<file>` that parses and has no
`Hook-Name`. -/
def hookFileNamed (file : String) : HookFile :=
  { path := "/usr/share/click/hooks/" ++ file
    content := some (some [("Exec", "true"), ("Pattern", "/var/lib/hooks/$\x7bid\x7d")])
    readErr := .notExist
    parseErr := .other 1 }


/-- The name `writeCompatManifestJSON` gives the manifest it writes (lines
786-789): the name itself for a framework or an OEM package, and
`fmt.Sprintf("%s.%s", name, origin)` for every other type. -/
def compatManifestName (cm : ClickManifest) (origin : String) : String :=
  if cm.type = .framework ∨ cm.type = .oem then cm.name else cm.name ++ "." ++ origin


/-- The removal of the unit file and of the bus-policy file of one service
(lines 584-591), from the world `w` reached after the service was stopped or
killed. -/
def removePackageServices.files (env : Env) (m : PackageYaml) (service : Service) (w : World) :
    World :=
  let serviceName := serviceNameOf m service
  let w7 :=
    match osRemove env (generateServiceFileName m service) w with
    | (some err, w0) =>
      if !err.isNotExist then w0.record (.notice (.failedToRemoveServiceFile serviceName err))
      else w0
    | (none, w0) => w0
  match osRemove env (generateBusPolicyFileName m service) w7 with
  | (some err, w0) =>
    if !err.isNotExist then w0.record (.notice (.failedToRemoveBusPolicy serviceName err))
    else w0
  | (none, w0) => w0

/-- The world after `Disable` and `Stop` of the service were called and the
service, which did not stop in time, was sent TERM and KILL (lines 570-581). -/
def removePackageServices.killed (m : PackageYaml) (service : Service) (w : World) : World :=
  let serviceName := serviceNameOf m service
  let w1 := w.record (.disable serviceName)
  let w2 := w1.record (.stop serviceName service.stopTimeout)
  let w3 := w2.record (.notify (.refusedToStop serviceName))
  let w4 := w3.record (.kill serviceName "TERM")
  let w5 := w4.record .sleep
  w5.record (.kill serviceName "KILL")

/-- The `package.yaml` of `foo` 1.0 with the service `svc`. -/
def yamlFooSvc : PackageYaml := { yamlFoo1 with services := [serviceSvc] }

/-- Version 1.0 of `foo` with the service `svc` is unpacked; the unit file of
the service and a file of another package are there. -/
def worldFooSvc : World :=
  { disk := { dirs := fun d =>
                if d = fooDir "1.0" then some { yaml := .ok yamlFooSvc, manifests := [] } else none
              current := fun p => if p = "/apps/foo" then some "1.0" else none
              data := fun _ => none
              files := fun p =>
                if p = .service "foo_svc_1.0.service" then some "unit"
                else if p = .service "bar_svc_1.0.service" then some "other" else none }
    calls := [] }

/-- Only `sysd.Stop` fails, with a timeout. -/
def failStopTimeout : List Call → Call → Option Err
  | _, .stop _ _ => some (.timeout 30)
  | _, _ => none


/-- The pieces joined by the separator:
`p1 ++ sep ++ p2 ++ sep ++ ... ++ pn`. -/
def joinWith (sep : String) : List String → String
  | [] => ""
  | [p] => p
  | p :: q :: ps => p ++ sep ++ joinWith sep (q :: ps)

/-- The text `sub` occurs in `s` as a substring. -/
def Occurs (sub s : String) : Prop := sub.toList <:+: s.toList

instance (sub s : String) : Decidable (Occurs sub s) :=
  inferInstanceAs (Decidable (sub.toList <:+: s.toList))


/-- The world `worldFooSvc` with the seccomp profile of the service `svc`
written. -/
def worldFooProfile : World :=
  { worldFooSvc with
    disk := worldFooSvc.disk.setFile (.seccomp "foo_svc_1.0") (some "policy") }


/-- The entries `(app, hookName, sourceFile)` for which the callback of
`iterHooks` was invoked, in the order of the invocations. -/
abbrev HookLog := List (String × String × String)

/-- The entries of one app whose hook name is not in the ignore set and is in
the registry. -/
def matchedHooks (systemHooks : List (String × ClickHook)) (app : String)
    (hooks : List (String × String)) : HookLog :=
  (hooks.filter (fun h => !ignoreHooks h.1 && (systemHooks.lookup h.1).isSome)).map
    (fun h => (app, h.1, h.2))

/-- The entries `(app, hookName, sourceFile)` of a list of apps whose hook name
is not in the ignore set and is in the registry, in the order of the list. -/
def matchedEntries (systemHooks : List (String × ClickHook))
    (integration : List (String × List (String × String))) : HookLog :=
  integration.flatMap (fun a => matchedHooks systemHooks a.1 a.2)

/-- Only the hook commands fail, with exit code 1. -/
def failExec : List Call → Call → Option Err
  | _, .exec _ => some (.exitError 1)
  | _, _ => none

/-- A run-time panic of Go. -/
inductive GoPanic where
  /-- `slice bounds out of range [index:len]` -/
  | sliceBoundsOutOfRange (index len : Nat)
deriving DecidableEq, Repr

/-- The bytes of a Go string with this text: its UTF-8 encoding. `len` of a
Go string is the length of this list. -/
def goBytes (s : String) : List UInt8 := s.data.flatMap String.utf8EncodeChar

/-- The slice expression `s[n:]` of a Go string: it panics when `n` is
greater than `len(s)`. -/
def goSliceFrom (s : List UInt8) (n : Nat) : Except GoPanic (List UInt8) :=
  if n ≤ s.length then .ok (s.drop n) else .error (.sliceBoundsOutOfRange n s.length)

/-- Lines 478-484; `globalRootDir` is the package variable, strings are given
by their bytes. -/
def stripGlobalRootDirImpl (globalRootDir dir : List UInt8) : Except GoPanic (List UInt8) :=
  if globalRootDir = goBytes "/" then .ok dir
  else goSliceFrom dir globalRootDir.length

/-- A service `log` without bus name. -/
def serviceLog : Service :=
  { name := "log", description := "", start := "bin/log", stop := "", postStop := "",
    stopTimeout := 10, busName := "", extra := .nil }

/-- A service `tail` without bus name. -/
def serviceTail : Service :=
  { name := "tail", description := "", start := "bin/tail", stop := "", postStop := "",
    stopTimeout := 20, busName := "", extra := .nil }

/-- An active dependent `qux` 1.0 of `foo` with the services `svc`, `log` and
`tail`. -/
def dependentQux : Dependent :=
  { m := { name := "qux", version := "1.0", type := .app,
           services := [serviceSvc, serviceLog, serviceTail], binaries := [],
           integration := [] }
    isActive := true
    services := [serviceSvc, serviceLog, serviceTail] }

/-- Only `sysd.Stop` of the service `log` of `qux` fails. -/
def failStopLog : List Call → Call → Option Err
  | _, .stop name _ => if name = "qux_log_1.0.service" then some (.other 5) else none
  | _, _ => none

/-! ## Theorems -/

/-! ### Whitelist validation -/

theorem verifyFields_of_allStrings (r : String → Bool) (wl : String) :
    ∀ fs : GoFields, GoFields.allStrings r fs = true → verifyFields r wl fs = none
  | .nil, _ => by simp [verifyFields]
  | .cons name exported v rest, h => by
    simp only [GoFields.allStrings, Bool.and_eq_true] at h
    have hrest := verifyFields_of_allStrings r wl rest h.2
    cases v with
    | str s =>
      have hs : r s = true := by simpa [GoValue.allStrings] using h.1
      cases exported <;> simp [verifyFields, hs, hrest]
    | struct fs =>
      have hfs : GoFields.allStrings r fs = true := by simpa [GoValue.allStrings] using h.1
      have hin := verifyFields_of_allStrings r wl fs hfs
      cases exported <;> simp [verifyFields, hin, hrest]
    | nilPtr => cases exported <;> simp [verifyFields, hrest]
    | other => cases exported <;> simp [verifyFields, hrest]
    | ptr e =>
      cases e with
      | struct fs =>
        have hfs : GoFields.allStrings r fs = true := by
          simpa [GoValue.allStrings] using h.1
        have hin := verifyFields_of_allStrings r wl fs hfs
        cases exported <;> simp [verifyFields, hin, hrest]
      | str s => cases exported <;> simp [verifyFields, hrest]
      | nilPtr => cases exported <;> simp [verifyFields, hrest]
      | other => cases exported <;> simp [verifyFields, hrest]
      | ptr e2 => cases exported <;> simp [verifyFields, hrest]

theorem whitelistMatch_eq_false {s : String} {c : Char} (hc : c ∈ s.toList)
    (hw : whitelistChar c = false) : whitelistMatch s = false := by
  unfold whitelistMatch
  rw [Bool.eq_false_iff]
  intro hall
  rw [List.all_eq_true] at hall
  have := hall c hc
  simp [hw] at this

theorem verifyBinariesYaml_bad (binary : Binary)
    (h : whitelistMatch binary.name = false ∨ whitelistMatch binary.exec = false) :
    verifyBinariesYaml binary ≠ none := by
  unfold verifyBinariesYaml verifyStructStringsAgainstWhitelist Binary.fields
  by_cases hn : whitelistMatch binary.name = true
  · rcases h with h | h
    · rw [hn] at h
      exact absurd h (by simp)
    · simp [verifyFields, hn, h]
  · simp [verifyFields, hn]

theorem wrapperTemplate_ne_empty (name version target path aaProfile udevAppName origin : String) :
    wrapperTemplate name version target path aaProfile udevAppName origin ≠ "" := by
  intro h
  have hl := congrArg String.length h
  simp only [wrapperTemplate, String.length_append] at hl
  have : ("#!/bin/sh\n" : String).length = 10 := by decide
  simp [this] at hl

/-- C10: `generateSnapBinaryWrapper` returns the empty string and an error for
every binary whose name or exec holds a character outside the class
`[A-Za-z0-9/. _#:-]` (`whitelistChar`), and returns the wrapper text, which
is not empty, and no error for every binary all of whose string fields hold
only characters of the class. -/
theorem generateSnapBinaryWrapper_whitelist (env : Env) (binary : Binary)
    (pkgPath aaProfile : String) (m : PackageYaml) :
    ((∃ c, (c ∈ binary.name.toList ∨ c ∈ binary.exec.toList) ∧ whitelistChar c = false) →
      (generateSnapBinaryWrapper env binary pkgPath aaProfile m).1 = "" ∧
      (generateSnapBinaryWrapper env binary pkgPath aaProfile m).2 ≠ none) ∧
    (GoFields.allStrings whitelistMatch binary.fields = true →
      (generateSnapBinaryWrapper env binary pkgPath aaProfile m).2 = none ∧
      (generateSnapBinaryWrapper env binary pkgPath aaProfile m).1 ≠ "" ∧
      (generateSnapBinaryWrapper env binary pkgPath aaProfile m).1 =
        wrapperTemplate m.name m.version (binPathForBinary pkgPath binary) pkgPath aaProfile
          (m.qualifiedName (env.originFromBasedir pkgPath)) (env.originFromBasedir pkgPath)) := by
  constructor
  · rintro ⟨c, hc, hw⟩
    have hbad : verifyBinariesYaml binary ≠ none := by
      apply verifyBinariesYaml_bad
      rcases hc with hc | hc
      · exact Or.inl (whitelistMatch_eq_false hc hw)
      · exact Or.inr (whitelistMatch_eq_false hc hw)
    unfold generateSnapBinaryWrapper
    cases hv : verifyBinariesYaml binary with
    | none => exact absurd hv hbad
    | some e => simp
  · intro h
    have hok : verifyBinariesYaml binary = none := by
      unfold verifyBinariesYaml verifyStructStringsAgainstWhitelist
      exact verifyFields_of_allStrings _ _ _ h
    unfold generateSnapBinaryWrapper
    simp only [hok]
    exact ⟨trivial, wrapperTemplate_ne_empty _ _ _ _ _ _ _, trivial⟩

/-- C10 at the binaries of the spec: exec `; rm -rf /` and an exec with a
newline are rejected, exec `bin/start` is accepted. -/
theorem generateSnapBinaryWrapper_whitelist_witness :
    ((generateSnapBinaryWrapper envOk ⟨"start", "; rm -rf /", .nil⟩ "/apps/foo/1.0"
        "foo_start_1.0" yamlFoo1).1 = "" ∧
      (generateSnapBinaryWrapper envOk ⟨"start", "; rm -rf /", .nil⟩ "/apps/foo/1.0"
        "foo_start_1.0" yamlFoo1).2 ≠ none) ∧
    ((generateSnapBinaryWrapper envOk ⟨"start", "bin/start\nrm", .nil⟩ "/apps/foo/1.0"
        "foo_start_1.0" yamlFoo1).1 = "" ∧
      (generateSnapBinaryWrapper envOk ⟨"start", "bin/start\nrm", .nil⟩ "/apps/foo/1.0"
        "foo_start_1.0" yamlFoo1).2 ≠ none) ∧
    ((generateSnapBinaryWrapper envOk ⟨"start", "bin/start", .nil⟩ "/apps/foo/1.0"
        "foo_start_1.0" yamlFoo1).2 = none ∧
      (generateSnapBinaryWrapper envOk ⟨"start", "bin/start", .nil⟩ "/apps/foo/1.0"
        "foo_start_1.0" yamlFoo1).1 ≠ "" ∧
      (generateSnapBinaryWrapper envOk ⟨"start", "bin/start", .nil⟩ "/apps/foo/1.0"
        "foo_start_1.0" yamlFoo1).1 =
        wrapperTemplate "foo" "1.0" "/apps/foo/1.0/bin/start" "/apps/foo/1.0" "foo_start_1.0"
          "foo" "") :=
  ⟨(generateSnapBinaryWrapper_whitelist envOk ⟨"start", "; rm -rf /", .nil⟩ "/apps/foo/1.0"
      "foo_start_1.0" yamlFoo1).1 ⟨';', Or.inr (by decide), by decide⟩,
   (generateSnapBinaryWrapper_whitelist envOk ⟨"start", "bin/start\nrm", .nil⟩ "/apps/foo/1.0"
      "foo_start_1.0" yamlFoo1).1 ⟨'\n', Or.inr (by decide), by decide⟩,
   (generateSnapBinaryWrapper_whitelist envOk ⟨"start", "bin/start", .nil⟩ "/apps/foo/1.0"
      "foo_start_1.0" yamlFoo1).2 (by decide)⟩

/-! ### The record of calls -/

theorem Calls.crefl (P : Call → Prop) (w : World) : Calls P w w :=
  ⟨[], by simp, by simp⟩

theorem Calls.ctrans {P : Call → Prop} {w1 w2 w3 : World} (h12 : Calls P w1 w2)
    (h23 : Calls P w2 w3) : Calls P w1 w3 := by
  obtain ⟨a, ha, hPa⟩ := h12
  obtain ⟨b, hb, hPb⟩ := h23
  refine ⟨a ++ b, by rw [hb, ha, List.append_assoc], ?_⟩
  intro c hc
  rcases List.mem_append.mp hc with h | h
  · exact hPa c h
  · exact hPb c h

theorem Calls.cmono {P Q : Call → Prop} {w1 w2 : World} (h : Calls P w1 w2)
    (hPQ : ∀ c, P c → Q c) : Calls Q w1 w2 := by
  obtain ⟨a, ha, hPa⟩ := h
  exact ⟨a, ha, fun c hc => hPQ c (hPa c hc)⟩

theorem Calls.record {P : Call → Prop} (w : World) (c : Call) (hc : P c) :
    Calls P w (w.record c) :=
  ⟨[c], rfl, by simpa using hc⟩

theorem attempt_calls {P : Call → Prop} (env : Env) (c : Call) (eff : Disk → Disk) (w : World)
    (hc : P c) : Calls P w (attempt env c eff w).2 := by
  unfold attempt
  split
  · exact Calls.record w c hc
  · exact ⟨[c], rfl, by simpa using hc⟩

theorem attempt_disk (env : Env) (c : Call) (eff : Disk → Disk) (w : World) :
    (attempt env c eff w).2.disk = w.disk ∨
    ((attempt env c eff w).1 = none ∧ (attempt env c eff w).2.disk = eff w.disk) := by
  unfold attempt
  split
  · exact Or.inl rfl
  · exact Or.inr ⟨rfl, rfl⟩

theorem attempt_none {env : Env} {c : Call} {eff : Disk → Disk} {w w1 : World}
    (h : attempt env c eff w = (none, w1)) :
    w1.disk = eff w.disk ∧ w1.calls = w.calls ++ [c] ∧ env.outcome w.calls c = none := by
  unfold attempt at h
  split at h
  · simp at h
  · next ho =>
    simp only [Prod.mk.injEq, true_and] at h
    subst h
    exact ⟨rfl, rfl, ho⟩

theorem attempt_some {env : Env} {c : Call} {eff : Disk → Disk} {w w1 : World} {e : Err}
    (h : attempt env c eff w = (some e, w1)) :
    w1 = w.record c ∧ env.outcome w.calls c = some e := by
  unfold attempt at h
  split at h
  · next e0 ho =>
    simp only [Prod.mk.injEq, Option.some.injEq] at h
    obtain ⟨h1, h2⟩ := h
    subst h1 h2
    exact ⟨rfl, ho⟩
  · simp at h

/-! ### Data directories -/

theorem copySnapDataDirectory_spec (env : Env) (o n : DataDir) (w : World) :
    ∃ added, (copySnapDataDirectory env o n w).2.calls = w.calls ++ added ∧
      (∀ c ∈ added, c = Call.cp o n ∧ (w.disk.data o).isSome = true ∧ w.disk.data n = none) ∧
      (copySnapDataDirectory env o n w).2.disk.dirs = w.disk.dirs ∧
      (copySnapDataDirectory env o n w).2.disk.current = w.disk.current ∧
      (copySnapDataDirectory env o n w).2.disk.files = w.disk.files ∧
      (∀ d, d ≠ n → (copySnapDataDirectory env o n w).2.disk.data d = w.disk.data d) ∧
      ((w.disk.data n).isSome = true →
        (copySnapDataDirectory env o n w).2.disk.data n = w.disk.data n) := by
  generalize hr : copySnapDataDirectory env o n w = r
  unfold copySnapDataDirectory at hr
  split at hr
  · next ho =>
    split at hr
    · next hn =>
      have hn2 : w.disk.data n = none := by simpa using hn
      split at hr
      · next err w1 ha =>
        obtain ⟨h1, _⟩ := attempt_some ha
        subst h1
        split at hr <;> subst hr <;>
          exact ⟨[.cp o n], rfl, fun c hc => ⟨by simpa using hc, ho, hn2⟩, rfl, rfl, rfl,
            fun _ _ => rfl, fun _ => rfl⟩
      · next w1 ha =>
        obtain ⟨h1, h2, _⟩ := attempt_none ha
        subst hr
        refine ⟨[.cp o n], h2, fun c hc => ⟨by simpa using hc, ho, hn2⟩, ?_, ?_, ?_, ?_, ?_⟩
        · simp [h1, Disk.setData]
        · simp [h1, Disk.setData]
        · simp [h1, Disk.setData]
        · intro d hd
          simp [h1, Disk.setData, hd]
        · intro h
          simp [hn2] at h
    · subst hr
      exact ⟨[], by simp, by simp, rfl, rfl, rfl, fun _ _ => rfl, fun _ => rfl⟩
  · subst hr
    exact ⟨[], by simp, by simp, rfl, rfl, rfl, fun _ _ => rfl, fun _ => rfl⟩

theorem copySnapDataDirectory_keeps (env : Env) (o n : DataDir) (w : World) (d : DataDir)
    (hd : (w.disk.data d).isSome = true) :
    (copySnapDataDirectory env o n w).2.disk.data d = w.disk.data d := by
  obtain ⟨_, _, _, _, _, _, hne, hsame⟩ := copySnapDataDirectory_spec env o n w
  by_cases h : d = n
  · subst h
    exact hsame hd
  · exact hne d h

theorem copySnapData_loop_spec (env : Env) (newVersion : String) :
    ∀ (dirs : List DataDir) (w : World),
    ∃ added, (copySnapData.loop env newVersion dirs w).2.calls = w.calls ++ added ∧
      (∀ c ∈ added, ∃ o, o ∈ dirs ∧ c = Call.cp o ⟨o.loc, o.fullName, newVersion⟩ ∧
        (w.disk.data o).isSome = true ∧ w.disk.data ⟨o.loc, o.fullName, newVersion⟩ = none) ∧
      (copySnapData.loop env newVersion dirs w).2.disk.dirs = w.disk.dirs ∧
      (copySnapData.loop env newVersion dirs w).2.disk.current = w.disk.current ∧
      (copySnapData.loop env newVersion dirs w).2.disk.files = w.disk.files ∧
      (∀ d, (w.disk.data d).isSome = true →
        (copySnapData.loop env newVersion dirs w).2.disk.data d = w.disk.data d) ∧
      (∀ d, (copySnapData.loop env newVersion dirs w).2.disk.data d ≠ w.disk.data d →
        ∃ o, o ∈ dirs ∧ d = ⟨o.loc, o.fullName, newVersion⟩) := by
  intro dirs
  induction dirs with
  | nil =>
    intro w
    exact ⟨[], by simp [copySnapData.loop], by simp, rfl, rfl, rfl, fun _ _ => rfl,
      fun d h => absurd rfl h⟩
  | cons o rest ih =>
    intro w
    obtain ⟨a1, hc1, hP1, hd1, hcur1, hf1, hne1, hsame1⟩ :=
      copySnapDataDirectory_spec env o ⟨o.loc, o.fullName, newVersion⟩ w
    have hkeep1 := copySnapDataDirectory_keeps env o ⟨o.loc, o.fullName, newVersion⟩ w
    have hhead : ∀ c ∈ a1, ∃ o2, o2 ∈ o :: rest ∧
        c = Call.cp o2 ⟨o2.loc, o2.fullName, newVersion⟩ ∧
        (w.disk.data o2).isSome = true ∧ w.disk.data ⟨o2.loc, o2.fullName, newVersion⟩ = none :=
      fun c hc => ⟨o, List.mem_cons_self _ _, (hP1 c hc).1, (hP1 c hc).2.1, (hP1 c hc).2.2⟩
    have hchg1 : ∀ d, (copySnapDataDirectory env o ⟨o.loc, o.fullName, newVersion⟩ w).2.disk.data d
        ≠ w.disk.data d → ∃ o2, o2 ∈ o :: rest ∧ d = ⟨o2.loc, o2.fullName, newVersion⟩ := by
      intro d hd
      refine ⟨o, List.mem_cons_self _ _, ?_⟩
      by_contra hne
      exact hd (hne1 d hne)
    generalize hr : copySnapData.loop env newVersion (o :: rest) w = r
    unfold copySnapData.loop at hr
    dsimp only at hr
    split at hr
    · next err w1 hcp =>
      subst hr
      rw [hcp] at hc1 hd1 hcur1 hf1 hkeep1 hchg1
      exact ⟨a1, hc1, hhead, hd1, hcur1, hf1, hkeep1, hchg1⟩
    · next w1 hcp =>
      subst hr
      rw [hcp] at hc1 hd1 hcur1 hf1 hkeep1 hchg1 hne1
      dsimp only at hc1 hd1 hcur1 hf1 hkeep1 hchg1 hne1
      obtain ⟨a2, hc2, hP2, hd2, hcur2, hf2, hkeep2, hchg2⟩ := ih w1
      refine ⟨a1 ++ a2, by rw [hc2, hc1, List.append_assoc], ?_, hd2.trans hd1,
        hcur2.trans hcur1, hf2.trans hf1, ?_, ?_⟩
      · intro c hc
        rcases List.mem_append.mp hc with h | h
        · exact hhead c h
        · obtain ⟨o2, ho2, hceq, hso, hsn⟩ := hP2 c h
          refine ⟨o2, List.mem_cons_of_mem _ ho2, hceq, ?_, ?_⟩
          · by_cases hon : o2 = ⟨o.loc, o.fullName, newVersion⟩
            · exfalso
              have : (⟨o2.loc, o2.fullName, newVersion⟩ : DataDir) = o2 := by
                rw [hon]
              rw [this] at hsn
              rw [hsn] at hso
              simp at hso
            · rw [← hne1 o2 hon]
              exact hso
          · cases h0 : w.disk.data ⟨o2.loc, o2.fullName, newVersion⟩ with
            | none => rfl
            | some x =>
              have := hkeep1 ⟨o2.loc, o2.fullName, newVersion⟩ (by simp [h0])
              rw [hsn, h0] at this
              simp at this
      · intro d hd
        have h1 := hkeep1 d hd
        rw [hkeep2 d (by rw [h1]; exact hd), h1]
      · intro d hd
        by_cases h1 : w1.disk.data d = w.disk.data d
        · obtain ⟨o2, ho2, heq⟩ := hchg2 d (by rw [h1]; exact hd)
          exact ⟨o2, List.mem_cons_of_mem _ ho2, heq⟩
        · exact hchg1 d h1

/-- C5: `copySnapData` never overwrites. The content of every data directory
that exists before the call is the same after it (so an existing directory of
the new version keeps its content whatever the old data is), and every
`cp -a old new` it issues has an `old` that existed and a `new`, the sibling
of `old` for the new version, that did not exist when `copySnapData` was
called. -/
theorem copySnapData_never_overwrites (env : Env) (fullName oldVersion newVersion : String)
    (w : World) :
    ∃ added, (copySnapData env fullName oldVersion newVersion w).2.calls = w.calls ++ added ∧
      (∀ d, (w.disk.data d).isSome = true →
        (copySnapData env fullName oldVersion newVersion w).2.disk.data d = w.disk.data d) ∧
      (∀ o n, Call.cp o n ∈ added →
        (w.disk.data o).isSome = true ∧ w.disk.data n = none ∧
        n = ⟨o.loc, o.fullName, newVersion⟩) := by
  generalize hr : copySnapData env fullName oldVersion newVersion w = r
  unfold copySnapData at hr
  split at hr
  · subst hr
    exact ⟨[], by simp, fun _ _ => rfl, by simp⟩
  · next oldDataDirs _ =>
    subst hr
    obtain ⟨added, hc, hP, _, _, _, hkeep, _⟩ :=
      copySnapData_loop_spec env newVersion oldDataDirs w
    refine ⟨added, hc, hkeep, ?_⟩
    intro o n hmem
    obtain ⟨o2, _, heq, hso, hsn⟩ := hP _ hmem
    simp only [Call.cp.injEq] at heq
    obtain ⟨h1, h2⟩ := heq
    subst h1 h2
    exact ⟨hso, hsn, rfl⟩

/-! ### Generated files: what the steps of activation leave alone -/

theorem Arti.arefl (w : World) : Arti w w := ⟨Calls.crefl _ w, rfl, rfl, rfl⟩

theorem Arti.atrans {w1 w2 w3 : World} (h12 : Arti w1 w2) (h23 : Arti w2 w3) : Arti w1 w3 :=
  ⟨h12.1.ctrans h23.1, h23.2.1.trans h12.2.1, h23.2.2.1.trans h12.2.2.1,
    h23.2.2.2.trans h12.2.2.2⟩

theorem arti_record (w : World) (c : Call) (hc : c.isActivation = true) :
    Arti w (w.record c) :=
  ⟨Calls.record w c hc, rfl, rfl, rfl⟩

theorem arti_attempt (env : Env) (c : Call) (eff : Disk → Disk) (w : World)
    (hc : c.isActivation = true)
    (heff : ∀ k, (eff k).dirs = k.dirs ∧ (eff k).current = k.current ∧ (eff k).data = k.data) :
    Arti w (attempt env c eff w).2 := by
  refine ⟨attempt_calls env c eff w hc, ?_⟩
  rcases attempt_disk env c eff w with h | ⟨_, h⟩
  · rw [h]
    exact ⟨rfl, rfl, rfl⟩
  · rw [h]
    exact heff w.disk

theorem arti_attempt_id (env : Env) (c : Call) (w : World) (hc : c.isActivation = true) :
    Arti w (attempt env c id w).2 :=
  arti_attempt env c id w hc (fun _ => ⟨rfl, rfl, rfl⟩)

theorem arti_osRemove (env : Env) (p : Path) (w : World) (hp : p.isGenerated = true) :
    Arti w (osRemove env p w).2 := by
  have hc : (Call.remove p).isActivation = true := by simp [Call.isActivation, hp]
  unfold Snappy.osRemove
  split
  · exact arti_record w _ hc
  · exact arti_attempt env _ _ w hc (fun _ => ⟨rfl, rfl, rfl⟩)

theorem arti_osSymlink (env : Env) (target : String) (p : Path) (w : World)
    (hp : p.isGenerated = true) : Arti w (osSymlink env target p w).2 := by
  have hc : (Call.symlink target p).isActivation = true := by simp [Call.isActivation, hp]
  unfold Snappy.osSymlink
  split
  · exact arti_record w _ hc
  · exact arti_attempt env _ _ w hc (fun _ => ⟨rfl, rfl, rfl⟩)

theorem arti_writeFile (env : Env) (p : Path) (content : String) (w : World)
    (hp : p.isGenerated = true) : Arti w (writeFile env p content w).2 := by
  have hc : (Call.writeFile p content).isActivation = true := by simp [Call.isActivation, hp]
  exact arti_attempt env _ _ w hc (fun _ => ⟨rfl, rfl, rfl⟩)

theorem Arti.asnd {w w1 : World} {α : Type} {r : α × World} {a : α}
    (h : Arti w r.2) (heq : r = (a, w1)) : Arti w w1 := by
  subst heq
  exact h

theorem execHook_arti (env : Env) (cmd : String) (w : World) :
    Arti w (execHook env cmd w).2 := by
  have h := arti_attempt_id env (.exec cmd) w (by rfl)
  unfold execHook
  split
  · next err w1 heq =>
    have h1 := h.asnd heq
    split <;> exact h1
  · next w1 heq => exact h.asnd heq

theorem readClickHookFile_arti (f : HookFile) (w : World) :
    Arti w (readClickHookFile f w).2 := by
  unfold readClickHookFile
  split
  · exact arti_record w _ (by rfl)
  · exact arti_record w _ (by rfl)
  · exact Arti.arefl w

theorem systemClickHooks_loop_arti :
    ∀ (fs : List HookFile) (hooks : List (String × ClickHook)) (w : World),
    Arti w (systemClickHooks.loop fs hooks w).2 := by
  intro fs
  induction fs with
  | nil => intro hooks w; exact Arti.arefl w
  | cons f rest ih =>
    intro hooks w
    have h := readClickHookFile_arti f w
    unfold systemClickHooks.loop
    split
    · next err w1 heq =>
      exact (h.asnd heq).atrans ((arti_record w1 _ (by rfl)).atrans (ih _ _))
    · next hook w1 heq => exact (h.asnd heq).atrans (ih _ _)

theorem systemClickHooks_arti (env : Env) (w : World) :
    Arti w (systemClickHooks env w).2 := by
  unfold systemClickHooks
  split
  · exact Arti.arefl w
  · exact systemClickHooks_loop_arti _ _ _

theorem iterHooks_unlink_arti (env : Env) (dst : String) (w : World) :
    Arti w (iterHooks.unlink env dst w) := by
  unfold iterHooks.unlink
  split
  · have h := arti_osRemove env (Path.hook dst) w (by rfl)
    split
    · next err w0 heq => exact (h.asnd heq).atrans (arti_record w0 _ (by rfl))
    · next w0 heq => exact h.asnd heq
  · exact Arti.arefl w

theorem iterHooks_hooks_arti (env : Env) (m : PackageYaml) (origin : String)
    (inhibitHooks : Bool) (f : IterHooksFunc) (systemHooks : List (String × ClickHook))
    (app : String) (hf : ∀ src dst hook w, Arti w (f src dst hook w).2) :
    ∀ (hooks : List (String × String)) (w : World),
    Arti w (iterHooks.hooks env m origin inhibitHooks f systemHooks app hooks w).2 := by
  intro hooks
  induction hooks with
  | nil => intro w; exact Arti.arefl w
  | cons hd rest ih =>
    intro w
    obtain ⟨hookName, hookSourceFile⟩ := hd
    unfold iterHooks.hooks
    split
    · exact ih w
    · split
      · exact (arti_record w _ (by rfl)).atrans (ih _)
      · next systemHook _ =>
        dsimp only
        have h1 := iterHooks_unlink_arti env (iterHooks.dst env m origin app systemHook) w
        have h2 := hf hookSourceFile (iterHooks.dst env m origin app systemHook) systemHook
          (iterHooks.unlink env (iterHooks.dst env m origin app systemHook) w)
        split
        · next err w2 heq => exact h1.atrans (h2.asnd heq)
        · next w2 heq =>
          have h12 := h1.atrans (h2.asnd heq)
          split
          · have h3 := execHook_arti env systemHook.exec w2
            split
            · next err w3 heq3 =>
              exact h12.atrans ((h3.asnd heq3).atrans (arti_osRemove env _ w3 (by rfl)))
            · next w3 heq3 => exact h12.atrans ((h3.asnd heq3).atrans (ih _))
          · exact h12.atrans (ih _)

theorem iterHooks_apps_arti (env : Env) (m : PackageYaml) (origin : String)
    (inhibitHooks : Bool) (f : IterHooksFunc) (systemHooks : List (String × ClickHook))
    (hf : ∀ src dst hook w, Arti w (f src dst hook w).2) :
    ∀ (apps : List (String × List (String × String))) (w : World),
    Arti w (iterHooks.apps env m origin inhibitHooks f systemHooks apps w).2 := by
  intro apps
  induction apps with
  | nil => intro w; exact Arti.arefl w
  | cons hd rest ih =>
    intro w
    obtain ⟨app, hook⟩ := hd
    have h := iterHooks_hooks_arti env m origin inhibitHooks f systemHooks app hf hook w
    unfold iterHooks.apps
    split
    · next err w1 heq => exact h.asnd heq
    · next w1 heq => exact (h.asnd heq).atrans (ih _)

theorem iterHooks_arti (env : Env) (m : PackageYaml) (origin : String)
    (inhibitHooks : Bool) (f : IterHooksFunc)
    (hf : ∀ src dst hook w, Arti w (f src dst hook w).2) (w : World) :
    Arti w (iterHooks env m origin inhibitHooks f w).2 := by
  have h := systemClickHooks_arti env w
  unfold iterHooks
  split
  · next err w1 heq => exact h.asnd heq
  · next systemHooks w1 heq =>
    exact (h.asnd heq).atrans (iterHooks_apps_arti env m origin inhibitHooks f systemHooks hf _ _)

theorem installClickHooks_arti (env : Env) (targetDir : ClickDir) (m : PackageYaml)
    (origin : String) (inhibitHooks : Bool) (w : World) :
    Arti w (installClickHooks env targetDir m origin inhibitHooks w).2 :=
  iterHooks_arti env m origin inhibitHooks _
    (fun _ _ _ w0 => arti_osSymlink env _ _ w0 (by rfl)) w

theorem removeClickHooks_arti (env : Env) (m : PackageYaml) (origin : String)
    (inhibitHooks : Bool) (w : World) :
    Arti w (removeClickHooks env m origin inhibitHooks w).2 :=
  iterHooks_arti env m origin inhibitHooks _ (fun _ _ _ w0 => Arti.arefl w0) w

theorem addPackageServices_enable_arti (env : Env) (m : PackageYaml) (service : Service)
    (inhibitHooks : Bool) (w : World) :
    Arti w (addPackageServices.enable env m service inhibitHooks w).2 := by
  unfold addPackageServices.enable
  dsimp only
  generalize hr : (if m.type = PkgType.framework ∧ service.busName ≠ "" then
      match env.genBusPolicyFile service.busName with
      | Except.error err => (some err, w)
      | Except.ok content =>
        writeFile env (generateBusPolicyFileName m service) content
          (attempt env (Call.mkdirAll Path.busPolicyDir) id w).2
    else (none, w)) = r
  have h1 : Arti w r.2 := by
    subst hr
    split
    · split
      · exact Arti.arefl w
      · exact (arti_attempt_id env _ w (by rfl)).atrans (arti_writeFile env _ _ _ (by rfl))
    · exact Arti.arefl w
  split
  · next err w2 => exact h1
  · next w2 =>
    have h2 : Arti w w2 := h1
    generalize hr3 : (if (!inhibitHooks) = true then attempt env Call.daemonReload id w2
      else (none, w2)) = r3
    have h3 : Arti w2 r3.2 := by
      subst hr3
      split
      · exact arti_attempt_id env _ w2 (by rfl)
      · exact Arti.arefl w2
    split
    · next err w3 => exact h2.atrans h3
    · next w3 =>
      have h23 : Arti w w3 := h2.atrans h3
      have h4 := arti_attempt_id env (.enable (serviceNameOf m service)) w3 (by rfl)
      split
      · next err w4 heq4 => exact h23.atrans (h4.asnd heq4)
      · next w4 heq4 =>
        have h34 := h23.atrans (h4.asnd heq4)
        split
        · exact h34.atrans (arti_attempt_id env _ w4 (by rfl))
        · exact h34

theorem addPackageServices_loop_arti (env : Env) (baseDir : ClickDir) (inhibitHooks : Bool)
    (m : PackageYaml) : ∀ (services : List Service) (w : World),
    Arti w (addPackageServices.loop env baseDir inhibitHooks m services w).2 := by
  intro services
  induction services with
  | nil => intro w; exact Arti.arefl w
  | cons service rest ih =>
    intro w
    unfold addPackageServices.loop
    split
    · exact Arti.arefl w
    · dsimp only
      split
      · exact Arti.arefl w
      · next content _ =>
        have h1 : Arti w (attempt env (Call.mkdirAll Path.servicesDir) id w).2 :=
          arti_attempt_id env _ w (by rfl)
        have h2 := arti_writeFile env (generateServiceFileName m service) content
          (attempt env (Call.mkdirAll Path.servicesDir) id w).2 (by rfl)
        split
        · next err w2 heq => exact h1.atrans (h2.asnd heq)
        · next w2 heq =>
          have h12 := h1.atrans (h2.asnd heq)
          have h3 := addPackageServices_enable_arti env m service inhibitHooks w2
          split
          · next err w3 heq3 => exact h12.atrans (h3.asnd heq3)
          · next w3 heq3 => exact h12.atrans ((h3.asnd heq3).atrans (ih _))

theorem addPackageServices_arti (env : Env) (baseDir : ClickDir) (inhibitHooks : Bool)
    (w : World) : Arti w (addPackageServices env baseDir inhibitHooks w).2 := by
  unfold addPackageServices
  split
  · exact Arti.arefl w
  · exact addPackageServices_loop_arti _ _ _ _ _ _

theorem removePackageServices_loop_arti (env : Env) (m : PackageYaml) :
    ∀ (services : List Service) (w : World),
    Arti w (removePackageServices.loop env m services w).2 := by
  intro services
  induction services with
  | nil => intro w; exact Arti.arefl w
  | cons service rest ih =>
    intro w
    unfold removePackageServices.loop
    dsimp only
    have h1 := arti_attempt_id env (.disable (serviceNameOf m service)) w (by rfl)
    split
    · next err w1 heq => exact h1.asnd heq
    · next w1 heq =>
      have h01 := h1.asnd heq
      generalize hr : (match attempt env (Call.stop (serviceNameOf m service)
          service.stopTimeout) id w1 with
        | (some err, w2) =>
          if (!err.isTimeout) = true then (some err, w2)
          else
            (none, (attempt env (Call.kill (serviceNameOf m service) "KILL") id
              ((attempt env (Call.kill (serviceNameOf m service) "TERM") id
                (w2.record (Call.notify (Msg.refusedToStop (serviceNameOf m service))))).2.record
                  Call.sleep)).2)
        | (none, w2) => (none, w2)) = r
      have h2 : Arti w1 r.2 := by
        subst hr
        have hs := arti_attempt_id env (.stop (serviceNameOf m service) service.stopTimeout)
          w1 (by rfl)
        split
        · next err w2 heq2 =>
          have h12 := hs.asnd heq2
          split
          · exact h12
          · exact h12.atrans ((arti_record w2 _ (by rfl)).atrans
              ((arti_attempt_id env _ _ (by rfl)).atrans
                ((arti_record _ _ (by rfl)).atrans (arti_attempt_id env _ _ (by rfl)))))
        · next w2 heq2 => exact hs.asnd heq2
      split
      · next err w6 => exact h01.atrans h2
      · next w6 =>
        have h06 : Arti w w6 := h01.atrans h2
        generalize hw7 : (match osRemove env (generateServiceFileName m service) w6 with
          | (some err, w0) =>
            if (!err.isNotExist) = true then
              w0.record (Call.notice (Msg.failedToRemoveServiceFile (serviceNameOf m service)
                err))
            else w0
          | (none, w0) => w0) = w7
        have h7 : Arti w6 w7 := by
          subst hw7
          have hrm := arti_osRemove env (generateServiceFileName m service) w6 (by rfl)
          split
          · next err w0 heq0 =>
            split
            · exact (hrm.asnd heq0).atrans (arti_record w0 _ (by rfl))
            · exact hrm.asnd heq0
          · next w0 heq0 => exact hrm.asnd heq0
        generalize hw8 : (match osRemove env (generateBusPolicyFileName m service) w7 with
          | (some err, w0) =>
            if (!err.isNotExist) = true then
              w0.record (Call.notice (Msg.failedToRemoveBusPolicy (serviceNameOf m service)
                err))
            else w0
          | (none, w0) => w0) = w8
        have h8 : Arti w7 w8 := by
          subst hw8
          have hrm := arti_osRemove env (generateBusPolicyFileName m service) w7 (by rfl)
          split
          · next err w0 heq0 =>
            split
            · exact (hrm.asnd heq0).atrans (arti_record w0 _ (by rfl))
            · exact hrm.asnd heq0
          · next w0 heq0 => exact hrm.asnd heq0
        exact h06.atrans (h7.atrans (h8.atrans (ih _)))

theorem removePackageServices_arti (env : Env) (baseDir : ClickDir) (w : World) :
    Arti w (removePackageServices env baseDir w).2 := by
  unfold removePackageServices
  split
  · exact Arti.arefl w
  · next m _ =>
    have h := removePackageServices_loop_arti env m m.services w
    split
    · next err w1 heq => exact h.asnd heq
    · next w1 heq =>
      split
      · exact (h.asnd heq).atrans (arti_attempt_id env _ w1 (by rfl))
      · exact h.asnd heq

theorem addPackageBinaries_loop_arti (env : Env) (baseDir : ClickDir) (m : PackageYaml) :
    ∀ (binaries : List Binary) (w : World),
    Arti w (addPackageBinaries.loop env baseDir m binaries w).2 := by
  intro binaries
  induction binaries with
  | nil => intro w; exact Arti.arefl w
  | cons binary rest ih =>
    intro w
    unfold addPackageBinaries.loop
    split
    · exact Arti.arefl w
    · dsimp only
      split
      · exact Arti.arefl w
      · next content _ =>
        have h := arti_writeFile env (generateBinaryName m binary) content w (by rfl)
        split
        · next err w1 heq => exact h.asnd heq
        · next w1 heq => exact (h.asnd heq).atrans (ih _)

theorem addPackageBinaries_arti (env : Env) (baseDir : ClickDir) (w : World) :
    Arti w (addPackageBinaries env baseDir w).2 := by
  unfold addPackageBinaries
  split
  · exact Arti.arefl w
  · have h := arti_attempt_id env (.mkdirAll .binariesDir) w (by rfl)
    split
    · next err w1 heq => exact h.asnd heq
    · next w1 heq => exact (h.asnd heq).atrans (addPackageBinaries_loop_arti _ _ _ _ _)

theorem removePackageBinaries_loop_arti (env : Env) (m : PackageYaml) :
    ∀ (binaries : List Binary) (w : World),
    Arti w (removePackageBinaries.loop env m binaries w) := by
  intro binaries
  induction binaries with
  | nil => intro w; exact Arti.arefl w
  | cons binary rest ih =>
    intro w
    unfold removePackageBinaries.loop
    exact (arti_osRemove env (generateBinaryName m binary) w (by rfl)).atrans (ih _)

theorem removePackageBinaries_arti (env : Env) (baseDir : ClickDir) (w : World) :
    Arti w (removePackageBinaries env baseDir w).2 := by
  unfold removePackageBinaries
  split
  · exact Arti.arefl w
  · exact removePackageBinaries_loop_arti _ _ _ _

theorem addOneSecurityPolicy_arti (env : Env) (m : PackageYaml) (name : String) (sd : GoFields)
    (baseDir : ClickDir) (w : World) :
    Arti w (addOneSecurityPolicy env m name sd baseDir w).2 := by
  unfold addOneSecurityPolicy
  split
  · exact Arti.arefl w
  · split
    · exact Arti.arefl w
    · exact arti_writeFile env _ _ w (by rfl)

theorem addSecurityPolicy_services_arti (env : Env) (m : PackageYaml) (baseDir : ClickDir) :
    ∀ (services : List Service) (w : World),
    Arti w (addSecurityPolicy.services env m baseDir services w).2 := by
  intro services
  induction services with
  | nil => intro w; exact Arti.arefl w
  | cons svc rest ih =>
    intro w
    have h := addOneSecurityPolicy_arti env m svc.name svc.extra baseDir w
    unfold addSecurityPolicy.services
    split
    · next err w1 heq => exact h.asnd heq
    · next w1 heq => exact (h.asnd heq).atrans (ih _)

theorem addSecurityPolicy_binaries_arti (env : Env) (m : PackageYaml) (baseDir : ClickDir) :
    ∀ (binaries : List Binary) (w : World),
    Arti w (addSecurityPolicy.binaries env m baseDir binaries w).2 := by
  intro binaries
  induction binaries with
  | nil => intro w; exact Arti.arefl w
  | cons bin rest ih =>
    intro w
    have h := addOneSecurityPolicy_arti env m bin.name bin.extra baseDir w
    unfold addSecurityPolicy.binaries
    split
    · next err w1 heq => exact h.asnd heq
    · next w1 heq => exact (h.asnd heq).atrans (ih _)

theorem addSecurityPolicy_arti (env : Env) (m : PackageYaml) (baseDir : ClickDir) (w : World) :
    Arti w (addSecurityPolicy env m baseDir w).2 := by
  have h := addSecurityPolicy_services_arti env m baseDir m.services w
  unfold addSecurityPolicy
  split
  · next err w1 heq => exact h.asnd heq
  · next w1 heq => exact (h.asnd heq).atrans (addSecurityPolicy_binaries_arti _ _ _ _ _)

theorem removeOneSecurityPolicy_arti (env : Env) (m : PackageYaml) (name : String)
    (baseDir : ClickDir) (w : World) :
    Arti w (removeOneSecurityPolicy env m name baseDir w).2 := by
  unfold removeOneSecurityPolicy
  split
  · exact Arti.arefl w
  · next profileName _ =>
    have h := arti_osRemove env (.seccomp profileName) w (by rfl)
    split
    · next err w1 heq =>
      split <;> exact h.asnd heq
    · next w1 heq => exact h.asnd heq

theorem removeSecurityPolicy_loop_arti (env : Env) (m : PackageYaml) (baseDir : ClickDir) :
    ∀ (names : List String) (w : World),
    Arti w (removeSecurityPolicy.loop env m baseDir names w).2 := by
  intro names
  induction names with
  | nil => intro w; exact Arti.arefl w
  | cons name rest ih =>
    intro w
    have h := removeOneSecurityPolicy_arti env m name baseDir w
    unfold removeSecurityPolicy.loop
    split
    · next err w1 heq => exact h.asnd heq
    · next w1 heq => exact (h.asnd heq).atrans (ih _)

theorem removeSecurityPolicy_arti (env : Env) (m : PackageYaml) (baseDir : ClickDir)
    (w : World) : Arti w (removeSecurityPolicy env m baseDir w).2 := by
  have h := removeSecurityPolicy_loop_arti env m baseDir (m.services.map (fun s => s.name)) w
  unfold removeSecurityPolicy
  split
  · next err w1 heq => exact h.asnd heq
  · next w1 heq => exact (h.asnd heq).atrans (removeSecurityPolicy_loop_arti _ _ _ _ _)

/-! ### Activation: the `current` symlink -/

theorem Arti.acti {w w2 : World} (h : Arti w w2) (parent : String) : Acti parent w w2 :=
  ⟨h.1, h.2.1, h.2.2.2, fun p _ => by rw [h.2.2.1]⟩

theorem Acti.trefl (parent : String) (w : World) : Acti parent w w :=
  (Arti.arefl w).acti parent

theorem Acti.ttrans {parent : String} {w1 w2 w3 : World} (h12 : Acti parent w1 w2)
    (h23 : Acti parent w2 w3) : Acti parent w1 w3 :=
  ⟨h12.1.ctrans h23.1, h23.2.1.trans h12.2.1, h23.2.2.1.trans h12.2.2.1,
    fun p hp => (h23.2.2.2 p hp).trans (h12.2.2.2 p hp)⟩

theorem Acti.snd {parent : String} {w w1 : World} {α : Type} {r : α × World} {a : α}
    (h : Acti parent w r.2) (heq : r = (a, w1)) : Acti parent w w1 := by
  subst heq
  exact h

theorem removeCurrent_spec (env : Env) (parent : String) (w : World) :
    Acti parent w (removeCurrent env parent w).2 ∧
    ((removeCurrent env parent w).1 = none →
      (removeCurrent env parent w).2.disk.current parent = none) ∧
    ((removeCurrent env parent w).1 ≠ none →
      (removeCurrent env parent w).2.disk = w.disk) ∧
    (∀ e, (removeCurrent env parent w).1 = some e →
      w.disk.current parent = none ∨ env.outcome w.calls (.remove (.current parent)) =
        some e) := by
  generalize hr : removeCurrent env parent w = r
  unfold removeCurrent at hr
  split at hr
  · next hnone =>
    subst hr
    refine ⟨(arti_record w _ (by rfl)).acti parent, by simp, fun _ => rfl,
      fun _ _ => Or.inl ?_⟩
    simpa using hnone
  · cases ha : attempt env (.remove (.current parent)) (fun k => k.setCurrent parent none) w with
    | mk e w1 =>
      rw [ha] at hr
      subst hr
      cases e with
      | some err =>
        obtain ⟨h1, ho⟩ := attempt_some ha
        subst h1
        refine ⟨(arti_record w _ (by rfl)).acti parent, by simp, fun _ => rfl, ?_⟩
        intro e h
        simp only [Option.some.injEq] at h
        subst h
        exact Or.inr ho
      | none =>
        obtain ⟨h1, h2, _⟩ := attempt_none ha
        refine ⟨⟨⟨[_], h2, by simp [Call.isActivation, Path.isCurrent]⟩, ?_, ?_, ?_⟩, ?_,
          by simp, by simp⟩
        · simp [h1, Disk.setCurrent]
        · simp [h1, Disk.setCurrent]
        · intro p hp
          simp [h1, Disk.setCurrent, hp]
        · intro _
          simp [h1, Disk.setCurrent]

theorem symlinkCurrent_spec (env : Env) (target parent : String) (w : World) :
    Acti parent w (symlinkCurrent env target parent w).2 ∧
    ((symlinkCurrent env target parent w).1 = none →
      (symlinkCurrent env target parent w).2.disk.current parent = some target) ∧
    ((symlinkCurrent env target parent w).1 ≠ none →
      (symlinkCurrent env target parent w).2.disk = w.disk) := by
  generalize hr : symlinkCurrent env target parent w = r
  unfold symlinkCurrent at hr
  split at hr
  · subst hr
    exact ⟨(arti_record w _ (by rfl)).acti parent, by simp, fun _ => rfl⟩
  · cases ha : attempt env (.symlink target (.current parent))
        (fun k => k.setCurrent parent (some target)) w with
    | mk e w1 =>
      rw [ha] at hr
      subst hr
      cases e with
      | some err =>
        obtain ⟨h1, _⟩ := attempt_some ha
        subst h1
        exact ⟨(arti_record w _ (by rfl)).acti parent, by simp, fun _ => rfl⟩
      | none =>
        obtain ⟨h1, h2, _⟩ := attempt_none ha
        refine ⟨⟨⟨[_], h2, by simp [Call.isActivation, Path.isCurrent]⟩, ?_, ?_, ?_⟩, ?_,
          by simp⟩
        · simp [h1, Disk.setCurrent]
        · simp [h1, Disk.setCurrent]
        · intro p hp
          simp [h1, Disk.setCurrent, hp]
        · intro _
          simp [h1, Disk.setCurrent]

theorem unsetActiveClick_spec (env : Env) (clickDir : ClickDir) (inhibitHooks : Bool)
    (w : World) :
    Acti clickDir.parent w (unsetActiveClick env clickDir inhibitHooks w).2 ∧
    ((unsetActiveClick env clickDir inhibitHooks w).2.disk.current clickDir.parent =
        w.disk.current clickDir.parent ∨
      (unsetActiveClick env clickDir inhibitHooks w).2.disk.current clickDir.parent = none) ∧
    ((unsetActiveClick env clickDir inhibitHooks w).1 ≠ none →
      (unsetActiveClick env clickDir inhibitHooks w).2.disk.current = w.disk.current) ∧
    ((∀ h, env.outcome h (.remove (.current clickDir.parent)) = none) →
      (unsetActiveClick env clickDir inhibitHooks w).1 = none →
      (unsetActiveClick env clickDir inhibitHooks w).2.disk.current clickDir.parent = none) := by
  generalize hr : unsetActiveClick env clickDir inhibitHooks w = r
  unfold unsetActiveClick at hr
  have done : ∀ (e : Err) (w1 : World), Arti w w1 → r = (some e, w1) →
      Acti clickDir.parent w r.2 ∧
      (r.2.disk.current clickDir.parent = w.disk.current clickDir.parent ∨
        r.2.disk.current clickDir.parent = none) ∧
      (r.1 ≠ none → r.2.disk.current = w.disk.current) ∧
      ((∀ h, env.outcome h (.remove (.current clickDir.parent)) = none) →
        r.1 = none → r.2.disk.current clickDir.parent = none) := by
    intro e w1 h heq
    subst heq
    exact ⟨h.acti _, Or.inl (by rw [h.2.2.1]), fun _ => h.2.2.1, fun _ hn => by simp at hn⟩
  split at hr
  · exact done _ _ (Arti.arefl w) hr.symm
  · split at hr
    · exact done _ _ (Arti.arefl w) hr.symm
    · have h1 := removePackageBinaries_arti env clickDir w
      split at hr
      · next err w1 heq => exact done _ _ (h1.asnd heq) hr.symm
      · next w1 heq =>
        have h01 := h1.asnd heq
        have h2 := removePackageServices_arti env clickDir w1
        split at hr
        · next err w2 heq2 => exact done _ _ (h01.atrans (h2.asnd heq2)) hr.symm
        · next w2 heq2 =>
          have h02 := h01.atrans (h2.asnd heq2)
          split at hr
          · exact done _ _ h02 hr.symm
          · next m _ =>
            have h3 := removeSecurityPolicy_arti env m clickDir w2
            split at hr
            · next err w3 heq3 => exact done _ _ (h02.atrans (h3.asnd heq3)) hr.symm
            · next w3 heq3 =>
              have h03 := h02.atrans (h3.asnd heq3)
              split at hr
              · exact done _ _ h03 hr.symm
              · next manifest _ =>
                dsimp only at hr
                generalize hr4 : (if manifest.type = PkgType.framework then
                  attempt env (Call.policyRemove m.name clickDir) id w3 else (none, w3)) = r4
                  at hr
                have h4 : Arti w3 r4.2 := by
                  subst hr4
                  split
                  · exact arti_attempt_id env _ w3 (by rfl)
                  · exact Arti.arefl w3
                split at hr
                · next err w4 => exact done _ _ (h03.atrans h4) hr.symm
                · next w4 =>
                  have h04 : Arti w w4 := h03.atrans h4
                  have h5 := removeClickHooks_arti env m (env.originFromBasedir clickDir.path)
                    inhibitHooks w4
                  split at hr
                  · next err w5 heq5 => exact done _ _ (h04.atrans (h5.asnd heq5)) hr.symm
                  · next w5 heq5 =>
                    have h05 := h04.atrans (h5.asnd heq5)
                    obtain ⟨h6, h6n, h6e, h6x⟩ := removeCurrent_spec env clickDir.parent w5
                    split at hr
                    · next err w6 heq6 =>
                      subst hr
                      rw [heq6] at h6 h6e h6x
                      have hd : w6.disk = w5.disk := h6e (by simp)
                      refine ⟨(h05.acti _).ttrans (h6.ttrans
                        ((arti_record w6 _ (by rfl)).acti _)), Or.inl ?_, by simp, ?_⟩
                      · show w6.disk.current clickDir.parent = _
                        rw [hd, h05.2.2.1]
                      · intro hrm _
                        show w6.disk.current clickDir.parent = none
                        rw [hd]
                        rcases h6x err rfl with h | h
                        · exact h
                        · rw [hrm] at h
                          simp at h
                    · next w6 heq6 =>
                      subst hr
                      rw [heq6] at h6 h6n
                      exact ⟨(h05.acti _).ttrans h6, Or.inr (h6n rfl), by simp,
                        fun _ _ => h6n rfl⟩

theorem parsePackageYamlFile_ok {clickDir : ClickDir} {k : Disk} {m : PackageYaml}
    (h : parsePackageYamlFile clickDir k = .ok m) : (k.dirs clickDir).isSome = true := by
  unfold parsePackageYamlFile at h
  split at h
  · simp at h
  · next c hc => simp [hc]

theorem currentActiveDirOf_eq_some {k : Disk} {parent : String} {d : ClickDir} :
    currentActiveDirOf k parent = some d ↔
      d.parent = parent ∧ k.current parent = some d.ver ∧ (k.dirs d).isSome = true := by
  unfold currentActiveDirOf evalCurrent
  constructor
  · intro h
    cases hc : k.current parent with
    | none => simp [hc] at h
    | some v =>
      cases hd : k.dirs ⟨parent, v⟩ with
      | none => simp [hc, hd] at h
      | some c =>
        simp only [hc, hd, Option.some.injEq] at h
        subst h
        simp [hd]
  · rintro ⟨hp, hc, hd⟩
    subst hp
    cases hd2 : k.dirs d with
    | none => simp [hd2] at hd
    | some c =>
      have : (⟨d.parent, d.ver⟩ : ClickDir) = d := rfl
      simp [hc, this, hd2]

theorem currentActiveDirOf_eq_none {k : Disk} {parent : String} :
    currentActiveDirOf k parent = none ↔
      ∀ v, k.current parent = some v → k.dirs ⟨parent, v⟩ = none := by
  unfold currentActiveDirOf evalCurrent
  constructor
  · intro h v hv
    cases hd : k.dirs ⟨parent, v⟩ with
    | none => rfl
    | some c => simp [hv, hd] at h
  · intro h
    cases hc : k.current parent with
    | none => simp
    | some v => simp [h v hc]

theorem setActiveClick_spec (env : Env) (baseDir : ClickDir) (inhibitHooks : Bool)
    (w : World) :
    Acti baseDir.parent w (setActiveClick env baseDir inhibitHooks w).2 ∧
    ((setActiveClick env baseDir inhibitHooks w).1 = none →
      currentActiveDirOf (setActiveClick env baseDir inhibitHooks w).2.disk baseDir.parent =
        some baseDir) ∧
    ((setActiveClick env baseDir inhibitHooks w).2.disk.current baseDir.parent =
        w.disk.current baseDir.parent ∨
      (setActiveClick env baseDir inhibitHooks w).2.disk.current baseDir.parent = none ∨
      (setActiveClick env baseDir inhibitHooks w).1 = none) := by
  generalize hr : setActiveClick env baseDir inhibitHooks w = r
  unfold setActiveClick at hr
  dsimp only at hr
  split at hr
  · next hact =>
    subst hr
    exact ⟨Acti.trefl _ w, fun _ => hact.symm, Or.inl rfl⟩
  · generalize hw1 : (match currentActiveDirOf w.disk baseDir.parent with
      | some cur => (unsetActiveClick env cur inhibitHooks w).2
      | none => w) = w1 at hr
    have h1 : Acti baseDir.parent w w1 ∧
        (w1.disk.current baseDir.parent = w.disk.current baseDir.parent ∨
          w1.disk.current baseDir.parent = none) := by
      subst hw1
      split
      · next cur hcur =>
        have hp : cur.parent = baseDir.parent := (currentActiveDirOf_eq_some.mp hcur).1
        obtain ⟨ha, hb, _, _⟩ := unsetActiveClick_spec env cur inhibitHooks w
        rw [hp] at ha hb
        exact ⟨ha, hb⟩
      · exact ⟨Acti.trefl _ w, Or.inl rfl⟩
    obtain ⟨h01, hcur1⟩ := h1
    have done : ∀ (e : Err) (w2 : World), Arti w1 w2 → r = (some e, w2) →
        Acti baseDir.parent w r.2 ∧
        (r.1 = none → currentActiveDirOf r.2.disk baseDir.parent = some baseDir) ∧
        (r.2.disk.current baseDir.parent = w.disk.current baseDir.parent ∨
          r.2.disk.current baseDir.parent = none ∨ r.1 = none) := by
      intro e w2 h heq
      subst heq
      refine ⟨h01.ttrans (h.acti _), by simp, ?_⟩
      show w2.disk.current baseDir.parent = _ ∨ w2.disk.current baseDir.parent = _ ∨ _
      rw [h.2.2.1]
      rcases hcur1 with h | h
      · exact Or.inl h
      · exact Or.inr (Or.inl h)
    split at hr
    · exact done _ _ (Arti.arefl w1) hr.symm
    · next newActiveManifest _ =>
      split at hr
      · exact done _ _ (Arti.arefl w1) hr.symm
      · next m hm =>
        have hdir : (w1.disk.dirs baseDir).isSome = true := parsePackageYamlFile_ok hm
        generalize hr2 : (if newActiveManifest.type = PkgType.framework then
          attempt env (Call.policyInstall m.name baseDir) id w1 else (none, w1)) = r2 at hr
        have h2 : Arti w1 r2.2 := by
          subst hr2
          split
          · exact arti_attempt_id env _ w1 (by rfl)
          · exact Arti.arefl w1
        split at hr
        · next err w2 => exact done _ _ h2 hr.symm
        · next w2 =>
          have h12 : Arti w1 w2 := h2
          have h3 := installClickHooks_arti env baseDir m (env.originFromBasedir baseDir.path)
            inhibitHooks w2
          split at hr
          · next err w3 heq3 =>
            exact done _ _ (h12.atrans ((h3.asnd heq3).atrans
              (removeClickHooks_arti env m _ inhibitHooks w3))) hr.symm
          · next w3 heq3 =>
            have h13 := h12.atrans (h3.asnd heq3)
            have h4 := addSecurityPolicy_arti env m baseDir w3
            split at hr
            · next err w4 heq4 => exact done _ _ (h13.atrans (h4.asnd heq4)) hr.symm
            · next w4 heq4 =>
              have h14 := h13.atrans (h4.asnd heq4)
              have h5 := addPackageBinaries_arti env baseDir w4
              split at hr
              · next err w5 heq5 => exact done _ _ (h14.atrans (h5.asnd heq5)) hr.symm
              · next w5 heq5 =>
                have h15 := h14.atrans (h5.asnd heq5)
                have h6 := addPackageServices_arti env baseDir inhibitHooks w5
                split at hr
                · next err w6 heq6 => exact done _ _ (h15.atrans (h6.asnd heq6)) hr.symm
                · next w6 heq6 =>
                  have h16 := h15.atrans (h6.asnd heq6)
                  generalize hw7 : (match removeCurrent env baseDir.parent w6 with
                    | (some err, w0) =>
                      if (!err.isNotExist) = true then
                        w0.record (Call.notice (Msg.failedToRemove (Path.current baseDir.parent)
                          err))
                      else w0
                    | (none, w0) => w0) = w7 at hr
                  have h7 : Acti baseDir.parent w6 w7 ∧
                      (w7.disk.current baseDir.parent = w6.disk.current baseDir.parent ∨
                        w7.disk.current baseDir.parent = none) := by
                    subst hw7
                    obtain ⟨ha, hn, he, _⟩ := removeCurrent_spec env baseDir.parent w6
                    split
                    · next err w0 heq0 =>
                      rw [heq0] at ha he
                      have hd : w0.disk = w6.disk := he (by simp)
                      split
                      · exact ⟨ha.ttrans ((arti_record w0 _ (by rfl)).acti _),
                          Or.inl (by show w0.disk.current _ = _; rw [hd])⟩
                      · exact ⟨ha, Or.inl (by rw [hd])⟩
                    · next w0 heq0 =>
                      rw [heq0] at ha hn
                      exact ⟨ha, Or.inr (hn rfl)⟩
                  obtain ⟨h67, hcur7⟩ := h7
                  obtain ⟨h8, h8n, h8e⟩ := symlinkCurrent_spec env baseDir.ver baseDir.parent w7
                  rw [hr] at h8 h8n h8e
                  have hall : Acti baseDir.parent w r.2 :=
                    h01.ttrans ((h16.acti _).ttrans (h67.ttrans h8))
                  refine ⟨hall, ?_, ?_⟩
                  · intro hnone
                    rw [currentActiveDirOf_eq_some]
                    refine ⟨rfl, h8n hnone, ?_⟩
                    rw [hall.2.1, ← h01.2.1]
                    exact hdir
                  · cases hr1 : r.1 with
                    | none => exact Or.inr (Or.inr rfl)
                    | some e =>
                      have hd : r.2.disk = w7.disk := h8e (by simp [hr1])
                      rw [hd]
                      rcases hcur7 with h | h
                      · rw [h, h16.2.2.1]
                        rcases hcur1 with h' | h'
                        · exact Or.inl h'
                        · exact Or.inr (Or.inl h')
                      · exact Or.inr (Or.inl h)

/-- C4: idempotence of `setActiveClick`. When `setActiveClick(V)` returns nil,
a following `setActiveClick(V)` returns nil and leaves the world as it is:
the disk is unchanged and no call at all is made (no hook, policy, binary,
service or service-manager call), because `current` now resolves to `V`. -/
theorem setActiveClick_idempotent (env : Env) (v : ClickDir) (inhibitHooks : Bool)
    (w w1 : World) (h : setActiveClick env v inhibitHooks w = (none, w1)) :
    setActiveClick env v inhibitHooks w1 = (none, w1) := by
  obtain ⟨_, hok, _⟩ := setActiveClick_spec env v inhibitHooks w
  rw [h] at hok
  have hcur : currentActiveDirOf w1.disk v.parent = some v := hok rfl
  unfold setActiveClick
  simp [hcur]

/-- C4 at version 1.0 of `foo`, unpacked and not yet active: the first call
activates it, the second changes nothing. -/
theorem setActiveClick_idempotent_witness :
    setActiveClick envOk (fooDir "1.0") false
        (setActiveClick envOk (fooDir "1.0") false worldFoo1Installed).2 =
      (none, (setActiveClick envOk (fooDir "1.0") false worldFoo1Installed).2) :=
  setActiveClick_idempotent envOk (fooDir "1.0") false worldFoo1Installed _
    (Prod.ext (by decide) rfl)

/-- C3 as stated fails: with no `current` symlink at all, `unsetActiveClick`
returns the error of `filepath.EvalSymlinks` (lines 1058-1061), which is not
`ErrSnapNotActive`. -/
theorem unsetActiveClick_no_symlink_counterexample :
    currentActiveDirOf worldFoo1Installed.disk "/apps/foo" ≠ some (fooDir "1.0") ∧
    (unsetActiveClick envOk (fooDir "1.0") false worldFoo1Installed).1 = some Err.notExist ∧
    (unsetActiveClick envOk (fooDir "1.0") false worldFoo1Installed).1 ≠
      some Err.snapNotActive := by
  decide

/-- C3, amended: for every state and every `clickDir` that is not the
directory the `current` symlink resolves to, `unsetActiveClick(clickDir)`
fails and leaves the world as it is (no filesystem mutation, no call at all):
with `ErrSnapNotActive` when `current` resolves to another directory, and with
the error of `filepath.EvalSymlinks` when `current` does not resolve (no
symlink, or a dangling one). -/
theorem unsetActiveClick_not_active (env : Env) (clickDir : ClickDir) (inhibitHooks : Bool)
    (w : World) (h : currentActiveDirOf w.disk clickDir.parent ≠ some clickDir) :
    (unsetActiveClick env clickDir inhibitHooks w).2 = w ∧
    (∀ d, evalCurrent w.disk clickDir.parent = .ok d →
      (unsetActiveClick env clickDir inhibitHooks w).1 = some .snapNotActive) ∧
    (∀ e, evalCurrent w.disk clickDir.parent = .error e →
      (unsetActiveClick env clickDir inhibitHooks w).1 = some e) := by
  unfold unsetActiveClick
  cases hev : evalCurrent w.disk clickDir.parent with
  | error e => simp
  | ok d =>
    have hne : clickDir ≠ d := by
      intro heq
      apply h
      unfold currentActiveDirOf
      rw [hev, heq]
    simp [hne]

/-- C3, amended, at `foo` with version 1.0 active: unsetting version 2.0
fails with `ErrSnapNotActive` and changes nothing. -/
theorem unsetActiveClick_not_active_witness :
    (unsetActiveClick envOk (fooDir "2.0") false worldFoo1Active).2 = worldFoo1Active ∧
    (unsetActiveClick envOk (fooDir "2.0") false worldFoo1Active).1 = some .snapNotActive :=
  ⟨(unsetActiveClick_not_active envOk (fooDir "2.0") false worldFoo1Active (by decide)).1,
   (unsetActiveClick_not_active envOk (fooDir "2.0") false worldFoo1Active (by decide)).2.1
     (fooDir "1.0") rfl⟩

/-! ### `installClick`: the shadowed `err` variables -/

/-- C7, the code at the failing input: version 1.0 of `foo` is active and has
data, `cp -a` fails while `foo` 2.0 is installed. The copy is attempted and
fails, and `installClick` returns the package name with a nil error and has
gone on to activate the new version (the `err` assigned at line 894 is the
one declared at line 876, not the one tested at line 907). -/
theorem installClick_copy_failure_not_returned :
    Call.cp ⟨.system, "foo", "1.0"⟩ ⟨.system, "foo", "2.0"⟩ ∈
      (installClick (envInstall failCp []) "foo_2.0.snap" (flagsInhibit false) ""
        worldFoo1Active).2.calls ∧
    (∀ h o n, (envInstall failCp []).outcome h (.cp o n) = some (.exitError 1)) ∧
    (installClick (envInstall failCp []) "foo_2.0.snap" (flagsInhibit false) ""
      worldFoo1Active).1 = ("foo", none) ∧
    Call.symlink "2.0" (.current "/apps/foo") ∈
      (installClick (envInstall failCp []) "foo_2.0.snap" (flagsInhibit false) ""
        worldFoo1Active).2.calls := by
  refine ⟨by decide, fun _ _ _ => rfl, by decide, by decide⟩

/-- C6, the code at the failing input: version 1.0 of `foo` is active and has
data, `cp -a` fails while `foo` 2.0 is installed. `installClick` returns the
package name with a nil error, yet the function deferred at line 883 has run
`setActiveClick` on the old version, and at return `current` resolves to
version 1.0, not to the new basedir. -/
theorem installClick_success_old_version_active :
    (installClick (envInstall failCp []) "foo_2.0.snap" (flagsInhibit false) ""
      worldFoo1Active).1 = ("foo", none) ∧
    currentActiveDirOf (installClick (envInstall failCp []) "foo_2.0.snap" (flagsInhibit false)
      "" worldFoo1Active).2.disk "/apps/foo" = some (fooDir "1.0") ∧
    currentActiveDirOf (installClick (envInstall failCp []) "foo_2.0.snap" (flagsInhibit false)
      "" worldFoo1Active).2.disk "/apps/foo" ≠ some partFoo2.basedir ∧
    (installClick (envInstall failCp []) "foo_2.0.snap" (flagsInhibit false) ""
      worldFoo1Active).2.calls.getLast? = some .closeArchive ∧
    Call.symlink "1.0" (.current "/apps/foo") ∈
      (installClick (envInstall failCp []) "foo_2.0.snap" (flagsInhibit false) ""
        worldFoo1Active).2.calls := by
  decide

/-- C8, the code at the failing input: `foo` 2.0 is installed over the active
1.0 without `InhibitHooks`, the active dependent `bar` has the service `svc`,
and `RefreshDependentsSecurity` fails. The service is stopped, the error of
the refresh is returned, and no `Start` is issued for the stopped service
(the function deferred at line 933 reads the `err` of line 926, which is nil;
line 958 declares its own). -/
theorem installClick_refresh_failure_no_restart :
    (installClick (envInstall failRefresh [dependentBar]) "foo_2.0.snap" (flagsInhibit false) ""
      worldFoo1Active).1 = ("", some (.other 7)) ∧
    Call.stop "bar_svc_1.0.service" 30 ∈
      (installClick (envInstall failRefresh [dependentBar]) "foo_2.0.snap" (flagsInhibit false)
        "" worldFoo1Active).2.calls ∧
    Call.refreshDependentsSecurity (some (fooDir "1.0")) ∈
      (installClick (envInstall failRefresh [dependentBar]) "foo_2.0.snap" (flagsInhibit false)
        "" worldFoo1Active).2.calls ∧
    Call.start "bar_svc_1.0.service" ∉
      (installClick (envInstall failRefresh [dependentBar]) "foo_2.0.snap" (flagsInhibit false)
        "" worldFoo1Active).2.calls := by
  decide

/-! ### The security refresh of `installClick` (lines 925-979) -/

theorem calls_record2 {P : Call → Prop} (w : World) (c1 c2 : Call) (h1 : P c1) (h2 : P c2) :
    Calls P w ((w.record c1).record c2) :=
  (Calls.record w c1 h1).ctrans (Calls.record _ c2 h2)

theorem calls_of_append {P : Call → Prop} {w w1 : World} (c : Call)
    (h : w1.calls = w.calls ++ [c]) (hc : P c) : Calls P w w1 :=
  ⟨[c], h, by simpa using hc⟩

theorem mapSet_keys {α : Type} (m : List (String × α)) (key : String) (v : α) (k : String)
    (hk : k ∈ (mapSet m key v).map Prod.fst) : k = key ∨ k ∈ m.map Prod.fst := by
  induction m with
  | nil =>
    simp only [mapSet, List.map_cons, List.map_nil, List.mem_singleton] at hk
    exact Or.inl hk
  | cons hd rest ih =>
    obtain ⟨k0, x0⟩ := hd
    unfold mapSet at hk
    split at hk
    · next heq =>
      simp only [List.map_cons, List.mem_cons] at hk ⊢
      rcases hk with h | h
      · exact Or.inl h
      · exact Or.inr (Or.inr h)
    · simp only [List.map_cons, List.mem_cons] at hk ⊢
      rcases hk with h | h
      · exact Or.inr (Or.inl h)
      · rcases ih h with h2 | h2
        · exact Or.inl h2
        · exact Or.inr (Or.inr h2)

theorem stopServices_spec (env : Env) (dep : Dependent) :
    ∀ (svcs : List Service) (stopped : ServiceMap) (w : World),
    (installClick.stopServices env dep svcs stopped w).2.2.disk = w.disk ∧
    (∀ k, k ∈ (installClick.stopServices env dep svcs stopped w).2.1.map Prod.fst →
      k ∈ stopped.map Prod.fst ∨ ∃ svc, svc ∈ svcs ∧ k = serviceNameOf dep.m svc) ∧
    ((installClick.stopServices env dep svcs stopped w).1 = none →
      Calls (fun c => ∃ svc, svc ∈ svcs ∧ ∃ t, c = .stop (serviceNameOf dep.m svc) t) w
        (installClick.stopServices env dep svcs stopped w).2.2) ∧
    (∀ e, (installClick.stopServices env dep svcs stopped w).1 = some e →
      ∃ mid s t, (installClick.stopServices env dep svcs stopped w).2.2.calls =
          w.calls ++ mid ++ [.stop s t, .notify (.unableToStopAborting s e)] ∧
        env.outcome (w.calls ++ mid) (.stop s t) = some e ∧
        (∃ svc, svc ∈ svcs ∧ s = serviceNameOf dep.m svc) ∧
        ∀ c ∈ mid, ∃ svc, svc ∈ svcs ∧ ∃ t2, c = .stop (serviceNameOf dep.m svc) t2) := by
  intro svcs
  induction svcs with
  | nil =>
    intro stopped w
    refine ⟨rfl, fun k hk => Or.inl hk, fun _ => Calls.crefl _ w, ?_⟩
    intro e he
    simp [installClick.stopServices] at he
  | cons svc rest ih =>
    intro stopped w
    generalize hr : installClick.stopServices env dep (svc :: rest) stopped w = r
    unfold installClick.stopServices at hr
    dsimp only at hr
    split at hr
    · next err w1 ha =>
      obtain ⟨h1, ho⟩ := attempt_some ha
      subst h1 hr
      refine ⟨rfl, fun k hk => Or.inl hk, by simp, ?_⟩
      intro e he
      simp only [Option.some.injEq] at he
      subst he
      refine ⟨[], serviceNameOf dep.m svc, svc.stopTimeout, ?_, ?_,
        ⟨svc, List.mem_cons_self _ _, rfl⟩, by simp⟩
      · simp [World.record]
      · simpa using ho
    · next w1 ha =>
      obtain ⟨h1, h2, _⟩ := attempt_none ha
      obtain ⟨ihd, ihk, ihn, ihe⟩ := ih (mapSet stopped (serviceNameOf dep.m svc)
        svc.stopTimeout) w1
      rw [hr] at ihd ihk ihn ihe
      refine ⟨by rw [ihd, h1]; rfl, ?_, ?_, ?_⟩
      · intro k hk
        rcases ihk k hk with h | ⟨svc2, hs2, hk2⟩
        · rcases mapSet_keys _ _ _ _ h with h3 | h3
          · exact Or.inr ⟨svc, List.mem_cons_self _ _, h3⟩
          · exact Or.inl h3
        · exact Or.inr ⟨svc2, List.mem_cons_of_mem _ hs2, hk2⟩
      · intro hn
        have hc1 : Calls (fun c => ∃ svc2, svc2 ∈ svc :: rest ∧
            ∃ t, c = Call.stop (serviceNameOf dep.m svc2) t) w w1 :=
          calls_of_append _ h2 ⟨svc, by simp, _, rfl⟩
        exact hc1.ctrans ((ihn hn).cmono (fun c ⟨svc2, hs2, ht⟩ =>
          ⟨svc2, List.mem_cons_of_mem _ hs2, ht⟩))
      · intro e he
        obtain ⟨mid, s, t, hcalls, hout, hsvc, hmid⟩ := ihe e he
        refine ⟨Call.stop (serviceNameOf dep.m svc) svc.stopTimeout :: mid, s, t, ?_, ?_, ?_, ?_⟩
        · rw [hcalls, h2]
          simp
        · rw [h2] at hout
          simpa using hout
        · obtain ⟨svc2, hs2, hk2⟩ := hsvc
          exact ⟨svc2, List.mem_cons_of_mem _ hs2, hk2⟩
        · intro c hc
          rcases List.mem_cons.mp hc with h | h
          · exact ⟨svc, List.mem_cons_self _ _, _, h⟩
          · obtain ⟨svc2, hs2, ht⟩ := hmid c h
            exact ⟨svc2, List.mem_cons_of_mem _ hs2, ht⟩

theorem stopDependents_spec (env : Env) :
    ∀ (deps : List Dependent) (stopped : ServiceMap) (w : World),
    (installClick.stopDependents env deps stopped w).2.2.disk = w.disk ∧
    (∀ k, k ∈ (installClick.stopDependents env deps stopped w).2.1.map Prod.fst →
      k ∈ stopped.map Prod.fst ∨ IsDependentService deps k) ∧
    ((installClick.stopDependents env deps stopped w).1 = none →
      Calls (IsDependentStop deps) w (installClick.stopDependents env deps stopped w).2.2) ∧
    (∀ e, (installClick.stopDependents env deps stopped w).1 = some e →
      ∃ mid s t, (installClick.stopDependents env deps stopped w).2.2.calls =
          w.calls ++ mid ++ [.stop s t, .notify (.unableToStopAborting s e)] ∧
        env.outcome (w.calls ++ mid) (.stop s t) = some e ∧
        IsDependentService deps s ∧ ∀ c ∈ mid, IsDependentStop deps c) := by
  intro deps
  induction deps with
  | nil =>
    intro stopped w
    refine ⟨rfl, fun k hk => Or.inl hk, fun _ => Calls.crefl _ w, ?_⟩
    intro e he
    simp [installClick.stopDependents] at he
  | cons dep rest ih =>
    intro stopped w
    have lift : ∀ c, IsDependentStop rest c → IsDependentStop (dep :: rest) c :=
      fun c ⟨d, hd, h⟩ => ⟨d, List.mem_cons_of_mem _ hd, h⟩
    have liftS : ∀ k, IsDependentService rest k → IsDependentService (dep :: rest) k :=
      fun k ⟨d, hd, h⟩ => ⟨d, List.mem_cons_of_mem _ hd, h⟩
    generalize hr : installClick.stopDependents env (dep :: rest) stopped w = r
    unfold installClick.stopDependents at hr
    split at hr
    · obtain ⟨ihd, ihk, ihn, ihe⟩ := ih stopped w
      rw [hr] at ihd ihk ihn ihe
      refine ⟨ihd, ?_, fun hn => (ihn hn).cmono lift, ?_⟩
      · intro k hk
        rcases ihk k hk with h | h
        · exact Or.inl h
        · exact Or.inr (liftS k h)
      · intro e he
        obtain ⟨mid, s, t, h1, h2, h3, h4⟩ := ihe e he
        exact ⟨mid, s, t, h1, h2, liftS s h3, fun c hc => lift c (h4 c hc)⟩
    · next hact =>
      have hact2 : dep.isActive = true := by simpa using hact
      have here : ∀ c, (∃ svc, svc ∈ dep.services ∧ ∃ t, c = Call.stop (serviceNameOf dep.m svc) t)
          → IsDependentStop (dep :: rest) c :=
        fun c ⟨svc, hs, ht⟩ => ⟨dep, List.mem_cons_self _ _, hact2, svc, hs, ht⟩
      have hereS : ∀ k, (∃ svc, svc ∈ dep.services ∧ k = serviceNameOf dep.m svc) →
          IsDependentService (dep :: rest) k :=
        fun k ⟨svc, hs, hk⟩ => ⟨dep, List.mem_cons_self _ _, hact2, svc, hs, hk⟩
      obtain ⟨sd, sk, sn, se⟩ := stopServices_spec env dep dep.services stopped w
      split at hr
      · next err stopped1 w1 heq =>
        subst hr
        rw [heq] at sd sk sn se
        refine ⟨sd, ?_, by simp, ?_⟩
        · intro k hk
          rcases sk k hk with h | h
          · exact Or.inl h
          · exact Or.inr (hereS k h)
        · intro e he
          obtain ⟨mid, s, t, h1, h2, h3, h4⟩ := se e he
          exact ⟨mid, s, t, h1, h2, hereS s h3, fun c hc => here c (h4 c hc)⟩
      · next stopped1 w1 heq =>
        rw [heq] at sd sk sn se
        obtain ⟨ihd, ihk, ihn, ihe⟩ := ih stopped1 w1
        rw [hr] at ihd ihk ihn ihe
        have hc1 : Calls (IsDependentStop (dep :: rest)) w w1 := (sn rfl).cmono here
        refine ⟨ihd.trans sd, ?_, fun hn => hc1.ctrans ((ihn hn).cmono lift), ?_⟩
        · intro k hk
          rcases ihk k hk with h | h
          · rcases sk k h with h2 | h2
            · exact Or.inl h2
            · exact Or.inr (hereS k h2)
          · exact Or.inr (liftS k h)
        · intro e he
          obtain ⟨mid, s, t, h1, h2, h3, h4⟩ := ihe e he
          obtain ⟨a, ha, hPa⟩ := hc1
          refine ⟨a ++ mid, s, t, ?_, ?_, liftS s h3, ?_⟩
          · rw [h1, ha]
            simp
          · rw [ha] at h2
            simpa using h2
          · intro c hc
            rcases List.mem_append.mp hc with h | h
            · exact hPa c h
            · exact lift c (h4 c h)

theorem startStopped_spec (env : Env) : ∀ (stopped : ServiceMap) (w : World),
    (installClick.startStopped env stopped w).disk = w.disk ∧
    Calls (fun c => (∃ s, c = .start s) ∨ ∃ s e, c = .notify (.unableToRestartOld s e)) w
      (installClick.startStopped env stopped w) := by
  intro stopped
  induction stopped with
  | nil => intro w; exact ⟨rfl, Calls.crefl _ w⟩
  | cons hd rest ih =>
    intro w
    obtain ⟨serviceName, t⟩ := hd
    generalize hr : installClick.startStopped env ((serviceName, t) :: rest) w = r
    unfold installClick.startStopped at hr
    split at hr
    · next e w1 ha =>
      obtain ⟨h1, _⟩ := attempt_some ha
      subst h1
      obtain ⟨ihd, ihc⟩ := ih ((w.record (Call.start serviceName)).record
        (Call.notify (Msg.unableToRestartOld serviceName e)))
      rw [hr] at ihd ihc
      refine ⟨ihd, Calls.ctrans ?_ ihc⟩
      exact calls_record2 w _ _ (Or.inl ⟨_, rfl⟩) (Or.inr ⟨_, _, rfl⟩)
    · next w1 ha =>
      obtain ⟨h1, h2, _⟩ := attempt_none ha
      obtain ⟨ihd, ihc⟩ := ih w1
      rw [hr] at ihd ihc
      refine ⟨by rw [ihd, h1]; rfl, Calls.ctrans ?_ ihc⟩
      exact calls_of_append _ h2 (Or.inl ⟨_, rfl⟩)

theorem stopStarted_spec (env : Env) : ∀ (started : ServiceMap) (w : World),
    (installClick.stopStarted env started w).disk = w.disk ∧
    Calls (fun c => (∃ s t, c = .stop s t ∧ s ∈ started.map Prod.fst) ∨
      ∃ s e, c = .notify (.unableToStopOld s e)) w (installClick.stopStarted env started w) := by
  intro started
  induction started with
  | nil => intro w; exact ⟨rfl, Calls.crefl _ w⟩
  | cons hd rest ih =>
    intro w
    obtain ⟨serviceName, t⟩ := hd
    have lift : ∀ c, ((∃ s t, c = Call.stop s t ∧ s ∈ rest.map Prod.fst) ∨
        ∃ s e, c = Call.notify (Msg.unableToStopOld s e)) →
        ((∃ s t2, c = Call.stop s t2 ∧ s ∈ ((serviceName, t) :: rest).map Prod.fst) ∨
        ∃ s e, c = Call.notify (Msg.unableToStopOld s e)) := by
      rintro c (⟨s, t2, h1, h2⟩ | h)
      · exact Or.inl ⟨s, t2, h1, by simp [h2]⟩
      · exact Or.inr h
    generalize hr : installClick.stopStarted env ((serviceName, t) :: rest) w = r
    unfold installClick.stopStarted at hr
    split at hr
    · next e w1 ha =>
      obtain ⟨h1, _⟩ := attempt_some ha
      subst h1
      obtain ⟨ihd, ihc⟩ := ih ((w.record (Call.stop serviceName t)).record
        (Call.notify (Msg.unableToStopOld serviceName e)))
      rw [hr] at ihd ihc
      refine ⟨ihd, Calls.ctrans ?_ (ihc.cmono lift)⟩
      exact calls_record2 w _ _ (Or.inl ⟨_, _, rfl, by simp⟩) (Or.inr ⟨_, _, rfl⟩)
    · next w1 ha =>
      obtain ⟨h1, h2, _⟩ := attempt_none ha
      obtain ⟨ihd, ihc⟩ := ih w1
      rw [hr] at ihd ihc
      refine ⟨by rw [ihd, h1]; rfl, Calls.ctrans ?_ (ihc.cmono lift)⟩
      exact calls_of_append _ h2 (Or.inl ⟨_, _, rfl, by simp⟩)

theorem restart_spec (env : Env) : ∀ (stopped started : ServiceMap) (w : World),
    (installClick.restart env stopped started w).2.2.disk = w.disk ∧
    (∀ k, k ∈ (installClick.restart env stopped started w).2.1.map Prod.fst →
      k ∈ started.map Prod.fst ∨ k ∈ stopped.map Prod.fst) ∧
    Calls (fun c => (∃ s, c = .start s) ∨ ∃ s e, c = .notify (.unableToRestartAborting s e)) w
      (installClick.restart env stopped started w).2.2 := by
  intro stopped
  induction stopped with
  | nil => intro started w; exact ⟨rfl, fun k hk => Or.inl hk, Calls.crefl _ w⟩
  | cons hd rest ih =>
    intro started w
    obtain ⟨serviceName, t⟩ := hd
    generalize hr : installClick.restart env ((serviceName, t) :: rest) started w = r
    unfold installClick.restart at hr
    split at hr
    · next e w1 ha =>
      obtain ⟨h1, _⟩ := attempt_some ha
      subst h1 hr
      exact ⟨rfl, fun k hk => Or.inl hk,
        calls_record2 w _ _ (Or.inl ⟨_, rfl⟩) (Or.inr ⟨_, _, rfl⟩)⟩
    · next w1 ha =>
      obtain ⟨h1, h2, _⟩ := attempt_none ha
      obtain ⟨ihd, ihk, ihc⟩ := ih (mapSet started serviceName t) w1
      rw [hr] at ihd ihk ihc
      refine ⟨by rw [ihd, h1]; rfl, ?_,
        Calls.ctrans (calls_of_append _ h2 (Or.inl ⟨_, rfl⟩)) ihc⟩
      intro k hk
      rcases ihk k hk with h | h
      · rcases mapSet_keys _ _ _ _ h with h3 | h3
        · exact Or.inr (by simp [h3])
        · exact Or.inl h3
      · exact Or.inr (by simp [h])

theorem defer933_spec (env : Env) (err : Option Err) (stopped : ServiceMap) (w : World) :
    (installClick.defer933 env err stopped w).disk = w.disk ∧
    Calls (fun c => (∃ s, c = .start s) ∨ ∃ s e, c = .notify (.unableToRestartOld s e)) w
      (installClick.defer933 env err stopped w) := by
  unfold installClick.defer933
  split
  · exact startStopped_spec env _ w
  · exact ⟨rfl, Calls.crefl _ w⟩

theorem defer963_spec (env : Env) (err : Option Err) (started : ServiceMap) (w : World) :
    (installClick.defer963 env err started w).disk = w.disk ∧
    Calls (fun c => (∃ s t, c = .stop s t ∧ s ∈ started.map Prod.fst) ∨
      ∃ s e, c = .notify (.unableToStopOld s e)) w
      (installClick.defer963 env err started w) := by
  unfold installClick.defer963
  split
  · obtain ⟨hd, hc⟩ := stopStarted_spec env (env.rangeServices w.calls started).val w
    refine ⟨hd, hc.cmono ?_⟩
    rintro c (⟨s, t, h1, h2⟩ | h)
    · exact Or.inl ⟨s, t, h1,
        ((env.rangeServices w.calls started).property.map Prod.fst).subset h2⟩
    · exact Or.inr h
  · exact ⟨rfl, Calls.crefl _ w⟩

theorem refreshSecurity_spec (env : Env) (part : SnapPart) (cur : Option ClickDir) (w : World) :
    (installClick.refreshSecurity env part cur w).2.disk = w.disk ∧
    StopAbort w (installClick.refreshSecurity env part cur w).2
      (installClick.refreshSecurity env part cur w).1 ∧
    (∀ deps, env.dependents w.calls part = .ok deps →
      Calls (IsBlockCall deps) w (installClick.refreshSecurity env part cur w).2) := by
  generalize hr : installClick.refreshSecurity env part cur w = r
  unfold installClick.refreshSecurity at hr
  split at hr
  · next err hdep =>
    subst hr
    refine ⟨rfl, Or.inl (Calls.crefl _ w), ?_⟩
    intro deps hd
    rw [hdep] at hd
    simp at hd
  · next deps hdep =>
    obtain ⟨sd, sk, sn, se⟩ := stopDependents_spec env deps [] w
    have hkeys : ∀ stopped w1, (installClick.stopDependents env deps [] w).2 = (stopped, w1) →
        ∀ k, k ∈ stopped.map Prod.fst → IsDependentService deps k := by
      intro stopped w1 heq k hk
      rw [heq] at sk
      rcases sk k hk with h | h
      · simp at h
      · exact h
    have hstart : ∀ (err : Option Err) (stopped : ServiceMap) (w1 : World),
        Calls (fun c => (∀ old, c ≠ Call.refreshDependentsSecurity old) ∧
          (∀ s e, c ≠ Call.notify (Msg.unableToStopAborting s e)) ∧ IsBlockCall deps c) w1
          (installClick.defer933 env err stopped w1) := by
      intro err stopped w1
      refine (defer933_spec env err stopped w1).2.cmono ?_
      rintro c (⟨s, rfl⟩ | ⟨s, e, rfl⟩)
      · exact ⟨by simp, by simp, Or.inr (Or.inl ⟨s, rfl⟩)⟩
      · exact ⟨by simp, by simp, Or.inr (Or.inr (Or.inr ⟨_, rfl⟩))⟩
    have result : ∀ deps2, env.dependents w.calls part = .ok deps2 → deps2 = deps := by
      intro deps2 h2
      rw [hdep] at h2
      simp only [Except.ok.injEq] at h2
      exact h2.symm
    split at hr
    · next err stopped w1 heq =>
      subst hr
      rw [heq] at sd se
      obtain ⟨mid, s, t, h1, h2, h3, h4⟩ := se err rfl
      have hAll : Calls (fun c => (∀ old, c ≠ Call.refreshDependentsSecurity old) ∧
          (∀ s2 e2, c = Call.notify (Msg.unableToStopAborting s2 e2) → e2 = err) ∧
          IsBlockCall deps c) w w1 := by
        refine ⟨mid ++ [.stop s t, .notify (.unableToStopAborting s err)], by rw [h1]; simp, ?_⟩
        intro c hc
        rcases List.mem_append.mp hc with h | h
        · obtain ⟨dep, hd, hact, svc, hs, t2, rfl⟩ := h4 c h
          exact ⟨by simp, by simp, Or.inl ⟨_, _, rfl, dep, hd, hact, svc, hs, rfl⟩⟩
        · simp only [List.mem_cons, List.mem_singleton, List.not_mem_nil, or_false] at h
          rcases h with rfl | rfl
          · exact ⟨by simp, by simp, Or.inl ⟨_, _, rfl, h3⟩⟩
          · refine ⟨by simp, ?_, Or.inr (Or.inr (Or.inr ⟨_, rfl⟩))⟩
            intro s2 e2 heq2
            simp only [Call.notify.injEq, Msg.unableToStopAborting.injEq] at heq2
            exact heq2.2.symm
      have hTot := hAll.ctrans ((hstart (some err) stopped w1).cmono
        (fun c hc => ⟨hc.1, fun s2 e2 h => absurd h (hc.2.1 s2 e2), hc.2.2⟩))
      refine ⟨?_, Or.inr ⟨err, rfl, hTot.cmono (fun c hc => ⟨hc.1, hc.2.1⟩)⟩, ?_⟩
      · exact (defer933_spec env (some err) stopped w1).1.trans sd
      · intro deps2 h2
        rw [result deps2 h2]
        exact hTot.cmono (fun c hc => hc.2.2)
    · next stopped w1 heq =>
      rw [heq] at sd sn
      have hk := hkeys stopped w1 (by rw [heq])
      have hstop : Calls (fun c => (∀ s e, c ≠ Call.notify (Msg.unableToStopAborting s e)) ∧
          IsBlockCall deps c) w w1 := by
        refine (sn rfl).cmono ?_
        rintro c ⟨dep, hd, hact, svc, hs, t, rfl⟩
        exact ⟨by simp, Or.inl ⟨_, _, rfl, dep, hd, hact, svc, hs, rfl⟩⟩
      have hweak : ∀ {wa wb : World}, Calls (fun c => (∀ old, c ≠ Call.refreshDependentsSecurity
          old) ∧ (∀ s e, c ≠ Call.notify (Msg.unableToStopAborting s e)) ∧ IsBlockCall deps c)
          wa wb → Calls (fun c => (∀ s e, c ≠ Call.notify (Msg.unableToStopAborting s e)) ∧
          IsBlockCall deps c) wa wb := fun h => h.cmono (fun c hc => hc.2)
      split at hr
      · next err w2 ha =>
        obtain ⟨h1, _⟩ := attempt_some ha
        subst h1 hr
        have hTot := hstop.ctrans ((Calls.record w1 (Call.refreshDependentsSecurity cur)
          (show (∀ s e, Call.refreshDependentsSecurity cur ≠
            Call.notify (Msg.unableToStopAborting s e)) ∧
            IsBlockCall deps (Call.refreshDependentsSecurity cur) from
            ⟨by simp, Or.inr (Or.inr (Or.inl ⟨_, rfl⟩))⟩)).ctrans (hweak (hstart none stopped _)))
        refine ⟨?_, Or.inl (hTot.cmono (fun c hc => hc.1)), ?_⟩
        · exact (defer933_spec env none stopped _).1.trans sd
        · intro deps2 h2
          rw [result deps2 h2]
          exact hTot.cmono (fun c hc => hc.2)
      · next w2 ha =>
        obtain ⟨h1, h2c, _⟩ := attempt_none ha
        have h12 : Calls (fun c => (∀ s e, c ≠ Call.notify (Msg.unableToStopAborting s e)) ∧
            IsBlockCall deps c) w1 w2 :=
          calls_of_append _ h2c ⟨by simp, Or.inr (Or.inr (Or.inl ⟨_, rfl⟩))⟩
        obtain ⟨rd, rk, rc⟩ := restart_spec env (env.rangeServices w2.calls stopped).val [] w2
        have hrest : Calls (fun c => (∀ s e, c ≠ Call.notify (Msg.unableToStopAborting s e)) ∧
            IsBlockCall deps c) w2 (installClick.restart env (env.rangeServices w2.calls stopped).val [] w2).2.2 := by
          refine rc.cmono ?_
          rintro c (⟨s, rfl⟩ | ⟨s, e, rfl⟩)
          · exact ⟨by simp, Or.inr (Or.inl ⟨s, rfl⟩)⟩
          · exact ⟨by simp, Or.inr (Or.inr (Or.inr ⟨_, rfl⟩))⟩
        have h963 : ∀ (err : Option Err),
            Calls (fun c => (∀ s e, c ≠ Call.notify (Msg.unableToStopAborting s e)) ∧
              IsBlockCall deps c) (installClick.restart env (env.rangeServices w2.calls stopped).val [] w2).2.2
              (installClick.defer963 env err (installClick.restart env (env.rangeServices w2.calls stopped).val [] w2).2.1
                (installClick.restart env (env.rangeServices w2.calls stopped).val [] w2).2.2) := by
          intro err
          refine (defer963_spec env err _ _).2.cmono ?_
          rintro c (⟨s, t, rfl, hs⟩ | ⟨s, e, rfl⟩)
          · refine ⟨by simp, Or.inl ⟨_, _, rfl, ?_⟩⟩
            rcases rk s hs with h | h
            · simp at h
            · exact hk s (((env.rangeServices w2.calls stopped).property.map Prod.fst).subset h)
          · exact ⟨by simp, Or.inr (Or.inr (Or.inr ⟨_, rfl⟩))⟩
        have hd2 : w2.disk = w.disk := by rw [h1]; exact sd
        split at hr
        · next err started w3 heq3 =>
          subst hr
          have h963e := h963 (some err)
          have hd963 := (defer963_spec env (some err) (installClick.restart env (env.rangeServices w2.calls stopped).val [] w2).2.1
            (installClick.restart env (env.rangeServices w2.calls stopped).val [] w2).2.2).1
          rw [heq3] at hrest rd h963e hd963
          have hTot := hstop.ctrans (h12.ctrans (hrest.ctrans (h963e.ctrans
            (hweak (hstart (some err) stopped _)))))
          refine ⟨?_, Or.inl (hTot.cmono (fun c hc => hc.1)), ?_⟩
          · exact (defer933_spec env (some err) stopped _).1.trans (hd963.trans (rd.trans hd2))
          · intro deps2 h2
            rw [result deps2 h2]
            exact hTot.cmono (fun c hc => hc.2)
        · next started w3 heq3 =>
          subst hr
          have h963e := h963 none
          have hd963 := (defer963_spec env none (installClick.restart env (env.rangeServices w2.calls stopped).val [] w2).2.1
            (installClick.restart env (env.rangeServices w2.calls stopped).val [] w2).2.2).1
          rw [heq3] at hrest rd h963e hd963
          have hTot := hstop.ctrans (h12.ctrans (hrest.ctrans (h963e.ctrans
            (hweak (hstart none stopped _)))))
          refine ⟨?_, Or.inl (hTot.cmono (fun c hc => hc.1)), ?_⟩
          · exact (defer933_spec env none stopped _).1.trans (hd963.trans (rd.trans hd2))
          · intro deps2 h2
            rw [result deps2 h2]
            exact hTot.cmono (fun c hc => hc.2)

/-! ### The calls of `installClick` outside the security refresh -/

theorem isActivation_outside (c : Call) (h : c.isActivation = true) :
    c.isRefreshStep = false := by
  cases c with
  | notify m => cases m <;> simp [Call.isActivation, Call.isRefreshStep] at h ⊢
  | refreshDependentsSecurity old => simp [Call.isActivation] at h
  | _ => rfl

theorem Acti.outside {parent : String} {w w2 : World} (h : Acti parent w w2) : Outside w w2 :=
  h.1.cmono isActivation_outside

theorem Outside.orefl (w : World) : Outside w w := Calls.crefl _ w

theorem Outside.otrans {w1 w2 w3 : World} (h12 : Outside w1 w2) (h23 : Outside w2 w3) :
    Outside w1 w3 := Calls.ctrans h12 h23

theorem outside_record (w : World) (c : Call) (hc : c.isRefreshStep = false) :
    Outside w (w.record c) := Calls.record w c hc

theorem outside_attempt (env : Env) (c : Call) (eff : Disk → Disk) (w : World)
    (hc : c.isRefreshStep = false) : Outside w (attempt env c eff w).2 :=
  attempt_calls env c eff w hc

theorem Dati.drefl (w : World) : Dati w w := ⟨Outside.orefl w, rfl, rfl⟩

theorem Dati.dtrans {w1 w2 w3 : World} (h12 : Dati w1 w2) (h23 : Dati w2 w3) : Dati w1 w3 :=
  ⟨h12.1.otrans h23.1, h23.2.1.trans h12.2.1, h23.2.2.trans h12.2.2⟩

theorem dati_attempt (env : Env) (c : Call) (eff : Disk → Disk) (w : World)
    (hc : c.isRefreshStep = false)
    (heff : ∀ k, (eff k).dirs = k.dirs ∧ (eff k).current = k.current) :
    Dati w (attempt env c eff w).2 := by
  refine ⟨outside_attempt env c eff w hc, ?_⟩
  rcases attempt_disk env c eff w with h | ⟨_, h⟩
  · rw [h]
    exact ⟨rfl, rfl⟩
  · rw [h]
    exact heff w.disk

theorem copySnapData_dati (env : Env) (fullName oldVersion newVersion : String) (w : World) :
    Dati w (copySnapData env fullName oldVersion newVersion w).2 := by
  unfold copySnapData
  split
  · exact Dati.drefl w
  · next oldDataDirs _ =>
    obtain ⟨added, hc, hP, hd, hcur, _, _, _⟩ :=
      copySnapData_loop_spec env newVersion oldDataDirs w
    refine ⟨⟨added, hc, ?_⟩, hd, hcur⟩
    intro c hcm
    obtain ⟨o, _, rfl, _, _⟩ := hP c hcm
    rfl

theorem removeSnapData_loop_dati (env : Env) : ∀ (dirs : List DataDir) (w : World),
    Dati w (removeSnapData.loop env dirs w).2 := by
  intro dirs
  induction dirs with
  | nil => intro w; exact Dati.drefl w
  | cons dir rest ih =>
    intro w
    have h1 := dati_attempt env (.removeAll (.data dir)) (fun k => k.setData dir none) w
      (by rfl) (fun _ => ⟨rfl, rfl⟩)
    unfold removeSnapData.loop
    split
    · next err w1 heq =>
      rw [heq] at h1
      split
      · exact h1
      · exact h1.dtrans ((dati_attempt env _ id w1 (by rfl) (fun _ => ⟨rfl, rfl⟩)).dtrans
          (ih _))
    · next w1 heq =>
      rw [heq] at h1
      exact h1.dtrans ((dati_attempt env _ id w1 (by rfl) (fun _ => ⟨rfl, rfl⟩)).dtrans (ih _))

theorem removeSnapData_dati (env : Env) (fullName version : String) (w : World) :
    Dati w (removeSnapData env fullName version w).2 := by
  unfold removeSnapData
  split
  · exact Dati.drefl w
  · exact removeSnapData_loop_dati env _ w

theorem Diri.irefl (basedir : ClickDir) (w : World) : Diri basedir w w :=
  ⟨Outside.orefl w, rfl, rfl, fun _ _ => rfl, fun _ h => h⟩

theorem Diri.itrans {basedir : ClickDir} {w1 w2 w3 : World} (h12 : Diri basedir w1 w2)
    (h23 : Diri basedir w2 w3) : Diri basedir w1 w3 :=
  ⟨h12.1.otrans h23.1, h23.2.1.trans h12.2.1, h23.2.2.1.trans h12.2.2.1,
    fun d hd => (h23.2.2.2.1 d hd).trans (h12.2.2.2.1 d hd),
    fun d hd => h23.2.2.2.2 d (h12.2.2.2.2 d hd)⟩

theorem diri_record (basedir : ClickDir) (w : World) (c : Call)
    (hc : c.isRefreshStep = false) : Diri basedir w (w.record c) :=
  ⟨outside_record w c hc, rfl, rfl, fun _ _ => rfl, fun _ h => h⟩

theorem diri_attempt (env : Env) (basedir : ClickDir) (c : Call) (eff : Disk → Disk)
    (w : World) (hc : c.isRefreshStep = false)
    (heff : ∀ k, (eff k).current = k.current ∧ (eff k).data = k.data ∧
      (∀ d, d ≠ basedir → (eff k).dirs d = k.dirs d) ∧
      (∀ d, (k.dirs d).isSome = true → ((eff k).dirs d).isSome = true)) :
    Diri basedir w (attempt env c eff w).2 := by
  refine ⟨outside_attempt env c eff w hc, ?_⟩
  rcases attempt_disk env c eff w with h | ⟨_, h⟩
  · rw [h]
    exact ⟨rfl, rfl, fun _ _ => rfl, fun _ h => h⟩
  · rw [h]
    exact heff w.disk

theorem setDir_some_eff (basedir : ClickDir) (c : Disk → DirContent) (k : Disk) :
    (k.setDir basedir (some (c k))).current = k.current ∧
    (k.setDir basedir (some (c k))).data = k.data ∧
    (∀ d, d ≠ basedir → (k.setDir basedir (some (c k))).dirs d = k.dirs d) ∧
    (∀ d, (k.dirs d).isSome = true → ((k.setDir basedir (some (c k))).dirs d).isSome = true) := by
  refine ⟨rfl, rfl, ?_, ?_⟩
  · intro d hd
    simp [Disk.setDir, hd]
  · intro d hd
    by_cases h : d = basedir
    · simp [Disk.setDir, h]
    · simpa [Disk.setDir, h] using hd

theorem createDir_eff (basedir : ClickDir) (k : Disk) :
    (k.createDir basedir).current = k.current ∧
    (k.createDir basedir).data = k.data ∧
    (∀ d, d ≠ basedir → (k.createDir basedir).dirs d = k.dirs d) ∧
    (∀ d, (k.dirs d).isSome = true → ((k.createDir basedir).dirs d).isSome = true) := by
  unfold Disk.createDir
  split
  · exact ⟨rfl, rfl, fun _ _ => rfl, fun _ h => h⟩
  · exact setDir_some_eff basedir (fun _ => emptyDir) k

theorem unpackWithDropPrivs_diri (env : Env) (part : SnapPart) (instDir : ClickDir)
    (w : World) : Diri instDir w (unpackWithDropPrivs env part instDir w).2 := by
  have heff : ∀ k, (unpackInto part instDir k).current = k.current ∧
      (unpackInto part instDir k).data = k.data ∧
      (∀ d, d ≠ instDir → (unpackInto part instDir k).dirs d = k.dirs d) ∧
      (∀ d, (k.dirs d).isSome = true → ((unpackInto part instDir k).dirs d).isSome = true) :=
    fun k => setDir_some_eff instDir
      (fun k => { (k.dirs instDir).getD emptyDir with yaml := .ok part.m }) k
  unfold unpackWithDropPrivs
  split
  · exact diri_attempt env instDir _ _ w (by rfl) heff
  · dsimp only
    split
    · exact Diri.irefl instDir w
    · have h := diri_attempt env instDir (.unpackHelper env.privHelper instDir)
        (unpackInto part instDir) w (by rfl) heff
      split
      · next err w1 heq =>
        rw [heq] at h
        exact h
      · next w1 heq =>
        rw [heq] at h
        exact h

theorem addManifest_eff (basedir : ClickDir) (file : String) (cm : ClickManifest) (k : Disk) :
    (addManifest basedir file cm k).current = k.current ∧
    (addManifest basedir file cm k).data = k.data ∧
    (∀ d, d ≠ basedir → (addManifest basedir file cm k).dirs d = k.dirs d) ∧
    (∀ d, (k.dirs d).isSome = true → ((addManifest basedir file cm k).dirs d).isSome = true) :=
  setDir_some_eff basedir
    (fun k => { (k.dirs basedir).getD emptyDir with
      manifests := mapSet ((k.dirs basedir).getD emptyDir).manifests file (.ok cm) }) k

theorem writeCompatManifestJSON_diri (env : Env) (clickMetaDir : ClickDir)
    (manifestData : Except Err ClickManifest) (origin : String) (w : World) :
    Diri clickMetaDir w (writeCompatManifestJSON env clickMetaDir manifestData origin w).2 := by
  unfold writeCompatManifestJSON
  split
  · exact Diri.irefl _ w
  · dsimp only
    split
    · exact diri_record _ w _ (by rfl)
    · exact diri_attempt env clickMetaDir _ _ w (by rfl)
        (fun k => addManifest_eff clickMetaDir _ _ k)

theorem setActiveClick_outside (env : Env) (baseDir : ClickDir) (inhibitHooks : Bool)
    (w : World) : Outside w (setActiveClick env baseDir inhibitHooks w).2 :=
  (setActiveClick_spec env baseDir inhibitHooks w).1.outside

theorem unsetActiveClick_outside (env : Env) (clickDir : ClickDir) (inhibitHooks : Bool)
    (w : World) : Outside w (unsetActiveClick env clickDir inhibitHooks w).2 :=
  (unsetActiveClick_spec env clickDir inhibitHooks w).1.outside

theorem defer913_outside (env : Env) (err : Option Err) (cur : Option ClickDir)
    (inhibitHooks : Bool) (w : World) :
    Outside w (installClick.defer913 env err cur inhibitHooks w) := by
  unfold installClick.defer913
  split
  · next cur0 =>
    have h := setActiveClick_outside env cur0 inhibitHooks w
    split
    · next cerr w1 heq =>
      rw [heq] at h
      exact h.otrans (outside_record w1 _ (by rfl))
    · next w1 heq =>
      rw [heq] at h
      exact h
  · exact Outside.orefl w

theorem defer899_outside (env : Env) (err : Option Err) (part : SnapPart) (w : World) :
    Outside w (installClick.defer899 env err part w) := by
  unfold installClick.defer899
  split
  · have h := (removeSnapData_dati env part.fullName part.version w).1
    split
    · next cerr w1 heq =>
      rw [heq] at h
      exact h.otrans (outside_record w1 _ (by rfl))
    · next w1 heq =>
      rw [heq] at h
      exact h
  · exact Outside.orefl w

theorem defer883_outside (env : Env) (err : Option Err) (cur : ClickDir)
    (inhibitHooks : Bool) (w : World) :
    Outside w (installClick.defer883 env err cur inhibitHooks w) := by
  unfold installClick.defer883
  split
  · have h := setActiveClick_outside env cur inhibitHooks w
    split
    · next cerr w1 heq =>
      rw [heq] at h
      exact h.otrans (outside_record w1 _ (by rfl))
    · next w1 heq =>
      rw [heq] at h
      exact h
  · exact Outside.orefl w

theorem defer839_outside (env : Env) (err : Option Err) (part : SnapPart) (w : World) :
    Outside w (installClick.defer839 env err part w) := by
  unfold installClick.defer839
  split
  · have h := outside_attempt env (.removeAll (.clickDir part.basedir))
      (fun k => k.setDir part.basedir none) w (by rfl)
    split
    · next e w1 heq =>
      rw [heq] at h
      split
      · exact h.otrans (outside_record w1 _ (by rfl))
      · exact h
    · next w1 heq =>
      rw [heq] at h
      exact h
  · exact Outside.orefl w

theorem isRefreshStep_false (c : Call) (h : c.isRefreshStep = false) :
    (∀ old, c ≠ .refreshDependentsSecurity old) ∧
    ∀ s e, c ≠ .notify (.unableToStopAborting s e) := by
  constructor
  · intro old heq
    subst heq
    simp [Call.isRefreshStep] at h
  · intro s e heq
    subst heq
    simp [Call.isRefreshStep] at h

theorem stopAbort_of_outside {w w2 : World} (err : Option Err) (h : Outside w w2) :
    StopAbort w w2 err :=
  Or.inl (h.cmono (fun c hc => (isRefreshStep_false c hc).2))

theorem stopAbort_wrap {w0 w w2 w3 : World} {err : Option Err} (h0 : Outside w0 w)
    (h : StopAbort w w2 err) (h3 : Outside w2 w3) : StopAbort w0 w3 err := by
  rcases h with h | ⟨e, he, h⟩
  · exact Or.inl ((h0.cmono (fun c hc => (isRefreshStep_false c hc).2)).ctrans
      (h.ctrans (h3.cmono (fun c hc => (isRefreshStep_false c hc).2))))
  · refine Or.inr ⟨e, he, ?_⟩
    have lift : ∀ c, c.isRefreshStep = false → (∀ old, c ≠ Call.refreshDependentsSecurity old) ∧
        ∀ s e2, c = Call.notify (Msg.unableToStopAborting s e2) → e2 = e :=
      fun c hc => ⟨(isRefreshStep_false c hc).1,
        fun s e2 heq => absurd heq ((isRefreshStep_false c hc).2 s e2)⟩
    exact (h0.cmono lift).ctrans (h.ctrans (h3.cmono lift))

theorem activate_stopAbort (env : Env) (part : SnapPart) (cur : Option ClickDir)
    (inhibitHooks : Bool) (err : Option Err) (w : World) :
    StopAbort w (installClick.activate env part cur inhibitHooks err w).2
      (installClick.activate env part cur inhibitHooks err w).1.2 ∧
    ((installClick.activate env part cur inhibitHooks err w).1.2 ≠ none →
      (installClick.activate env part cur inhibitHooks err w).1.1 = "") := by
  generalize hr : installClick.activate env part cur inhibitHooks err w = r
  unfold installClick.activate at hr
  dsimp only at hr
  split at hr
  · next e =>
    subst hr
    exact ⟨stopAbort_of_outside _ (defer899_outside env _ part w), fun _ => rfl⟩
  · have h1 := setActiveClick_outside env part.basedir inhibitHooks w
    split at hr
    · next e w1 heq =>
      subst hr
      rw [heq] at h1
      exact ⟨stopAbort_of_outside _ (h1.otrans ((defer913_outside env _ cur inhibitHooks w1).otrans
        (defer899_outside env _ part _))), fun _ => rfl⟩
    · next w1 heq =>
      rw [heq] at h1
      split at hr
      · obtain ⟨_, hsa, _⟩ := refreshSecurity_spec env part cur w1
        split at hr
        · next e w2 heq2 =>
          subst hr
          rw [heq2] at hsa
          exact ⟨stopAbort_wrap h1 hsa ((defer913_outside env _ cur inhibitHooks w2).otrans
            (defer899_outside env _ part _)), fun _ => rfl⟩
        · next w2 heq2 =>
          subst hr
          rw [heq2] at hsa
          exact ⟨stopAbort_wrap h1 hsa ((defer913_outside env _ cur inhibitHooks w2).otrans
            (defer899_outside env _ part _)), fun h => absurd rfl h⟩
      · subst hr
        exact ⟨stopAbort_of_outside _ (h1.otrans ((defer913_outside env _ cur inhibitHooks w1).otrans
          (defer899_outside env _ part _))), fun h => absurd rfl h⟩

theorem body_stopAbort (env : Env) (part : SnapPart) (origin : String)
    (manifestData : Except Err ClickManifest) (cur : Option ClickDir) (inhibitHooks : Bool)
    (w : World) :
    StopAbort w (installClick.body env part origin manifestData cur inhibitHooks w).2
      (installClick.body env part origin manifestData cur inhibitHooks w).1.2 ∧
    ((installClick.body env part origin manifestData cur inhibitHooks w).1.2 ≠ none →
      (installClick.body env part origin manifestData cur inhibitHooks w).1.1 = "") := by
  generalize hr : installClick.body env part origin manifestData cur inhibitHooks w = r
  unfold installClick.body at hr
  have h1 := (unpackWithDropPrivs_diri env part part.basedir w).1
  split at hr
  · next err w1 heq =>
    subst hr
    rw [heq] at h1
    exact ⟨stopAbort_of_outside _ h1, fun _ => rfl⟩
  · next w1 heq =>
    rw [heq] at h1
    have h2 := outside_attempt env (.mkdirAll (.clickMeta part.basedir))
      (fun k => k.createDir part.basedir) w1 (by rfl)
    split at hr
    · next err w2 heq2 =>
      subst hr
      rw [heq2] at h2
      exact ⟨stopAbort_of_outside _ (h1.otrans h2), fun _ => rfl⟩
    · next w2 heq2 =>
      rw [heq2] at h2
      have h3 := (writeCompatManifestJSON_diri env part.basedir manifestData origin w2).1
      split at hr
      · next err w3 heq3 =>
        subst hr
        rw [heq3] at h3
        exact ⟨stopAbort_of_outside _ (h1.otrans (h2.otrans h3)), fun _ => rfl⟩
      · next w3 heq3 =>
        rw [heq3] at h3
        have h4 := outside_attempt env (.extractHashes part.basedir) id w3 (by rfl)
        split at hr
        · next err w4 heq4 =>
          subst hr
          rw [heq4] at h4
          exact ⟨stopAbort_of_outside _ (h1.otrans (h2.otrans (h3.otrans h4))), fun _ => rfl⟩
        · next w4 heq4 =>
          rw [heq4] at h4
          have h04 := h1.otrans (h2.otrans (h3.otrans h4))
          split at hr
          · next cur0 =>
            split at hr
            · subst hr
              exact ⟨stopAbort_of_outside _ h04, fun _ => rfl⟩
            · next oldM _ =>
              have h5 := unsetActiveClick_outside env cur0 inhibitHooks w4
              split at hr
              · next err w5 heq5 =>
                subst hr
                rw [heq5] at h5
                exact ⟨stopAbort_of_outside _ (h04.otrans (h5.otrans
                  (defer883_outside env _ cur0 inhibitHooks w5))), fun _ => rfl⟩
              · next w5 heq5 =>
                rw [heq5] at h5
                have h6 := (copySnapData_dati env part.fullName oldM.version part.version w5).1
                obtain ⟨ha, hb⟩ := activate_stopAbort env part (some cur0) inhibitHooks none
                  (copySnapData env part.fullName oldM.version part.version w5).2
                subst hr
                exact ⟨stopAbort_wrap (h04.otrans (h5.otrans h6)) ha
                  (defer883_outside env _ cur0 inhibitHooks _), hb⟩
          · have h5 := outside_attempt env (.mkdirAll (.data ⟨.system, part.fullName,
              part.version⟩)) (fun k => k.createData ⟨.system, part.fullName, part.version⟩) w4
              (by rfl)
            obtain ⟨ha, hb⟩ := activate_stopAbort env part none inhibitHooks
              (attempt env (.mkdirAll (.data ⟨.system, part.fullName, part.version⟩))
                (fun k => k.createData ⟨.system, part.fullName, part.version⟩) w4).1
              (attempt env (.mkdirAll (.data ⟨.system, part.fullName, part.version⟩))
                (fun k => k.createData ⟨.system, part.fullName, part.version⟩) w4).2
            subst hr
            exact ⟨stopAbort_wrap (h04.otrans h5) ha (Outside.orefl _), hb⟩

theorem opened_stopAbort (env : Env) (part : SnapPart) (flags : InstallFlags) (origin : String)
    (w : World) :
    StopAbort w (installClick.opened env part flags origin w).2
      (installClick.opened env part flags origin w).1.2 ∧
    ((installClick.opened env part flags origin w).1.2 ≠ none →
      (installClick.opened env part flags origin w).1.1 = "") := by
  generalize hr : installClick.opened env part flags origin w = r
  unfold installClick.opened at hr
  dsimp only at hr
  split at hr
  · subst hr
    exact ⟨stopAbort_of_outside _ (Outside.orefl w), fun _ => rfl⟩
  · split at hr
    · subst hr
      exact ⟨stopAbort_of_outside _ (outside_record w _ (by rfl)), fun _ => rfl⟩
    · next manifestData _ =>
      generalize hr1 : (if part.type = PkgType.oem then attempt env Call.oemUdevRules id w
        else (none, w)) = r1 at hr
      have h1 : Outside w r1.2 := by
        subst hr1
        split
        · exact outside_attempt env _ _ w (by rfl)
        · exact Outside.orefl w
      split at hr
      · next err w1 =>
        subst hr
        exact ⟨stopAbort_of_outside _ h1, fun _ => rfl⟩
      · next w1 =>
        generalize hw2 : (match attempt env (Call.mkdirAll (Path.clickDir part.basedir))
            (fun k => k.createDir part.basedir) w1 with
          | (some err, w0) => w0.record (Call.notice (Msg.canNotCreate part.basedir err))
          | (none, w0) => w0) = w2 at hr
        have h2 : Outside w1 w2 := by
          subst hw2
          have h := outside_attempt env (.mkdirAll (.clickDir part.basedir))
            (fun k => k.createDir part.basedir) w1 (by rfl)
          split
          · next err w0 heq =>
            rw [heq] at h
            exact h.otrans (outside_record w0 _ (by rfl))
          · next w0 heq =>
            rw [heq] at h
            exact h
        obtain ⟨ha, hb⟩ := body_stopAbort env part origin manifestData
          (currentActiveDirOf w1.disk part.basedir.parent) flags.inhibitHooks w2
        subst hr
        exact ⟨stopAbort_wrap (Outside.otrans h1 h2) ha (defer839_outside env _ part _), hb⟩

theorem installClick_stopAbort (env : Env) (snapFile : String) (flags : InstallFlags)
    (origin : String) (w : World) :
    StopAbort w (installClick env snapFile flags origin w).2
      (installClick env snapFile flags origin w).1.2 ∧
    ((installClick env snapFile flags origin w).1.2 ≠ none →
      (installClick env snapFile flags origin w).1.1 = "") := by
  generalize hr : installClick env snapFile flags origin w = r
  unfold installClick at hr
  dsimp only at hr
  split at hr
  · subst hr
    exact ⟨stopAbort_of_outside _ (Outside.orefl w), fun _ => rfl⟩
  · next part _ =>
    obtain ⟨ha, hb⟩ := opened_stopAbort env part flags origin w
    subst hr
    exact ⟨stopAbort_wrap (Outside.orefl w) ha (outside_record _ _ (by rfl)), hb⟩

theorem callsSince_of_calls {P : Call → Prop} {w w2 : World} (h : Calls P w w2) :
    ∀ c ∈ w2.callsSince w.calls.length, P c := by
  obtain ⟨added, ha, hP⟩ := h
  intro c hc
  unfold World.callsSince at hc
  rw [ha, List.drop_left] at hc
  exact hP c hc

/-! ### The `current` symlink resolves or is absent -/

theorem consistent_of_disk_eq {w w2 : World} (h : w2.disk = w.disk)
    (hc : ConsistentCurrent w) : ConsistentCurrent w2 := by
  intro parent v hv
  rw [h] at hv ⊢
  exact hc parent v hv

theorem attempt_id_disk (env : Env) (c : Call) (w : World) :
    (attempt env c id w).2.disk = w.disk := by
  rcases attempt_disk env c id w with h | ⟨_, h⟩
  · exact h
  · exact h

theorem Diri.iconsistent {basedir : ClickDir} {w w2 : World} (h : Diri basedir w w2)
    (hc : ConsistentCurrent w) : ConsistentCurrent w2 := by
  intro parent v hv
  rw [h.2.1] at hv
  exact h.2.2.2.2 _ (hc parent v hv)

theorem Dati.dconsistent {w w2 : World} (h : Dati w w2)
    (hc : ConsistentCurrent w) : ConsistentCurrent w2 := by
  intro parent v hv
  rw [h.2.2] at hv
  rw [h.2.1]
  exact hc parent v hv

theorem Arti.aconsistent {w w2 : World} (h : Arti w w2)
    (hc : ConsistentCurrent w) : ConsistentCurrent w2 := by
  intro parent v hv
  rw [h.2.2.1] at hv
  rw [h.2.1]
  exact hc parent v hv

theorem setActiveClick_consistent (env : Env) (baseDir : ClickDir) (inhibitHooks : Bool)
    (w : World) (hc : ConsistentCurrent w) :
    ConsistentCurrent (setActiveClick env baseDir inhibitHooks w).2 := by
  obtain ⟨ha, hok, hcur⟩ := setActiveClick_spec env baseDir inhibitHooks w
  intro parent v hv
  by_cases hp : parent = baseDir.parent
  · subst hp
    rcases hcur with h | h | h
    · rw [h] at hv
      rw [ha.2.1]
      exact hc _ v hv
    · rw [h] at hv
      simp at hv
    · obtain ⟨_, h2, h3⟩ := currentActiveDirOf_eq_some.mp (hok h)
      rw [h2] at hv
      simp only [Option.some.injEq] at hv
      subst hv
      exact h3
  · rw [ha.2.2.2 parent hp] at hv
    rw [ha.2.1]
    exact hc parent v hv

theorem unsetActiveClick_consistent (env : Env) (clickDir : ClickDir) (inhibitHooks : Bool)
    (w : World) (hc : ConsistentCurrent w) :
    ConsistentCurrent (unsetActiveClick env clickDir inhibitHooks w).2 := by
  obtain ⟨ha, hcur, _, _⟩ := unsetActiveClick_spec env clickDir inhibitHooks w
  intro parent v hv
  by_cases hp : parent = clickDir.parent
  · subst hp
    rcases hcur with h | h
    · rw [h] at hv
      rw [ha.2.1]
      exact hc _ v hv
    · rw [h] at hv
      simp at hv
  · rw [ha.2.2.2 parent hp] at hv
    rw [ha.2.1]
    exact hc parent v hv

theorem removeClick_consistent (env : Env)
    (hrm : ∀ h p, env.outcome h (.remove (.current p)) = none) (clickDir : ClickDir)
    (w : World) (hc : ConsistentCurrent w) :
    ConsistentCurrent (removeClick env clickDir w).2 := by
  generalize hr : removeClick env clickDir w = r
  unfold removeClick at hr
  split at hr
  · subst hr
    exact hc
  · next m _ =>
    have h1 := removeClickHooks_arti env m (env.originFromBasedir clickDir.path) false w
    split at hr
    · next err w1 heq =>
      subst hr
      rw [heq] at h1
      exact h1.aconsistent hc
    · next w1 heq =>
      rw [heq] at h1
      have hc1 : ConsistentCurrent w1 := h1.aconsistent hc
      dsimp only at hr
      generalize hr2 : (if some clickDir = currentActiveDirOf w1.disk clickDir.parent then
        unsetActiveClick env clickDir false w1 else (none, w1)) = r2 at hr
      have h2 : ConsistentCurrent r2.2 ∧
          (r2.1 = none → r2.2.disk.current clickDir.parent ≠ some clickDir.ver) := by
        subst hr2
        split
        · refine ⟨unsetActiveClick_consistent env clickDir false w1 hc1, ?_⟩
          intro hn
          obtain ⟨_, _, _, hx⟩ := unsetActiveClick_spec env clickDir false w1
          rw [hx (fun h => hrm h _) hn]
          simp
        · next hne =>
          refine ⟨hc1, fun _ hcur => hne ?_⟩
          symm
          rw [currentActiveDirOf_eq_some]
          exact ⟨rfl, hcur, hc1 _ _ hcur⟩
      split at hr
      · next err w2 =>
        subst hr
        exact h2.1
      · next w2 =>
        have hc2 : ConsistentCurrent w2 := h2.1
        have hne : w2.disk.current clickDir.parent ≠ some clickDir.ver := h2.2 rfl
        have hrem : ∀ w3, w3.disk = w2.disk.setDir clickDir none → ConsistentCurrent w3 := by
          intro w3 hd parent v hv
          rw [hd] at hv ⊢
          have hv2 : w2.disk.current parent = some v := hv
          have hneq : (⟨parent, v⟩ : ClickDir) ≠ clickDir := by
            intro heq
            apply hne
            rw [← heq]
            exact hv2
          simp only [Disk.setDir, hneq, if_false]
          exact hc2 parent v hv2
        split at hr
        · next err w3 ha =>
          obtain ⟨h3, _⟩ := attempt_some ha
          subst hr h3
          exact hc2
        · next w3 ha =>
          obtain ⟨h3, _, _⟩ := attempt_none ha
          subst hr
          exact consistent_of_disk_eq (attempt_id_disk env _ w3) (hrem w3 h3)

theorem defer883_consistent (env : Env) (err : Option Err) (cur : ClickDir)
    (inhibitHooks : Bool) (w : World) (hc : ConsistentCurrent w) :
    ConsistentCurrent (installClick.defer883 env err cur inhibitHooks w) := by
  unfold installClick.defer883
  split
  · have h := setActiveClick_consistent env cur inhibitHooks w hc
    split
    · next cerr w1 heq =>
      rw [heq] at h
      exact consistent_of_disk_eq rfl h
    · next w1 heq =>
      rw [heq] at h
      exact h
  · exact hc

theorem activate_consistent (env : Env) (part : SnapPart) (cur : Option ClickDir)
    (inhibitHooks : Bool) (err : Option Err) (w : World)
    (hok : (installClick.activate env part cur inhibitHooks err w).1.2 = none)
    (hc : ConsistentCurrent w) :
    ConsistentCurrent (installClick.activate env part cur inhibitHooks err w).2 := by
  generalize hr : installClick.activate env part cur inhibitHooks err w = r at hok
  unfold installClick.activate at hr
  dsimp only at hr
  split at hr
  · subst hr
    simp at hok
  · have h1 := setActiveClick_consistent env part.basedir inhibitHooks w hc
    split at hr
    · subst hr
      simp at hok
    · next w1 heq =>
      rw [heq] at h1
      split at hr
      · have h2 := (refreshSecurity_spec env part cur w1).1
        split at hr
        · subst hr
          simp at hok
        · next w2 heq2 =>
          subst hr
          rw [heq2] at h2
          exact consistent_of_disk_eq h2 h1
      · subst hr
        exact h1

theorem body_consistent (env : Env) (part : SnapPart) (origin : String)
    (manifestData : Except Err ClickManifest) (cur : Option ClickDir) (inhibitHooks : Bool)
    (w : World)
    (hok : (installClick.body env part origin manifestData cur inhibitHooks w).1.2 = none)
    (hc : ConsistentCurrent w) :
    ConsistentCurrent (installClick.body env part origin manifestData cur inhibitHooks w).2 := by
  generalize hr : installClick.body env part origin manifestData cur inhibitHooks w = r at hok
  unfold installClick.body at hr
  have h1 := unpackWithDropPrivs_diri env part part.basedir w
  split at hr
  · subst hr
    simp at hok
  · next w1 heq =>
    rw [heq] at h1
    have h2 := diri_attempt env part.basedir (.mkdirAll (.clickMeta part.basedir))
      (fun k => k.createDir part.basedir) w1 (by rfl) (fun k => createDir_eff part.basedir k)
    split at hr
    · subst hr
      simp at hok
    · next w2 heq2 =>
      rw [heq2] at h2
      have h3 := writeCompatManifestJSON_diri env part.basedir manifestData origin w2
      split at hr
      · subst hr
        simp at hok
      · next w3 heq3 =>
        rw [heq3] at h3
        have h4 := attempt_id_disk env (.extractHashes part.basedir) w3
        split at hr
        · subst hr
          simp at hok
        · next w4 heq4 =>
          rw [heq4] at h4
          have hc4 : ConsistentCurrent w4 :=
            consistent_of_disk_eq h4 (h3.iconsistent (h2.iconsistent (h1.iconsistent hc)))
          split at hr
          · next cur0 =>
            split at hr
            · subst hr
              simp at hok
            · next oldM _ =>
              have h5 := unsetActiveClick_consistent env cur0 inhibitHooks w4 hc4
              split at hr
              · subst hr
                simp at hok
              · next w5 heq5 =>
                rw [heq5] at h5
                have h6 := (copySnapData_dati env part.fullName oldM.version part.version
                  w5).dconsistent h5
                subst hr
                exact defer883_consistent env _ cur0 inhibitHooks _
                  (activate_consistent env part (some cur0) inhibitHooks none _ hok h6)
          · have h5 : ConsistentCurrent (attempt env (.mkdirAll (.data ⟨.system, part.fullName,
                part.version⟩)) (fun k => k.createData ⟨.system, part.fullName, part.version⟩)
                w4).2 := by
              refine (dati_attempt env _ _ w4 (by rfl) ?_).dconsistent hc4
              intro k
              unfold Disk.createData
              split <;> exact ⟨rfl, rfl⟩
            subst hr
            exact activate_consistent env part none inhibitHooks _ _ hok h5

theorem opened_consistent (env : Env) (part : SnapPart) (flags : InstallFlags)
    (origin : String) (w : World)
    (hok : (installClick.opened env part flags origin w).1.2 = none)
    (hc : ConsistentCurrent w) :
    ConsistentCurrent (installClick.opened env part flags origin w).2 := by
  generalize hr : installClick.opened env part flags origin w = r at hok
  unfold installClick.opened at hr
  dsimp only at hr
  split at hr
  · subst hr
    simp at hok
  · split at hr
    · subst hr
      simp at hok
    · next manifestData _ =>
      generalize hr1 : (if part.type = PkgType.oem then attempt env Call.oemUdevRules id w
        else (none, w)) = r1 at hr
      have h1 : r1.2.disk = w.disk := by
        subst hr1
        split
        · exact attempt_id_disk env _ w
        · rfl
      split at hr
      · subst hr
        simp at hok
      · next w1 =>
        have hc1 : ConsistentCurrent w1 := consistent_of_disk_eq h1 hc
        generalize hw2 : (match attempt env (Call.mkdirAll (Path.clickDir part.basedir))
            (fun k => k.createDir part.basedir) w1 with
          | (some err, w0) => w0.record (Call.notice (Msg.canNotCreate part.basedir err))
          | (none, w0) => w0) = w2 at hr
        have hc2 : ConsistentCurrent w2 := by
          subst hw2
          have h := diri_attempt env part.basedir (.mkdirAll (.clickDir part.basedir))
            (fun k => k.createDir part.basedir) w1 (by rfl)
            (fun k => createDir_eff part.basedir k)
          split
          · next err w0 heq =>
            rw [heq] at h
            exact consistent_of_disk_eq rfl (h.iconsistent hc1)
          · next w0 heq =>
            rw [heq] at h
            exact h.iconsistent hc1
        subst hr
        dsimp only at hok ⊢
        have hb := body_consistent env part origin manifestData
          (currentActiveDirOf w1.disk part.basedir.parent) flags.inhibitHooks w2 hok hc2
        unfold installClick.defer839
        rw [hok]
        exact hb

theorem installClick_consistent (env : Env) (snapFile : String) (flags : InstallFlags)
    (origin : String) (w : World)
    (hok : (installClick env snapFile flags origin w).1.2 = none)
    (hc : ConsistentCurrent w) :
    ConsistentCurrent (installClick env snapFile flags origin w).2 := by
  generalize hr : installClick env snapFile flags origin w = r at hok
  unfold installClick at hr
  dsimp only at hr
  split at hr
  · subst hr
    simp at hok
  · next part _ =>
    subst hr
    exact consistent_of_disk_eq rfl (opened_consistent env part flags origin w hok hc)

/-- C2 as stated fails: nothing is installed, `foo` 2.0 is installed without
`InhibitHooks`, and `RefreshDependentsSecurity` fails after the new version
was activated. There is no previous version to set back (line 914), the
function deferred at line 839 removes the basedir, and `current` is left
pointing to the removed version directory. -/
theorem installClick_dangling_current_counterexample :
    ConsistentCurrent worldEmpty ∧
    (installClick (envInstall failRefresh []) "foo_2.0.snap" (flagsInhibit false) ""
      worldEmpty).2.disk.current "/apps/foo" = some "2.0" ∧
    (installClick (envInstall failRefresh []) "foo_2.0.snap" (flagsInhibit false) ""
      worldEmpty).2.disk.dirs ⟨"/apps/foo", "2.0"⟩ = none ∧
    ¬ ConsistentCurrent (installClick (envInstall failRefresh []) "foo_2.0.snap"
      (flagsInhibit false) "" worldEmpty).2 := by
  have h1 : (installClick (envInstall failRefresh []) "foo_2.0.snap" (flagsInhibit false) ""
      worldEmpty).2.disk.current "/apps/foo" = some "2.0" := by decide
  have h2 : ((installClick (envInstall failRefresh []) "foo_2.0.snap" (flagsInhibit false) ""
      worldEmpty).2.disk.dirs ⟨"/apps/foo", "2.0"⟩).isSome = false := by decide
  refine ⟨?_, h1, by simpa using h2, ?_⟩
  · intro parent v hv
    simp [worldEmpty] at hv
  · intro hc
    have := hc "/apps/foo" "2.0" h1
    rw [h2] at this
    simp at this

/-- C2, amended: in every state reachable from a consistent state by any
sequence of `setActiveClick`, `unsetActiveClick` and `removeClick` calls and
of `installClick` calls that return a nil error, provided that removing a
`current` symlink does not fail, the `current` symlink of each package
directory is either absent or resolves to an existing version directory of
that package. -/
theorem reachable_consistentCurrent (env : Env)
    (hrm : ∀ h p, env.outcome h (.remove (.current p)) = none) (w : World)
    (h : Reachable env w) : ConsistentCurrent w := by
  induction h with
  | consistent w hc => exact hc
  | setActive w baseDir inhibitHooks _ ih =>
    exact setActiveClick_consistent env baseDir inhibitHooks w ih
  | unsetActive w clickDir inhibitHooks _ ih =>
    exact unsetActiveClick_consistent env clickDir inhibitHooks w ih
  | removed w clickDir _ ih => exact removeClick_consistent env hrm clickDir w ih
  | installed w snapFile flags origin _ hok ih =>
    exact installClick_consistent env snapFile flags origin w hok ih

theorem worldFoo1Active_consistent : ConsistentCurrent worldFoo1Active := by
  intro parent v hv
  have hp : parent = "/apps/foo" := by
    by_contra hne
    simp [worldFoo1Active, hne] at hv
  subst hp
  have hv2 : v = "1.0" := by
    simp [worldFoo1Active] at hv
    exact hv.symm
  subst hv2
  decide

/-- C2, amended, at `foo`: from version 1.0 active, version 2.0 is installed,
version 1.0 is removed, and version 2.0 is unset; `current` is consistent in
the state reached. -/
theorem reachable_consistentCurrent_witness :
    (installClick (envInstall failNothing []) "foo_2.0.snap" (flagsInhibit false) ""
      worldFoo1Active).1 = ("foo", none) ∧
    ConsistentCurrent
      (unsetActiveClick (envInstall failNothing []) (fooDir "2.0") false
        (removeClick (envInstall failNothing []) (fooDir "1.0")
          (installClick (envInstall failNothing []) "foo_2.0.snap" (flagsInhibit false) ""
            worldFoo1Active).2).2).2 :=
  ⟨by decide,
   reachable_consistentCurrent (envInstall failNothing []) (fun _ _ => rfl) _
    (Reachable.unsetActive _ _ _ (Reachable.removed _ _
      (Reachable.installed _ _ _ _ (Reachable.consistent _ worldFoo1Active_consistent)
        (by decide))))⟩

/-! ### Rollback of `installClick` -/

theorem Calls.cext {P : Call → Prop} {w w2 : World} (h : Calls P w w2) : Ext w w2 :=
  h.cmono (fun _ _ => trivial)

theorem StopAbort.sext {w w2 : World} {err : Option Err} (h : StopAbort w w2 err) :
    Ext w w2 := by
  rcases h with h | ⟨_, _, h⟩
  · exact h.cext
  · exact h.cext

theorem clean_split {w0 w1 w2 : World} (h01 : Ext w0 w1) (h12 : Ext w1 w2)
    (h : Clean w0 w2) : Clean w0 w1 ∧ Clean w1 w2 := by
  obtain ⟨a1, ha1, _⟩ := h01
  obtain ⟨a2, ha2, _⟩ := h12
  obtain ⟨a, ha, hP⟩ := h
  have : a = a1 ++ a2 := by
    rw [ha2, ha1, List.append_assoc] at ha
    exact (List.append_cancel_left ha).symm
  subst this
  exact ⟨⟨a1, ha1, fun c hc => hP c (List.mem_append_left _ hc)⟩,
    ⟨a2, ha2, fun c hc => hP c (List.mem_append_right _ hc)⟩⟩

theorem clean_record_absurd {w w1 : World} (hext : Ext w w1) (c : Call)
    (hc : c.isRollbackFailure = true) : ¬ Clean w (w1.record c) := by
  intro h
  have h2 := (clean_split hext (Calls.record w1 c trivial) h).2
  obtain ⟨a, ha, hP⟩ := h2
  have : a = [c] := by
    unfold World.record at ha
    exact (List.append_cancel_left ha).symm
  subst this
  have hf : c.isRollbackFailure = false := hP c (by simp)
  rw [hc] at hf
  simp at hf

theorem copySnapData_loop_ok (env : Env) (hcp : ∀ h o n, env.outcome h (.cp o n) = none)
    (newVersion : String) : ∀ (dirs : List DataDir) (w : World),
    (copySnapData.loop env newVersion dirs w).1 = none := by
  intro dirs
  induction dirs with
  | nil => intro w; rfl
  | cons o rest ih =>
    intro w
    unfold copySnapData.loop
    dsimp only
    have h1 : (copySnapDataDirectory env o ⟨o.loc, o.fullName, newVersion⟩ w).1 = none := by
      unfold copySnapDataDirectory
      split
      · split
        · simp [attempt, hcp]
        · rfl
      · rfl
    split
    · next err w1 heq =>
      rw [heq] at h1
      simp at h1
    · exact ih _

theorem copySnapData_ok (env : Env) (hcp : ∀ h o n, env.outcome h (.cp o n) = none)
    (fullName oldVersion newVersion : String)
    (hglob : env.globError (.dataHomes fullName oldVersion) = none) (w : World) :
    (copySnapData env fullName oldVersion newVersion w).1 = none := by
  unfold copySnapData snapDataDirs
  simp only [hglob]
  exact copySnapData_loop_ok env hcp newVersion _ w

theorem copySnapData_data (env : Env) (fullName oldVersion newVersion : String) (w : World)
    (d : DataDir) (hd : ¬ (d.fullName = fullName ∧ d.version = newVersion ∧ Listed env d.loc)) :
    (copySnapData env fullName oldVersion newVersion w).2.disk.data d = w.disk.data d := by
  generalize hr : copySnapData env fullName oldVersion newVersion w = r
  unfold copySnapData at hr
  split at hr
  · subst hr
    rfl
  · next oldDataDirs hdirs =>
    subst hr
    obtain ⟨_, _, _, _, _, _, _, hchg⟩ := copySnapData_loop_spec env newVersion oldDataDirs w
    by_contra hne
    obtain ⟨o, ho, heq⟩ := hchg d hne
    apply hd
    unfold snapDataDirs at hdirs
    split at hdirs
    · simp at hdirs
    · simp only [Except.ok.injEq] at hdirs
      subst hdirs
      rw [heq]
      rcases List.mem_append.mp ho with h | h
      · obtain ⟨h0, hh, rfl⟩ := List.mem_map.mp h
        exact ⟨rfl, rfl, Or.inr ⟨h0, (List.mem_filter.mp hh).1, rfl⟩⟩
      · simp only [List.mem_singleton] at h
        subst h
        exact ⟨rfl, rfl, Or.inl rfl⟩

theorem removeSnapData_loop_ok (env : Env)
    (hra : ∀ h p, env.outcome h (.removeAll p) ≠ some .notExist) :
    ∀ (dirs : List DataDir) (w : World), (removeSnapData.loop env dirs w).1 = none →
    (∀ d, d ∈ dirs → (removeSnapData.loop env dirs w).2.disk.data d = none) ∧
    (∀ d, d ∉ dirs → (removeSnapData.loop env dirs w).2.disk.data d = w.disk.data d) := by
  intro dirs
  induction dirs with
  | nil =>
    intro w _
    exact ⟨by simp, fun _ _ => rfl⟩
  | cons dir rest ih =>
    intro w hok
    generalize hr : removeSnapData.loop env (dir :: rest) w = r at hok
    unfold removeSnapData.loop at hr
    split at hr
    · next err w1 ha =>
      obtain ⟨_, ho⟩ := attempt_some ha
      have hne : err ≠ .notExist := fun h => hra _ _ (h ▸ ho)
      have hb : (!err.isNotExist) = true := by simp [Err.isNotExist, hne]
      rw [if_pos hb] at hr
      subst hr
      simp at hok
    · next w1 ha =>
      obtain ⟨h1, _, _⟩ := attempt_none ha
      have hd2 : (attempt env (Call.remove (Path.dataParent dir)) id w1).2.disk = w1.disk :=
        attempt_id_disk env _ w1
      subst hr
      obtain ⟨ih1, ih2⟩ := ih _ hok
      constructor
      · intro d hd
        by_cases hin : d ∈ rest
        · exact ih1 d hin
        · rw [ih2 d hin, hd2, h1]
          have : d = dir := by
            rcases List.mem_cons.mp hd with h | h
            · exact h
            · exact absurd h hin
          simp [Disk.setData, this]
      · intro d hd
        have hne : d ≠ dir := fun h => hd (h ▸ List.mem_cons_self _ _)
        have hin : d ∉ rest := fun h => hd (List.mem_cons_of_mem _ h)
        rw [ih2 d hin, hd2, h1]
        simp [Disk.setData, hne]

theorem removeSnapData_ok (env : Env)
    (hra : ∀ h p, env.outcome h (.removeAll p) ≠ some .notExist)
    (fullName version : String) (w : World)
    (hok : (removeSnapData env fullName version w).1 = none) :
    (∀ d, d.fullName = fullName → d.version = version → Listed env d.loc →
      (removeSnapData env fullName version w).2.disk.data d = none) ∧
    (∀ d, ¬ (d.fullName = fullName ∧ d.version = version ∧ Listed env d.loc) →
      (removeSnapData env fullName version w).2.disk.data d = w.disk.data d) := by
  generalize hr : removeSnapData env fullName version w = r at hok
  unfold removeSnapData at hr
  split at hr
  · subst hr
    simp at hok
  · next dirs hdirs =>
    subst hr
    obtain ⟨h1, h2⟩ := removeSnapData_loop_ok env hra dirs w hok
    unfold snapDataDirs at hdirs
    split at hdirs
    · simp at hdirs
    · simp only [Except.ok.injEq] at hdirs
      constructor
      · intro d hf hv hl
        by_cases hin : d ∈ dirs
        · exact h1 d hin
        · rw [h2 d hin]
          by_contra hne
          apply hin
          rw [← hdirs]
          obtain ⟨loc, fn, ver⟩ := d
          simp only at hf hv hl
          subst hf hv
          rcases hl with rfl | ⟨h0, hh, rfl⟩
          · simp
          · apply List.mem_append_left
            refine List.mem_map.mpr ⟨h0, List.mem_filter.mpr ⟨hh, ?_⟩, rfl⟩
            cases hx : w.disk.data ⟨.home h0, fn, ver⟩ with
            | none => exact absurd hx hne
            | some x => simp
      · intro d hd
        apply h2
        intro hin
        apply hd
        rw [← hdirs] at hin
        rcases List.mem_append.mp hin with h | h
        · obtain ⟨h0, hh, rfl⟩ := List.mem_map.mp h
          exact ⟨rfl, rfl, Or.inr ⟨h0, (List.mem_filter.mp hh).1, rfl⟩⟩
        · simp only [List.mem_singleton] at h
          subst h
          exact ⟨rfl, rfl, Or.inl rfl⟩

theorem defer899_clean (env : Env)
    (hra : ∀ h p, env.outcome h (.removeAll p) ≠ some .notExist) (e : Err) (part : SnapPart)
    (w : World) (hclean : Clean w (installClick.defer899 env (some e) part w)) :
    (installClick.defer899 env (some e) part w).disk.dirs = w.disk.dirs ∧
    (installClick.defer899 env (some e) part w).disk.current = w.disk.current ∧
    (∀ d, d.fullName = part.fullName → d.version = part.version → Listed env d.loc →
      (installClick.defer899 env (some e) part w).disk.data d = none) ∧
    (∀ d, ¬ (d.fullName = part.fullName ∧ d.version = part.version ∧ Listed env d.loc) →
      (installClick.defer899 env (some e) part w).disk.data d = w.disk.data d) := by
  have hd := removeSnapData_dati env part.fullName part.version w
  have hok := removeSnapData_ok env hra part.fullName part.version w
  generalize hr : installClick.defer899 env (some e) part w = r at hclean
  unfold installClick.defer899 at hr
  dsimp only at hr
  split at hr
  · next cerr w1 heq =>
    subst hr
    rw [heq] at hd
    exact absurd hclean (clean_record_absurd hd.1.cext _ (by rfl))
  · next w1 heq =>
    subst hr
    rw [heq] at hd hok
    obtain ⟨h1, h2⟩ := hok rfl
    exact ⟨hd.2.1, hd.2.2, h1, h2⟩

theorem setBack_clean (env : Env) (old : ClickDir) (inhibitHooks : Bool) (w w2 : World)
    (notice : Err → Call) (hn : ∀ cerr, (notice cerr).isRollbackFailure = true)
    (hw2 : w2 = match setActiveClick env old inhibitHooks w with
      | (some cerr, w1) => w1.record (notice cerr)
      | (none, w1) => w1)
    (hclean : Clean w w2) :
    Acti old.parent w w2 ∧ w2.disk.current old.parent = some old.ver ∧
      (w2.disk.dirs old).isSome = true := by
  obtain ⟨ha, hok, _⟩ := setActiveClick_spec env old inhibitHooks w
  split at hw2
  · next cerr w1 heq =>
    subst hw2
    rw [heq] at ha
    exact absurd hclean (clean_record_absurd ha.outside.cext _ (hn cerr))
  · next w1 heq =>
    subst hw2
    rw [heq] at ha hok
    obtain ⟨_, h2, h3⟩ := currentActiveDirOf_eq_some.mp (hok rfl)
    exact ⟨ha, h2, h3⟩

theorem defer913_clean (env : Env) (e : Err) (old : ClickDir) (inhibitHooks : Bool)
    (w : World) (hclean : Clean w (installClick.defer913 env (some e) (some old) inhibitHooks w)) :
    Acti old.parent w (installClick.defer913 env (some e) (some old) inhibitHooks w) ∧
    (installClick.defer913 env (some e) (some old) inhibitHooks w).disk.current old.parent =
      some old.ver ∧
    ((installClick.defer913 env (some e) (some old) inhibitHooks w).disk.dirs old).isSome =
      true :=
  setBack_clean env old inhibitHooks w _ (fun cerr => .notice (.whenSettingOldBack cerr))
    (fun _ => rfl) rfl hclean

theorem defer883_clean (env : Env) (e : Err) (old : ClickDir) (inhibitHooks : Bool)
    (w : World) (hclean : Clean w (installClick.defer883 env (some e) old inhibitHooks w)) :
    Acti old.parent w (installClick.defer883 env (some e) old inhibitHooks w) ∧
    (installClick.defer883 env (some e) old inhibitHooks w).disk.current old.parent =
      some old.ver ∧
    ((installClick.defer883 env (some e) old inhibitHooks w).disk.dirs old).isSome = true :=
  setBack_clean env old inhibitHooks w _ (fun cerr => .notice (.settingOldBackFailed cerr))
    (fun _ => rfl) rfl hclean

theorem defer839_clean (env : Env)
    (hra : ∀ h p, env.outcome h (.removeAll p) ≠ some .notExist) (e : Err) (part : SnapPart)
    (w : World) (hclean : Clean w (installClick.defer839 env (some e) part w)) :
    (installClick.defer839 env (some e) part w).disk = w.disk.setDir part.basedir none := by
  generalize hr : installClick.defer839 env (some e) part w = r at hclean
  unfold installClick.defer839 at hr
  dsimp only at hr
  split at hr
  · next e0 w1 ha =>
    obtain ⟨h1, ho⟩ := attempt_some ha
    have hne : e0 ≠ .notExist := fun h => hra _ _ (h ▸ ho)
    have hb : (!e0.isNotExist) = true := by simp [Err.isNotExist, hne]
    rw [if_pos hb] at hr
    subst hr h1
    exact absurd hclean (clean_record_absurd (Calls.record w _ trivial) _ (by rfl))
  · next w1 ha =>
    obtain ⟨h1, _, _⟩ := attempt_none ha
    subst hr
    exact h1

theorem activate_tail (env : Env)
    (hra : ∀ h p, env.outcome h (.removeAll p) ≠ some .notExist) (part : SnapPart)
    (cur : Option ClickDir) (inhibitHooks : Bool) (e : Err) (w wm : World)
    (hdirs : wm.disk.dirs = w.disk.dirs) (hdata : wm.disk.data = w.disk.data)
    (hother : ∀ p, p ≠ part.basedir.parent → wm.disk.current p = w.disk.current p)
    (hcurm : wm.disk.current part.basedir.parent = w.disk.current part.basedir.parent ∨
      wm.disk.current part.basedir.parent = none ∨
      wm.disk.current part.basedir.parent = some part.basedir.ver)
    (hold : ∀ old, cur = some old → old.parent = part.basedir.parent)
    (hclean : Clean wm (installClick.defer899 env (some e) part
      (installClick.defer913 env (some e) cur inhibitHooks wm))) :
    (installClick.defer899 env (some e) part
      (installClick.defer913 env (some e) cur inhibitHooks wm)).disk.dirs = w.disk.dirs ∧
    (∀ p, p ≠ part.basedir.parent →
      (installClick.defer899 env (some e) part
        (installClick.defer913 env (some e) cur inhibitHooks wm)).disk.current p =
        w.disk.current p) ∧
    DataAfter env part w (installClick.defer899 env (some e) part
      (installClick.defer913 env (some e) cur inhibitHooks wm)) ∧
    CurrentAfter cur part.basedir.parent part.basedir.ver w
      (installClick.defer899 env (some e) part
        (installClick.defer913 env (some e) cur inhibitHooks wm)) := by
  obtain ⟨hc1, hc2⟩ := clean_split (defer913_outside env (some e) cur inhibitHooks wm).cext
    (defer899_outside env (some e) part _).cext hclean
  obtain ⟨h1, h2, h3, h4⟩ := defer899_clean env hra e part _ hc2
  cases cur with
  | none =>
    have h913 : installClick.defer913 env (some e) none inhibitHooks wm = wm := rfl
    rw [h913] at h1 h2 h3 h4 ⊢
    refine ⟨h1.trans hdirs, fun p hp => by rw [h2]; exact hother p hp, ⟨h3, ?_⟩, ?_⟩
    · intro d hd
      rw [h4 d hd, hdata]
    · show _ ∨ _ ∨ _
      rw [h2]
      exact hcurm
  | some old =>
    have hp := hold old rfl
    obtain ⟨ha, hb, _⟩ := defer913_clean env e old inhibitHooks wm hc1
    rw [hp] at ha hb
    refine ⟨h1.trans (ha.2.1.trans hdirs), ?_, ⟨h3, ?_⟩, ?_⟩
    · intro p hpn
      rw [h2, ha.2.2.2 p hpn]
      exact hother p hpn
    · intro d hd
      rw [h4 d hd, ha.2.2.1, hdata]
    · show _ = some old.ver
      rw [h2]
      exact hb

theorem activate_rollback (env : Env)
    (hra : ∀ h p, env.outcome h (.removeAll p) ≠ some .notExist) (part : SnapPart)
    (cur : Option ClickDir) (inhibitHooks : Bool) (err : Option Err) (w : World)
    (hfail : (installClick.activate env part cur inhibitHooks err w).1.2 ≠ none)
    (hclean : Clean w (installClick.activate env part cur inhibitHooks err w).2)
    (hold : ∀ old, cur = some old → err = none ∧ old.parent = part.basedir.parent) :
    (installClick.activate env part cur inhibitHooks err w).2.disk.dirs = w.disk.dirs ∧
    (∀ p, p ≠ part.basedir.parent →
      (installClick.activate env part cur inhibitHooks err w).2.disk.current p =
        w.disk.current p) ∧
    DataAfter env part w (installClick.activate env part cur inhibitHooks err w).2 ∧
    CurrentAfter cur part.basedir.parent part.basedir.ver w
      (installClick.activate env part cur inhibitHooks err w).2 := by
  have hold2 : ∀ old, cur = some old → old.parent = part.basedir.parent :=
    fun old h => (hold old h).2
  generalize hr : installClick.activate env part cur inhibitHooks err w = r at hfail hclean
  unfold installClick.activate at hr
  dsimp only at hr
  split at hr
  · next e =>
    have hcn : cur = none := by
      cases cur with
      | none => rfl
      | some old => exact absurd (hold old rfl).1 (by simp)
    subst hcn hr
    exact activate_tail env hra part none inhibitHooks e w w rfl rfl (fun _ _ => rfl)
      (Or.inl rfl) hold2 hclean
  · obtain ⟨ha, hok, hcur⟩ := setActiveClick_spec env part.basedir inhibitHooks w
    have hcur2 : ∀ w1 o, setActiveClick env part.basedir inhibitHooks w = (o, w1) →
        (w1.disk.current part.basedir.parent = w.disk.current part.basedir.parent ∨
          w1.disk.current part.basedir.parent = none ∨
          w1.disk.current part.basedir.parent = some part.basedir.ver) := by
      intro w1 o heq
      rw [heq] at hok hcur
      rcases hcur with h | h | h
      · exact Or.inl h
      · exact Or.inr (Or.inl h)
      · exact Or.inr (Or.inr (currentActiveDirOf_eq_some.mp (hok h)).2.1)
    split at hr
    · next e w1 heq =>
      subst hr
      have hc := hcur2 w1 _ heq
      rw [heq] at ha
      exact activate_tail env hra part cur inhibitHooks e w w1 ha.2.1 ha.2.2.1 ha.2.2.2 hc hold2
        (clean_split ha.outside.cext ((defer913_outside env _ cur inhibitHooks w1).otrans
          (defer899_outside env _ part _)).cext hclean).2
    · next w1 heq =>
      have hc := hcur2 w1 _ heq
      rw [heq] at ha
      split at hr
      · obtain ⟨hd, hsa, _⟩ := refreshSecurity_spec env part cur w1
        split at hr
        · next e w2 heq2 =>
          subst hr
          rw [heq2] at hd hsa
          have hd2 : w2.disk = w1.disk := hd
          refine activate_tail env hra part cur inhibitHooks e w w2 (by rw [hd2]; exact ha.2.1)
            (by rw [hd2]; exact ha.2.2.1) (fun p hp => by rw [hd2]; exact ha.2.2.2 p hp)
            (by rw [hd2]; exact hc) hold2 ?_
          exact (clean_split (Calls.ctrans ha.outside.cext hsa.sext)
            ((defer913_outside env _ cur inhibitHooks w2).otrans
              (defer899_outside env _ part _)).cext hclean).2
        · subst hr
          simp at hfail
      · subst hr
        simp at hfail

theorem createData_eff (d : DataDir) (k : Disk) :
    (k.createData d).dirs = k.dirs ∧ (k.createData d).current = k.current := by
  unfold Disk.createData
  split <;> exact ⟨rfl, rfl⟩

theorem createData_data (d x : DataDir) (k : Disk) (hne : x ≠ d) :
    (k.createData d).data x = k.data x := by
  unfold Disk.createData
  split
  · rfl
  · simp [Disk.setData, hne]

theorem body_rollback (env : Env)
    (hra : ∀ h p, env.outcome h (.removeAll p) ≠ some .notExist) (part : SnapPart)
    (origin : String)
    (manifestData : Except Err ClickManifest) (cur : Option ClickDir) (inhibitHooks : Bool)
    (w : World)
    (hfail : (installClick.body env part origin manifestData cur inhibitHooks w).1.2 ≠ none)
    (hclean : Clean w (installClick.body env part origin manifestData cur inhibitHooks w).2)
    (hnew : ∀ loc, w.disk.data ⟨loc, part.fullName, part.version⟩ = none)
    (hcurw : ∀ old, cur = some old →
      old.parent = part.basedir.parent ∧ w.disk.current part.basedir.parent = some old.ver) :
    (∀ d, d ≠ part.basedir →
      (installClick.body env part origin manifestData cur inhibitHooks w).2.disk.dirs d =
        w.disk.dirs d) ∧
    (∀ p, p ≠ part.basedir.parent →
      (installClick.body env part origin manifestData cur inhibitHooks w).2.disk.current p =
        w.disk.current p) ∧
    (∀ d, (installClick.body env part origin manifestData cur inhibitHooks w).2.disk.data d =
      w.disk.data d) ∧
    CurrentAfter cur part.basedir.parent part.basedir.ver w
      (installClick.body env part origin manifestData cur inhibitHooks w).2 := by
  have early : ∀ wx : World, Diri part.basedir w wx →
      (∀ d, d ≠ part.basedir → wx.disk.dirs d = w.disk.dirs d) ∧
      (∀ p, p ≠ part.basedir.parent → wx.disk.current p = w.disk.current p) ∧
      (∀ d, wx.disk.data d = w.disk.data d) ∧
      CurrentAfter cur part.basedir.parent part.basedir.ver w wx := by
    intro wx h
    refine ⟨h.2.2.2.1, fun p _ => by rw [h.2.1], fun d => by rw [h.2.2.1], ?_⟩
    cases cur with
    | none => exact Or.inl (by rw [h.2.1])
    | some old =>
      show wx.disk.current _ = some old.ver
      rw [h.2.1]
      exact (hcurw old rfl).2
  have hdataAfter : ∀ (wc wf : World), (∀ d, ¬ (d.fullName = part.fullName ∧
      d.version = part.version ∧ Listed env d.loc) → wc.disk.data d = w.disk.data d) →
      DataAfter env part wc wf → ∀ d, wf.disk.data d = w.disk.data d := by
    intro wc wf hc hda d
    by_cases hd : d.fullName = part.fullName ∧ d.version = part.version ∧ Listed env d.loc
    · rw [hda.1 d hd.1 hd.2.1 hd.2.2]
      obtain ⟨loc, fn, ver⟩ := d
      obtain ⟨h1, h2, _⟩ := hd
      simp only at h1 h2
      subst h1 h2
      exact (hnew loc).symm
    · rw [hda.2 d hd, hc d hd]
  generalize hr : installClick.body env part origin manifestData cur inhibitHooks w = r
    at hfail hclean
  unfold installClick.body at hr
  have h1 := unpackWithDropPrivs_diri env part part.basedir w
  split at hr
  · next err w1 heq =>
    subst hr
    rw [heq] at h1
    exact early _ h1
  · next w1 heq =>
    rw [heq] at h1
    have h2 := h1.itrans (diri_attempt env part.basedir (.mkdirAll (.clickMeta part.basedir))
      (fun k => k.createDir part.basedir) w1 (by rfl) (fun k => createDir_eff part.basedir k))
    split at hr
    · next err w2 heq2 =>
      subst hr
      rw [heq2] at h2
      exact early _ h2
    · next w2 heq2 =>
      rw [heq2] at h2
      have h3 := h2.itrans (writeCompatManifestJSON_diri env part.basedir manifestData origin w2)
      split at hr
      · next err w3 heq3 =>
        subst hr
        rw [heq3] at h3
        exact early _ h3
      · next w3 heq3 =>
        rw [heq3] at h3
        have h4 := h3.itrans (diri_attempt env part.basedir (.extractHashes part.basedir) id w3
          (by rfl) (fun k => ⟨rfl, rfl, fun _ _ => rfl, fun _ h => h⟩))
        split at hr
        · next err w4 heq4 =>
          subst hr
          rw [heq4] at h4
          exact early _ h4
        · next w4 heq4 =>
          rw [heq4] at h4
          split at hr
          · next cur0 =>
            obtain ⟨hp0, hcur0⟩ := hcurw cur0 rfl
            split at hr
            · subst hr
              exact early _ h4
            · next oldM _ =>
              obtain ⟨h5, _, _, _⟩ := unsetActiveClick_spec env cur0 inhibitHooks w4
              rw [hp0] at h5
              split at hr
              · next err w5 heq5 =>
                subst hr
                rw [heq5] at h5
                obtain ⟨hc1, hc2⟩ := clean_split (h4.1.otrans h5.outside).cext
                  (defer883_outside env _ cur0 inhibitHooks w5).cext hclean
                obtain ⟨ha, hb, _⟩ := defer883_clean env err cur0 inhibitHooks w5 hc2
                rw [hp0] at ha hb
                refine ⟨?_, ?_, ?_, hb⟩
                · intro d hd
                  rw [ha.2.1, h5.2.1]
                  exact h4.2.2.2.1 d hd
                · intro p hp
                  rw [ha.2.2.2 p hp, h5.2.2.2 p hp, h4.2.1]
                · intro d
                  rw [ha.2.2.1, h5.2.2.1, h4.2.2.1]
              · next w5 heq5 =>
                rw [heq5] at h5
                have h6 := copySnapData_dati env part.fullName oldM.version part.version w5
                have h6d := copySnapData_data env part.fullName oldM.version part.version w5
                subst hr
                dsimp only at hfail hclean ⊢
                have hext : Ext w (copySnapData env part.fullName oldM.version part.version
                    w5).2 := (h4.1.otrans (h5.outside.otrans h6.1)).cext
                have hsa := (activate_stopAbort env part (some cur0) inhibitHooks none
                  (copySnapData env part.fullName oldM.version part.version w5).2).1.sext
                -- the function deferred at line 883 runs last, after the ones of 913 and 899
                obtain ⟨hcA, hcB⟩ := clean_split (hext.ctrans hsa)
                  (defer883_outside env _ cur0 inhibitHooks _).cext hclean
                obtain ⟨ha, hb, hc, hd⟩ := activate_rollback env hra part (some cur0)
                  inhibitHooks none _ hfail (clean_split hext hsa hcA).2
                  (fun old ho => by
                    simp only [Option.some.injEq] at ho
                    subst ho
                    exact ⟨rfl, hp0⟩)
                have hdirs : ∀ d, d ≠ part.basedir →
                    (installClick.activate env part (some cur0) inhibitHooks none
                      (copySnapData env part.fullName oldM.version part.version w5).2).2.disk.dirs
                      d = w.disk.dirs d := by
                  intro d hdn
                  rw [ha, h6.2.1, h5.2.1]
                  exact h4.2.2.2.1 d hdn
                have hcurs : ∀ p, p ≠ part.basedir.parent →
                    (installClick.activate env part (some cur0) inhibitHooks none
                      (copySnapData env part.fullName oldM.version part.version
                        w5).2).2.disk.current p = w.disk.current p := by
                  intro p hp
                  rw [hb p hp, h6.2.2, h5.2.2.2 p hp, h4.2.1]
                have hdata : ∀ d, (installClick.activate env part (some cur0) inhibitHooks none
                    (copySnapData env part.fullName oldM.version part.version w5).2).2.disk.data
                    d = w.disk.data d := by
                  refine hdataAfter _ _ ?_ hc
                  intro d hdn
                  rw [h6d d hdn, h5.2.2.1, h4.2.2.1]
                cases hcopy : (copySnapData env part.fullName oldM.version part.version w5).1 with
                | none =>
                  -- the copy succeeded: the err of line 876 is nil at line 884
                  exact ⟨hdirs, hcurs, hdata, hd⟩
                | some ec =>
                  -- the copy failed: line 885 makes the old version active again
                  rw [hcopy] at hcB
                  obtain ⟨hA, hB, _⟩ := defer883_clean env ec cur0 inhibitHooks _ hcB
                  rw [hp0] at hA hB
                  refine ⟨?_, ?_, ?_, hB⟩
                  · intro d hdn
                    rw [hA.2.1]
                    exact hdirs d hdn
                  · intro p hp
                    rw [hA.2.2.2 p hp]
                    exact hcurs p hp
                  · intro d
                    rw [hA.2.2.1]
                    exact hdata d
          · have hm := dati_attempt env (.mkdirAll (.data ⟨.system, part.fullName,
              part.version⟩)) (fun k => k.createData ⟨.system, part.fullName, part.version⟩) w4
              (by rfl) (fun k => createData_eff _ k)
            have hmd : ∀ d, ¬ (d.fullName = part.fullName ∧ d.version = part.version ∧
                Listed env d.loc) → (attempt env (.mkdirAll (.data ⟨.system, part.fullName,
                part.version⟩)) (fun k => k.createData ⟨.system, part.fullName, part.version⟩)
                w4).2.disk.data d = w4.disk.data d := by
              intro d hdn
              rcases attempt_disk env (.mkdirAll (.data ⟨.system, part.fullName,
                part.version⟩)) (fun k => k.createData ⟨.system, part.fullName, part.version⟩)
                w4 with h | ⟨_, h⟩
              · rw [h]
              · rw [h]
                apply createData_data
                intro heq
                apply hdn
                rw [heq]
                exact ⟨rfl, rfl, Or.inl rfl⟩
            subst hr
            have hext : Ext w (attempt env (.mkdirAll (.data ⟨.system, part.fullName,
                part.version⟩)) (fun k => k.createData ⟨.system, part.fullName, part.version⟩)
                w4).2 := (h4.1.otrans hm.1).cext
            obtain ⟨ha, hb, hc, hd⟩ := activate_rollback env hra part none inhibitHooks _ _
              hfail (clean_split hext (activate_stopAbort env part none inhibitHooks _ _).1.sext
                hclean).2 (fun old ho => by simp at ho)
            refine ⟨?_, ?_, ?_, ?_⟩
            · intro d hdn
              rw [ha, hm.2.1]
              exact h4.2.2.2.1 d hdn
            · intro p hp
              rw [hb p hp, hm.2.2, h4.2.1]
            · refine hdataAfter _ _ ?_ hc
              intro d hdn
              rw [hmd d hdn, h4.2.2.1]
            · rcases hd with h | h | h
              · exact Or.inl (by rw [h, hm.2.2, h4.2.1])
              · exact Or.inr (Or.inl h)
              · exact Or.inr (Or.inr h)

theorem currentActiveDirOf_congr {k1 k2 : Disk} {p : String}
    (hc : k2.current p = k1.current p) (hd : ∀ d, k2.dirs d = k1.dirs d) :
    currentActiveDirOf k2 p = currentActiveDirOf k1 p := by
  unfold currentActiveDirOf evalCurrent
  rw [hc]
  cases k1.current p with
  | none => rfl
  | some v => simp only [hd]

theorem opened_rollback (env : Env)
    (hra : ∀ h p, env.outcome h (.removeAll p) ≠ some .notExist) (part : SnapPart)
    (flags : InstallFlags)
    (origin : String) (w : World)
    (hfail : (installClick.opened env part flags origin w).1.2 ≠ none)
    (hclean : Clean w (installClick.opened env part flags origin w).2)
    (hfresh : w.disk.dirs part.basedir = none)
    (hnew : ∀ loc, w.disk.data ⟨loc, part.fullName, part.version⟩ = none) :
    (∀ p, currentActiveDirOf (installClick.opened env part flags origin w).2.disk p =
      currentActiveDirOf w.disk p) ∧
    (∀ d, (installClick.opened env part flags origin w).2.disk.dirs d = w.disk.dirs d) ∧
    (∀ d, (installClick.opened env part flags origin w).2.disk.data d = w.disk.data d) := by
  have same : ∀ wx : World, wx.disk = w.disk →
      (∀ p, currentActiveDirOf wx.disk p = currentActiveDirOf w.disk p) ∧
      (∀ d, wx.disk.dirs d = w.disk.dirs d) ∧ (∀ d, wx.disk.data d = w.disk.data d) := by
    intro wx h
    rw [h]
    exact ⟨fun _ => rfl, fun _ => rfl, fun _ => rfl⟩
  generalize hr : installClick.opened env part flags origin w = r at hfail hclean
  unfold installClick.opened at hr
  dsimp only at hr
  split at hr
  · subst hr
    exact same _ rfl
  · split at hr
    · subst hr
      exact same _ rfl
    · next manifestData _ =>
      generalize hr1 : (if part.type = PkgType.oem then attempt env Call.oemUdevRules id w
        else (none, w)) = r1 at hr
      have h1 : r1.2.disk = w.disk ∧ Outside w r1.2 := by
        subst hr1
        split
        · exact ⟨attempt_id_disk env _ w, outside_attempt env _ _ w (by rfl)⟩
        · exact ⟨rfl, Outside.orefl w⟩
      split at hr
      · subst hr
        exact same _ h1.1
      · next w1 =>
        obtain ⟨hd1, ho1⟩ := h1
        have hd1' : w1.disk = w.disk := hd1
        generalize hw2 : (match attempt env (Call.mkdirAll (Path.clickDir part.basedir))
            (fun k => k.createDir part.basedir) w1 with
          | (some err, w0) => w0.record (Call.notice (Msg.canNotCreate part.basedir err))
          | (none, w0) => w0) = w2 at hr
        have h2 : Diri part.basedir w1 w2 := by
          subst hw2
          have h := diri_attempt env part.basedir (.mkdirAll (.clickDir part.basedir))
            (fun k => k.createDir part.basedir) w1 (by rfl)
            (fun k => createDir_eff part.basedir k)
          split
          · next err w0 heq =>
            rw [heq] at h
            exact h.itrans (diri_record _ w0 _ (by rfl))
          · next w0 heq =>
            rw [heq] at h
            exact h
        subst hr
        dsimp only at hfail hclean ⊢
        obtain ⟨hc1, hc2⟩ := clean_split (ho1.otrans h2.1).cext
          (Calls.ctrans (body_stopAbort env part origin manifestData
            (currentActiveDirOf w1.disk part.basedir.parent) flags.inhibitHooks w2).1.sext
            (defer839_outside env _ part _).cext) hclean
        obtain ⟨hc3, hc4⟩ := clean_split (body_stopAbort env part origin manifestData
            (currentActiveDirOf w1.disk part.basedir.parent) flags.inhibitHooks w2).1.sext
            (defer839_outside env _ part _).cext hc2
        obtain ⟨hb1, hb2, hb3, hb4⟩ := body_rollback env hra part origin manifestData
          (currentActiveDirOf w1.disk part.basedir.parent) flags.inhibitHooks w2 hfail hc3
          (fun loc => by rw [h2.2.2.1, hd1']; exact hnew loc)
          (fun old ho => by
            obtain ⟨h1, h2c, _⟩ := currentActiveDirOf_eq_some.mp ho
            exact ⟨h1, by rw [h2.2.1]; exact h2c⟩)
        generalize hrb : installClick.body env part origin manifestData
          (currentActiveDirOf w1.disk part.basedir.parent) flags.inhibitHooks w2 = rb
          at hfail hc2 hc3 hc4 hb1 hb2 hb3 hb4 ⊢
        obtain ⟨e, herr⟩ := Option.ne_none_iff_exists'.mp hfail
        rw [herr] at hc4 ⊢
        have hfin := defer839_clean env hra e part _ hc4
        have hdirs : ∀ d, (installClick.defer839 env (some e) part rb.2).disk.dirs d =
            w.disk.dirs d := by
          intro d
          rw [hfin]
          by_cases hd : d = part.basedir
          · subst hd
            simp [Disk.setDir, hfresh]
          · simp only [Disk.setDir, hd, if_false]
            rw [hb1 d hd, h2.2.2.2.1 d hd, hd1']
        have hcurf : ∀ p, (installClick.defer839 env (some e) part rb.2).disk.current p =
            rb.2.disk.current p := by
          intro p
          rw [hfin]
          rfl
        refine ⟨?_, hdirs, ?_⟩
        · intro p
          by_cases hp : p = part.basedir.parent
          · subst hp
            cases hcur : currentActiveDirOf w1.disk part.basedir.parent with
            | some old =>
              rw [hcur] at hb4
              have hb4' : rb.2.disk.current part.basedir.parent = some old.ver := hb4
              rw [hd1'] at hcur
              rw [hcur]
              obtain ⟨h1, h2c, h3⟩ := currentActiveDirOf_eq_some.mp hcur
              rw [currentActiveDirOf_eq_some]
              refine ⟨h1, by rw [hcurf]; exact hb4', ?_⟩
              rw [hdirs]
              exact h3
            | none =>
              rw [hcur] at hb4
              rw [hd1'] at hcur
              rw [hcur, currentActiveDirOf_eq_none]
              intro v hv
              rw [hdirs]
              rw [hcurf] at hv
              have hnone := currentActiveDirOf_eq_none.mp hcur
              rcases hb4 with h | h | h
              · rw [h, h2.2.1, hd1'] at hv
                exact hnone v hv
              · rw [h] at hv
                simp at hv
              · rw [h] at hv
                simp only [Option.some.injEq] at hv
                subst hv
                exact hfresh
          · apply currentActiveDirOf_congr _ hdirs
            rw [hcurf, hb2 p hp, h2.2.1, hd1']
        · intro d
          rw [hfin]
          show rb.2.disk.data d = _
          rw [hb3, h2.2.2.1, hd1']

/-- C1 as stated fails: versions 1.0 and 2.0 of `foo` are on disk, 1.0 is
active, and `foo_2.0.snap` is installed again while unpacking fails. The
compensation of line 841 succeeds (no failure is reported) and removes the
basedir, so the version directory 2.0 that existed before the call is gone
after it. -/
theorem installClick_rollback_removes_existing_counterexample :
    (worldFoo12.disk.dirs (fooDir "2.0")).isSome = true ∧
    (installClick (envInstall failUnpack []) "foo_2.0.snap" (flagsInhibit false) ""
      worldFoo12).1 = ("", some (.other 3)) ∧
    (∀ c ∈ (installClick (envInstall failUnpack []) "foo_2.0.snap" (flagsInhibit false) ""
      worldFoo12).2.calls, c.isRollbackFailure = false) ∧
    ((installClick (envInstall failUnpack []) "foo_2.0.snap" (flagsInhibit false) ""
      worldFoo12).2.disk.dirs (fooDir "2.0")).isSome = false := by
  decide

/-- C1, amended: the version to install is not on disk (neither its basedir
nor a data directory of it), `installClick` returns an error, at whatever
step, and no compensation reports a failure (`os.RemoveAll` reports no missing
path). Then after the call the `current` symlink of every package directory
resolves as before, and the version directories and the data directories are
the ones of before, with their content. A copy of the data that fails does
not make `installClick` return an error (the `err` of line 894 is the variable
of line 876); an install that fails at a later step after such a copy is
covered as well: the function deferred at line 883 then makes the old version
active once more. -/
theorem installClick_rollback (env : Env) (snapFile : String) (flags : InstallFlags)
    (origin : String) (w : World) (part : SnapPart) (e : Err)
    (hopen : env.newSnapPartFromSnap snapFile origin flags.allowUnauthenticated = .ok part)
    (hfresh : w.disk.dirs part.basedir = none)
    (hnew : ∀ loc, w.disk.data ⟨loc, part.fullName, part.version⟩ = none)
    (hra : ∀ h p, env.outcome h (.removeAll p) ≠ some .notExist)
    (hfail : (installClick env snapFile flags origin w).1.2 = some e)
    (hcomp : ∀ c ∈ (installClick env snapFile flags origin w).2.callsSince w.calls.length,
      c.isRollbackFailure = false) :
    (∀ p, currentActiveDirOf (installClick env snapFile flags origin w).2.disk p =
      currentActiveDirOf w.disk p) ∧
    (∀ d, (installClick env snapFile flags origin w).2.disk.dirs d = w.disk.dirs d) ∧
    (∀ d, (installClick env snapFile flags origin w).2.disk.data d = w.disk.data d) := by
  have hext := (installClick_stopAbort env snapFile flags origin w).1.sext
  have hclean : Clean w (installClick env snapFile flags origin w).2 := by
    obtain ⟨added, ha, _⟩ := hext
    refine ⟨added, ha, ?_⟩
    intro c hc
    apply hcomp
    unfold World.callsSince
    rw [ha, List.drop_left]
    exact hc
  generalize hr : installClick env snapFile flags origin w = r at hfail hclean
  unfold installClick at hr
  dsimp only at hr
  rw [hopen] at hr
  dsimp only at hr
  subst hr
  have hc := (clean_split (opened_stopAbort env part flags origin w).1.sext
    (Calls.record _ Call.closeArchive trivial) hclean).1
  have hfail2 : (installClick.opened env part flags origin w).1.2 = some e := hfail
  exact opened_rollback env hra part flags origin w (by rw [hfail2]; simp) hc hfresh hnew

/-- C1, amended, at `foo` 2.0 installed over the active 1.0, which has data,
when the copy of the data fails and then `RefreshDependentsSecurity` fails
after the new version was activated: the copy was attempted, the install
fails with the error of the refresh, version 1.0 is active again, and the
version and data directories are the ones of before. -/
theorem installClick_rollback_witness :
    Call.cp ⟨.system, "foo", "1.0"⟩ ⟨.system, "foo", "2.0"⟩ ∈
      (installClick (envInstall failCpRefresh [dependentBar]) "foo_2.0.snap"
        (flagsInhibit false) "" worldFoo1Active).2.calls ∧
    (installClick (envInstall failCpRefresh [dependentBar]) "foo_2.0.snap" (flagsInhibit false)
      "" worldFoo1Active).1.2 = some (.other 7) ∧
    ((∀ p, currentActiveDirOf (installClick (envInstall failCpRefresh [dependentBar])
        "foo_2.0.snap" (flagsInhibit false) "" worldFoo1Active).2.disk p =
      currentActiveDirOf worldFoo1Active.disk p) ∧
    (∀ d, (installClick (envInstall failCpRefresh [dependentBar]) "foo_2.0.snap"
      (flagsInhibit false) "" worldFoo1Active).2.disk.dirs d = worldFoo1Active.disk.dirs d) ∧
    (∀ d, (installClick (envInstall failCpRefresh [dependentBar]) "foo_2.0.snap"
      (flagsInhibit false) "" worldFoo1Active).2.disk.data d = worldFoo1Active.disk.data d)) :=
  ⟨by decide, by decide,
   installClick_rollback (envInstall failCpRefresh [dependentBar]) "foo_2.0.snap"
    (flagsInhibit false) "" worldFoo1Active partFoo2 (.other 7) rfl rfl
    (fun loc => by simp [worldFoo1Active, partFoo2])
    (fun _ _ => by simp [envInstall, failCpRefresh]) (by decide) (by decide)⟩


/-! ### A failing stop of a service of a dependent (lines 943-956) -/

theorem stopServices_append_ok (env : Env) (dep : Dependent) :
    ∀ (spre rest : List Service) (stopped stopped2 : ServiceMap) (w w2 : World),
    installClick.stopServices env dep spre stopped w = (none, stopped2, w2) →
    installClick.stopServices env dep (spre ++ rest) stopped w =
      installClick.stopServices env dep rest stopped2 w2 := by
  intro spre
  induction spre with
  | nil =>
    intro rest stopped stopped2 w w2 h
    simp only [installClick.stopServices, Prod.mk.injEq, true_and] at h
    rw [← h.1, ← h.2]
    rfl
  | cons svc spre ih =>
    intro rest stopped stopped2 w w2 h
    rw [List.cons_append, installClick.stopServices]
    rw [installClick.stopServices] at h
    cases ha : attempt env (.stop (serviceNameOf dep.m svc) svc.stopTimeout) id w with
    | mk o w1 =>
      rw [ha] at h
      cases o with
      | some err => simp at h
      | none => exact ih rest _ _ _ _ h

theorem stopDependents_append_ok (env : Env) :
    ∀ (dpre rest : List Dependent) (stopped stopped1 : ServiceMap) (w w1 : World),
    installClick.stopDependents env dpre stopped w = (none, stopped1, w1) →
    installClick.stopDependents env (dpre ++ rest) stopped w =
      installClick.stopDependents env rest stopped1 w1 := by
  intro dpre
  induction dpre with
  | nil =>
    intro rest stopped stopped1 w w1 h
    simp only [installClick.stopDependents, Prod.mk.injEq, true_and] at h
    rw [← h.1, ← h.2]
    rfl
  | cons dep dpre ih =>
    intro rest stopped stopped1 w w1 h
    rw [List.cons_append, installClick.stopDependents]
    rw [installClick.stopDependents] at h
    cases hact : dep.isActive with
    | false =>
      simp only [hact, Bool.not_false, if_true] at h ⊢
      exact ih rest _ _ _ _ h
    | true =>
      simp only [hact, Bool.not_true, Bool.false_eq_true, if_false] at h ⊢
      cases hs : installClick.stopServices env dep dep.services stopped w with
      | mk o r =>
        obtain ⟨st, wx⟩ := r
        rw [hs] at h
        cases o with
        | some err => simp at h
        | none => exact ih rest _ _ _ _ h

theorem stopServices_fail (env : Env) (dep : Dependent) (svc : Service) (rest : List Service)
    (stopped : ServiceMap) (w : World) (e : Err)
    (h : env.outcome w.calls (.stop (serviceNameOf dep.m svc) svc.stopTimeout) = some e) :
    installClick.stopServices env dep (svc :: rest) stopped w =
      (some e, stopped, (w.record (.stop (serviceNameOf dep.m svc) svc.stopTimeout)).record
        (.notify (.unableToStopAborting (serviceNameOf dep.m svc) e))) := by
  unfold installClick.stopServices
  simp [attempt, h]

/-- The block of lines 925-979 when the stop of a service of an active
dependent fails after the stops before it succeeded. -/
theorem refreshSecurity_stop_failure (env : Env) (part : SnapPart) (cur : Option ClickDir)
    (wb wd ws : World) (dpre dpost : List Dependent) (dep : Dependent)
    (spre spost : List Service) (svc : Service) (stopped1 stopped2 : ServiceMap) (e : Err)
    (hdeps : env.dependents wb.calls part = .ok (dpre ++ dep :: dpost))
    (hact : dep.isActive = true)
    (hsvcs : dep.services = spre ++ svc :: spost)
    (hpreOk : installClick.stopDependents env dpre [] wb = (none, stopped1, wd))
    (hspreOk : installClick.stopServices env dep spre stopped1 wd = (none, stopped2, ws))
    (hfail : env.outcome ws.calls (.stop (serviceNameOf dep.m svc) svc.stopTimeout) = some e) :
    installClick.refreshSecurity env part cur wb =
      (some e, installClick.defer933 env (some e) stopped2
        ((ws.record (.stop (serviceNameOf dep.m svc) svc.stopTimeout)).record
          (.notify (.unableToStopAborting (serviceNameOf dep.m svc) e)))) := by
  have h1 : installClick.stopDependents env (dpre ++ dep :: dpost) [] wb =
      (some e, stopped2, (ws.record (.stop (serviceNameOf dep.m svc) svc.stopTimeout)).record
        (.notify (.unableToStopAborting (serviceNameOf dep.m svc) e))) := by
    rw [stopDependents_append_ok env dpre _ _ _ _ _ hpreOk, installClick.stopDependents]
    simp only [hact, Bool.not_true, Bool.false_eq_true, if_false]
    rw [hsvcs, stopServices_append_ok env dep spre _ _ _ _ _ hspreOk,
      stopServices_fail env dep svc spost stopped2 ws e hfail]
  unfold installClick.refreshSecurity
  rw [hdeps]
  simp only [h1]

theorem activate_reaches_block (env : Env) (part : SnapPart) (cur : Option ClickDir)
    (w7 wb : World) (hset : setActiveClick env part.basedir false w7 = (none, wb)) :
    Ext (installClick.refreshSecurity env part cur wb).2
      (installClick.activate env part cur false none w7).2 := by
  unfold installClick.activate
  simp only [hset, Bool.not_false, if_true]
  cases installClick.refreshSecurity env part cur wb with
  | mk o wr =>
    cases o with
    | some err =>
      exact (defer913_outside env _ cur false wr).cext.ctrans (defer899_outside env _ part _).cext
    | none =>
      exact (defer913_outside env _ cur false wr).cext.ctrans (defer899_outside env _ part _).cext

theorem ext_snd {w w2 : World} {r : Option Err × World} {o : Option Err} {P : Call → Prop}
    (h : Calls P w r.2) (hr : r = (o, w2)) : Ext w w2 := by
  subst hr
  exact h.cext

/-- A run of the body of `installClick` in which every step up to the
activation of the new version succeeds reaches the block of lines 925-979. -/
theorem body_reaches_block (env : Env) (part : SnapPart) (origin : String)
    (manifestData : Except Err ClickManifest) (cur : Option ClickDir)
    (w2 w3 w4 w5 w6 w7 wb : World)
    (hunp : unpackWithDropPrivs env part part.basedir w2 = (none, w3))
    (hmeta : attempt env (.mkdirAll (.clickMeta part.basedir))
      (fun k => k.createDir part.basedir) w3 = (none, w4))
    (hcompat : writeCompatManifestJSON env part.basedir manifestData origin w4 = (none, w5))
    (hhash : attempt env (.extractHashes part.basedir) id w5 = (none, w6))
    (hold : ∀ old, cur = some old → ∃ oldM w',
      parsePackageYamlFile old w6.disk = .ok oldM ∧
      unsetActiveClick env old false w6 = (none, w') ∧
      (copySnapData env part.fullName oldM.version part.version w').2 = w7)
    (hnone : cur = none →
      attempt env (.mkdirAll (.data ⟨.system, part.fullName, part.version⟩))
        (fun k => k.createData ⟨.system, part.fullName, part.version⟩) w6 = (none, w7))
    (hset : setActiveClick env part.basedir false w7 = (none, wb)) :
    Ext w2 wb ∧
    Ext (installClick.refreshSecurity env part cur wb).2
      (installClick.body env part origin manifestData cur false w2).2 := by
  have e23 : Ext w2 w3 := ext_snd (unpackWithDropPrivs_diri env part part.basedir w2).1 hunp
  have e34 : Ext w3 w4 := ext_snd (outside_attempt env _ _ w3 (by rfl)) hmeta
  have e45 : Ext w4 w5 :=
    ext_snd (writeCompatManifestJSON_diri env part.basedir manifestData origin w4).1 hcompat
  have e56 : Ext w5 w6 := ext_snd (outside_attempt env _ _ w5 (by rfl)) hhash
  have e7b : Ext w7 wb := ext_snd (setActiveClick_outside env part.basedir false w7) hset
  have hact := activate_reaches_block env part cur w7 wb hset
  unfold installClick.body
  simp only [hunp, hmeta, hcompat, hhash]
  cases cur with
  | some old =>
    obtain ⟨oldM, w', hp, hu, hc⟩ := hold old rfl
    have e67 : Ext w6 w7 := by
      have h1 : Ext w6 w' := ext_snd (unsetActiveClick_outside env old false w6) hu
      have h2 := (copySnapData_dati env part.fullName oldM.version part.version w').1.cext
      rw [hc] at h2
      exact h1.ctrans h2
    simp only [hp, hu, hc]
    exact ⟨e23.ctrans (e34.ctrans (e45.ctrans (e56.ctrans (e67.ctrans e7b)))),
      hact.ctrans (defer883_outside env _ old false _).cext⟩
  | none =>
    have hn := hnone rfl
    have e67 : Ext w6 w7 := ext_snd (outside_attempt env _ _ w6 (by rfl)) hn
    simp only [hn]
    exact ⟨e23.ctrans (e34.ctrans (e45.ctrans (e56.ctrans (e67.ctrans e7b)))), hact⟩

/-- A run of `installClick` in which every step up to the activation of the
new version succeeds reaches the block of lines 925-979, and what the block
and the steps before it have recorded stays in the record. -/
theorem installClick_reaches_block (env : Env) (snapFile : String) (flags : InstallFlags)
    (origin : String) (w : World) (part : SnapPart)
    (manifestData : Except Err ClickManifest) (w1 w2 w3 w4 w5 w6 w7 wb : World)
    (hinh : flags.inhibitHooks = false)
    (hopen : env.newSnapPartFromSnap snapFile origin flags.allowUnauthenticated = .ok part)
    (hcan : env.canInstall part flags.allowOEM = none)
    (hctl : env.controlMember part = .ok manifestData)
    (hoem : (if part.type = .oem then attempt env .oemUdevRules id w else (none, w)) =
      (none, w1))
    (hmk : (match attempt env (.mkdirAll (.clickDir part.basedir))
          (fun k => k.createDir part.basedir) w1 with
        | (some err, w0) => w0.record (.notice (.canNotCreate part.basedir err))
        | (none, w0) => w0) = w2)
    (hunp : unpackWithDropPrivs env part part.basedir w2 = (none, w3))
    (hmeta : attempt env (.mkdirAll (.clickMeta part.basedir))
      (fun k => k.createDir part.basedir) w3 = (none, w4))
    (hcompat : writeCompatManifestJSON env part.basedir manifestData origin w4 = (none, w5))
    (hhash : attempt env (.extractHashes part.basedir) id w5 = (none, w6))
    (hold : ∀ old, currentActiveDirOf w1.disk part.basedir.parent = some old → ∃ oldM w',
      parsePackageYamlFile old w6.disk = .ok oldM ∧
      unsetActiveClick env old false w6 = (none, w') ∧
      (copySnapData env part.fullName oldM.version part.version w').2 = w7)
    (hnone : currentActiveDirOf w1.disk part.basedir.parent = none →
      attempt env (.mkdirAll (.data ⟨.system, part.fullName, part.version⟩))
        (fun k => k.createData ⟨.system, part.fullName, part.version⟩) w6 = (none, w7))
    (hset : setActiveClick env part.basedir false w7 = (none, wb)) :
    Ext w wb ∧
    Ext (installClick.refreshSecurity env part
        (currentActiveDirOf w1.disk part.basedir.parent) wb).2
      (installClick env snapFile flags origin w).2 := by
  have e01 : Ext w w1 := by
    by_cases ht : part.type = .oem
    · rw [if_pos ht] at hoem
      exact ext_snd (outside_attempt env _ _ w (by rfl)) hoem
    · rw [if_neg ht] at hoem
      simp only [Prod.mk.injEq, true_and] at hoem
      rw [← hoem]
      exact (Outside.orefl w).cext
  subst hmk
  have e12 : Ext w1 (match attempt env (.mkdirAll (.clickDir part.basedir))
          (fun k => k.createDir part.basedir) w1 with
        | (some err, w0) => w0.record (.notice (.canNotCreate part.basedir err))
        | (none, w0) => w0) := by
    have h := outside_attempt env (.mkdirAll (.clickDir part.basedir))
      (fun k => k.createDir part.basedir) w1 (by rfl)
    split
    · next err w0 heq =>
      rw [heq] at h
      exact (h.otrans (outside_record w0 _ (by rfl))).cext
    · next w0 heq =>
      rw [heq] at h
      exact h.cext
  obtain ⟨e2b, hbody⟩ := body_reaches_block env part origin manifestData
    (currentActiveDirOf w1.disk part.basedir.parent) _ w3 w4 w5 w6 w7 wb hunp hmeta hcompat
    hhash hold hnone hset
  refine ⟨e01.ctrans (e12.ctrans e2b), ?_⟩
  unfold installClick
  simp only [hopen]
  unfold installClick.opened
  simp only [hcan, hctl, hoem, hinh]
  exact hbody.ctrans ((defer839_outside env _ part _).cext.ctrans
    (Calls.record _ Call.closeArchive trivial))

/-- C9: a run of `installClick` without `InhibitHooks` in which every step up
to the activation of the new version succeeds (lines 803-911) and
`part.Dependents()` returns `dpre ++ dep :: dpost`; the dependent `dep` is
active, its services are `spre ++ svc :: spost`, the loop of lines 943-956 has
gone through the dependents `dpre` and the services `spre` without a failing
`sysd.Stop`, and `sysd.Stop` of the service `svc` fails with `e`. Then
`installClick` returns the empty name and `e`; `RefreshDependentsSecurity` is
not among the calls of the run; the block of lines 925-979 ends with the
failing stop, the message of line 951 and the restart of the services stopped
so far (line 933), so after the failing stop it stops no other service. And
every `sysd.Stop` that the block issues, in any run, is for a service of a
dependent that is active. -/
theorem installClick_stop_failure_aborts (env : Env) (snapFile : String)
    (flags : InstallFlags) (origin : String) (w : World) (part : SnapPart)
    (manifestData : Except Err ClickManifest) (w1 w2 w3 w4 w5 w6 w7 wb wd ws : World)
    (dpre dpost : List Dependent) (dep : Dependent) (spre spost : List Service)
    (svc : Service) (stopped1 stopped2 : ServiceMap) (e : Err)
    (hinh : flags.inhibitHooks = false)
    (hopen : env.newSnapPartFromSnap snapFile origin flags.allowUnauthenticated = .ok part)
    (hcan : env.canInstall part flags.allowOEM = none)
    (hctl : env.controlMember part = .ok manifestData)
    (hoem : (if part.type = .oem then attempt env .oemUdevRules id w else (none, w)) =
      (none, w1))
    (hmk : (match attempt env (.mkdirAll (.clickDir part.basedir))
          (fun k => k.createDir part.basedir) w1 with
        | (some err, w0) => w0.record (.notice (.canNotCreate part.basedir err))
        | (none, w0) => w0) = w2)
    (hunp : unpackWithDropPrivs env part part.basedir w2 = (none, w3))
    (hmeta : attempt env (.mkdirAll (.clickMeta part.basedir))
      (fun k => k.createDir part.basedir) w3 = (none, w4))
    (hcompat : writeCompatManifestJSON env part.basedir manifestData origin w4 = (none, w5))
    (hhash : attempt env (.extractHashes part.basedir) id w5 = (none, w6))
    (hold : ∀ old, currentActiveDirOf w1.disk part.basedir.parent = some old → ∃ oldM w',
      parsePackageYamlFile old w6.disk = .ok oldM ∧
      unsetActiveClick env old false w6 = (none, w') ∧
      (copySnapData env part.fullName oldM.version part.version w').2 = w7)
    (hnone : currentActiveDirOf w1.disk part.basedir.parent = none →
      attempt env (.mkdirAll (.data ⟨.system, part.fullName, part.version⟩))
        (fun k => k.createData ⟨.system, part.fullName, part.version⟩) w6 = (none, w7))
    (hset : setActiveClick env part.basedir false w7 = (none, wb))
    (hdeps : env.dependents wb.calls part = .ok (dpre ++ dep :: dpost))
    (hact : dep.isActive = true)
    (hsvcs : dep.services = spre ++ svc :: spost)
    (hpreOk : installClick.stopDependents env dpre [] wb = (none, stopped1, wd))
    (hspreOk : installClick.stopServices env dep spre stopped1 wd = (none, stopped2, ws))
    (hfail : env.outcome ws.calls (.stop (serviceNameOf dep.m svc) svc.stopTimeout) = some e) :
    (installClick env snapFile flags origin w).1 = ("", some e) ∧
    (∀ old, Call.refreshDependentsSecurity old ∉
      (installClick env snapFile flags origin w).2.callsSince w.calls.length) ∧
    installClick.refreshSecurity env part (currentActiveDirOf w1.disk part.basedir.parent) wb =
      (some e, installClick.defer933 env (some e) stopped2
        ((ws.record (.stop (serviceNameOf dep.m svc) svc.stopTimeout)).record
          (.notify (.unableToStopAborting (serviceNameOf dep.m svc) e)))) ∧
    (∀ c ∈ (installClick.refreshSecurity env part
        (currentActiveDirOf w1.disk part.basedir.parent) wb).2.callsSince ws.calls.length,
      c = .stop (serviceNameOf dep.m svc) svc.stopTimeout ∨
      c = .notify (.unableToStopAborting (serviceNameOf dep.m svc) e) ∨
      (∃ s, c = .start s) ∨ ∃ s e2, c = .notify (.unableToRestartOld s e2)) ∧
    (∀ (part2 : SnapPart) (cur2 : Option ClickDir) (w' : World) (deps : List Dependent),
      env.dependents w'.calls part2 = .ok deps →
      ∀ s t, Call.stop s t ∈
        (installClick.refreshSecurity env part2 cur2 w').2.callsSince w'.calls.length →
      IsDependentService deps s) := by
  have hblock := refreshSecurity_stop_failure env part
    (currentActiveDirOf w1.disk part.basedir.parent) wb wd ws dpre dpost dep spre spost svc
    stopped1 stopped2 e hdeps hact hsvcs hpreOk hspreOk hfail
  obtain ⟨hwb, hfin⟩ := installClick_reaches_block env snapFile flags origin w part manifestData
    w1 w2 w3 w4 w5 w6 w7 wb hinh hopen hcan hctl hoem hmk hunp hmeta hcompat hhash hold hnone
    hset
  rw [hblock] at hfin
  have hbd : Ext wb wd := by
    have h := (stopDependents_spec env dpre [] wb).2.2.1
    rw [hpreOk] at h
    exact (h rfl).cext
  have hds : Ext wd ws := by
    have h := (stopServices_spec env dep spre stopped1 wd).2.2.1
    rw [hspreOk] at h
    exact (h rfl).cext
  obtain ⟨a, ha, _⟩ := hwb.ctrans (hbd.ctrans hds)
  obtain ⟨a933, h933, hP933⟩ := (defer933_spec env (some e) stopped2
    ((ws.record (.stop (serviceNameOf dep.m svc) svc.stopTimeout)).record
      (.notify (.unableToStopAborting (serviceNameOf dep.m svc) e)))).2
  obtain ⟨b, hb, _⟩ := hfin
  have hW : ((ws.record (.stop (serviceNameOf dep.m svc) svc.stopTimeout)).record
      (.notify (.unableToStopAborting (serviceNameOf dep.m svc) e))).calls =
      ws.calls ++ [.stop (serviceNameOf dep.m svc) svc.stopTimeout,
        .notify (.unableToStopAborting (serviceNameOf dep.m svc) e)] := by
    simp [World.record]
  have hF : (installClick env snapFile flags origin w).2.calls =
      w.calls ++ (a ++ ([.stop (serviceNameOf dep.m svc) svc.stopTimeout,
        .notify (.unableToStopAborting (serviceNameOf dep.m svc) e)] ++ (a933 ++ b))) := by
    rw [hb]
    show (installClick.defer933 env (some e) stopped2 _).calls ++ b = _
    rw [h933, hW, ha]
    simp only [List.append_assoc]
  have hmem : Call.notify (.unableToStopAborting (serviceNameOf dep.m svc) e) ∈
      (installClick env snapFile flags origin w).2.callsSince w.calls.length := by
    unfold World.callsSince
    rw [hF, List.drop_left]
    simp
  refine ⟨?_, ?_, hblock, ?_, ?_⟩
  · obtain ⟨hsa, hname⟩ := installClick_stopAbort env snapFile flags origin w
    rcases hsa with h | ⟨e2, he2, h⟩
    · exact absurd rfl (callsSince_of_calls h _ hmem _ e)
    · have hee : e = e2 := (callsSince_of_calls h _ hmem).2 _ e rfl
      subst hee
      exact Prod.ext (hname (by simp [he2])) he2
  · intro old hold2
    obtain ⟨hsa, _⟩ := installClick_stopAbort env snapFile flags origin w
    rcases hsa with h | ⟨e2, _, h⟩
    · exact absurd rfl (callsSince_of_calls h _ hmem _ e)
    · exact (callsSince_of_calls h _ hold2).1 old rfl
  · intro c hc
    rw [hblock] at hc
    unfold World.callsSince at hc
    have hc2 : c ∈ List.drop ws.calls.length (installClick.defer933 env (some e) stopped2
        ((ws.record (.stop (serviceNameOf dep.m svc) svc.stopTimeout)).record
          (.notify (.unableToStopAborting (serviceNameOf dep.m svc) e)))).calls := hc
    rw [h933, hW, List.append_assoc, List.drop_left] at hc2
    simp only [List.cons_append, List.nil_append, List.mem_cons] at hc2
    rcases hc2 with h | h | h
    · exact Or.inl h
    · exact Or.inr (Or.inl h)
    · rcases hP933 c h with h2 | h2
      · exact Or.inr (Or.inr (Or.inl h2))
      · exact Or.inr (Or.inr (Or.inr h2))
  · intro part2 cur2 w' deps hdeps2 s t hmem2
    obtain ⟨_, _, hblock2⟩ := refreshSecurity_spec env part2 cur2 w'
    rcases callsSince_of_calls (hblock2 deps hdeps2) _ hmem2 with
      ⟨s2, t2, heq, hs⟩ | ⟨s2, heq⟩ | ⟨old, heq⟩ | ⟨m, heq⟩
    · simp only [Call.stop.injEq] at heq
      rw [heq.1]
      exact hs
    · simp at heq
    · simp at heq
    · simp at heq

/-- C9 at `foo` 2.0 installed over the active 1.0, with the dependents `baz`
(not active), `bar` and `qux` (active), when `sysd.Stop` succeeds for the
service of `bar` and for the first service of `qux` and fails for the second
service of `qux`: the install returns the error of that stop and never calls
`RefreshDependentsSecurity`; the block stops the service of `bar` and two
services of `qux`, reports the failure, and starts the two stopped services
again; the third service of `qux` and the service of `baz` are not stopped. -/
theorem installClick_stop_failure_aborts_witness :
    (installClick (envInstall failStopLog [dependentBaz, dependentBar, dependentQux])
      "foo_2.0.snap" (flagsInhibit false) "" worldFoo1Active).1 = ("", some (.other 5)) ∧
    (∀ old, Call.refreshDependentsSecurity old ∉
      (installClick (envInstall failStopLog [dependentBaz, dependentBar, dependentQux])
        "foo_2.0.snap" (flagsInhibit false) "" worldFoo1Active).2.callsSince
          worldFoo1Active.calls.length) ∧
    [Call.stop "bar_svc_1.0.service" 30, .stop "qux_svc_1.0.service" 30,
      .stop "qux_log_1.0.service" 10,
      .notify (.unableToStopAborting "qux_log_1.0.service" (.other 5)),
      .start "bar_svc_1.0.service", .start "qux_svc_1.0.service"] <:+:
      (installClick (envInstall failStopLog [dependentBaz, dependentBar, dependentQux])
        "foo_2.0.snap" (flagsInhibit false) "" worldFoo1Active).2.calls ∧
    Call.stop "qux_tail_1.0.service" 20 ∉
      (installClick (envInstall failStopLog [dependentBaz, dependentBar, dependentQux])
        "foo_2.0.snap" (flagsInhibit false) "" worldFoo1Active).2.calls ∧
    Call.stop "baz_svc_1.0.service" 30 ∉
      (installClick (envInstall failStopLog [dependentBaz, dependentBar, dependentQux])
        "foo_2.0.snap" (flagsInhibit false) "" worldFoo1Active).2.calls := by
  let env : Env := envInstall failStopLog [dependentBaz, dependentBar, dependentQux]
  let w2 : World := (attempt env (.mkdirAll (.clickDir (fooDir "2.0")))
    (fun k => k.createDir (fooDir "2.0")) worldFoo1Active).2
  let w3 : World := (unpackWithDropPrivs env partFoo2 (fooDir "2.0") w2).2
  let w4 : World := (attempt env (.mkdirAll (.clickMeta (fooDir "2.0")))
    (fun k => k.createDir (fooDir "2.0")) w3).2
  let w5 : World := (writeCompatManifestJSON env (fooDir "2.0") (.ok (manifestFoo "2.0")) ""
    w4).2
  let w6 : World := (attempt env (.extractHashes (fooDir "2.0")) id w5).2
  let w' : World := (unsetActiveClick env (fooDir "1.0") false w6).2
  let w7 : World := (copySnapData env "foo" "1.0" "2.0" w').2
  let wb : World := (setActiveClick env (fooDir "2.0") false w7).2
  let rd := installClick.stopDependents env [dependentBaz, dependentBar] [] wb
  let rs := installClick.stopServices env dependentQux [serviceSvc] rd.2.1 rd.2.2
  have h := installClick_stop_failure_aborts env "foo_2.0.snap" (flagsInhibit false) ""
    worldFoo1Active partFoo2 (.ok (manifestFoo "2.0")) worldFoo1Active w2 w3 w4 w5 w6 w7 wb
    rd.2.2 rs.2.2 [dependentBaz, dependentBar] [] dependentQux [serviceSvc] [serviceTail]
    serviceLog rd.2.1 rs.2.1 (.other 5)
    rfl rfl rfl rfl rfl rfl (Prod.ext rfl rfl) (Prod.ext rfl rfl) (Prod.ext rfl rfl)
    (Prod.ext rfl rfl)
    (fun old ho => ⟨yamlFoo "1.0", w', by
      have ho2 : some (fooDir "1.0") = some old := ho
      cases ho2
      exact ⟨rfl, Prod.ext rfl rfl, rfl⟩⟩)
    (fun hn => by
      have hn2 : some (fooDir "1.0") = (none : Option ClickDir) := hn
      cases hn2)
    (Prod.ext rfl rfl) rfl rfl rfl rfl rfl rfl
  exact ⟨h.1, h.2.1, by decide, by decide, by decide⟩

/-! ### generateBinaryName (lines 293-303) -/

theorem dropWhile_of_all_false {α : Type} (p : α → Bool) :
    ∀ l : List α, (∀ x ∈ l, p x = false) → l.dropWhile p = l
  | [], _ => rfl
  | x :: l, h => by
    have hx : p x = false := h x (List.mem_cons_self x l)
    simp [List.dropWhile, hx]

/-- `filepath.Base` of a name that is not empty and has no slash is the name. -/
theorem filepathBase_plain (s : String) (hne : s ≠ "") (hs : '/' ∉ s.toList) :
    filepathBase s = s := by
  have hall : ∀ c ∈ s.toList.reverse, (decide (c = '/')) = false := by
    intro c hc
    have : c ∈ s.toList := List.mem_reverse.mp hc
    simp only [decide_eq_false_iff_not]
    intro h
    exact hs (h ▸ this)
  have hdrop : s.toList.reverse.dropWhile (fun c => decide (c = '/')) = s.toList.reverse :=
    dropWhile_of_all_false _ _ hall
  have hnil : s.toList.reverse ≠ [] := by
    intro h
    apply hne
    have h2 : s.toList = [] := List.reverse_eq_nil_iff.mp h
    cases s
    simp only [String.toList] at h2
    subst h2
    rfl
  have htake : s.toList.reverse.takeWhile (fun c => decide (c ≠ '/')) = s.toList.reverse := by
    rw [List.takeWhile_eq_self_iff]
    intro c hc
    have := hall c hc
    simp only [decide_eq_false_iff_not] at this
    simpa using this
  unfold filepathBase
  simp only [hne, if_false, hdrop, hnil, htake, List.reverse_reverse]
  cases s
  rfl

/-- C18 as stated fails: the binary declared as `bin/hello` in the app `foo`
gets the wrapper `<snapBinariesDir>/foo.hello`, not
`<snapBinariesDir>/foo.bin/hello`, and in a framework it gets
`<snapBinariesDir>/hello`, not `<snapBinariesDir>/bin/hello`. -/
theorem generateBinaryName_declared_name_counterexample :
    generateBinaryName yamlFoo1 ⟨"bin/hello", "", .nil⟩ = .binary "foo.hello" ∧
    generateBinaryName yamlFoo1 ⟨"bin/hello", "", .nil⟩ ≠ .binary ("foo" ++ "." ++ "bin/hello") ∧
    generateBinaryName { yamlFoo1 with type := .framework } ⟨"bin/hello", "", .nil⟩ =
      .binary "hello" ∧
    generateBinaryName { yamlFoo1 with type := .framework } ⟨"bin/hello", "", .nil⟩ ≠
      .binary "bin/hello" := by
  decide

/-- C18, amended: for a Framework-type package the wrapper path is
`<snapBinariesDir>/<binary>` and for every other package type it is
`<snapBinariesDir>/<package name>.<binary>`, where `<binary>` is
`filepath.Base` of the declared binary name: its last path element, which is
the declared name itself when that is not empty and has no slash. -/
theorem generateBinaryName_base (m : PackageYaml) (binary : Binary) :
    (m.type = .framework →
      generateBinaryName m binary = .binary (filepathBase binary.name)) ∧
    (m.type ≠ .framework →
      generateBinaryName m binary = .binary (m.name ++ "." ++ filepathBase binary.name)) ∧
    (binary.name ≠ "" → '/' ∉ binary.name.toList →
      generateBinaryName m binary =
        .binary (if m.type = .framework then binary.name else m.name ++ "." ++ binary.name)) := by
  refine ⟨fun h => ?_, fun h => ?_, fun hne hs => ?_⟩
  · simp [generateBinaryName, h]
  · simp [generateBinaryName, h]
  · simp only [generateBinaryName, filepathBase_plain _ hne hs]

/-- C18 at the app `foo` and at a framework, with the binaries `bin/hello` and
`hello`. -/
theorem generateBinaryName_base_witness :
    generateBinaryName yamlFoo1 ⟨"bin/hello", "", .nil⟩ =
      .binary ("foo" ++ "." ++ filepathBase "bin/hello") ∧
    generateBinaryName { yamlFoo1 with type := .framework } ⟨"bin/hello", "", .nil⟩ =
      .binary (filepathBase "bin/hello") ∧
    generateBinaryName yamlFoo1 ⟨"hello", "", .nil⟩ = .binary ("foo" ++ "." ++ "hello") :=
  ⟨(generateBinaryName_base yamlFoo1 ⟨"bin/hello", "", .nil⟩).2.1 (by decide),
   (generateBinaryName_base { yamlFoo1 with type := .framework } ⟨"bin/hello", "", .nil⟩).1 rfl,
   (generateBinaryName_base yamlFoo1 ⟨"hello", "", .nil⟩).2.2 (by decide) (by decide)⟩


/-! ### verifyStructStringsAgainstWhitelist on nested structs (lines 404-431) -/

/-- C20, the code at the failing input: the exported string field
`SecurityTemplate` holds `x; rm -rf /`, which the whitelist does not match,
and is declared after an exported field that is a pointer to a struct (or a
struct). `verifyStructStringsAgainstWhitelist` returns nil: lines 413 and 418
return the result for the nested struct and the fields declared after it are
never looked at. With the string field declared first the same value is
rejected. -/
theorem verifyStructStringsAgainstWhitelist_skips_fields_after_struct :
    whitelistMatch "x; rm -rf /" = false ∧
    verifyStructStringsAgainstWhitelist (.ok whitelistMatch) (structPtrThenString "x; rm -rf /")
      servicesBinariesStringsWhitelist = none ∧
    verifyStructStringsAgainstWhitelist (.ok whitelistMatch) (structThenString "x; rm -rf /")
      servicesBinariesStringsWhitelist = none ∧
    verifyStructStringsAgainstWhitelist (.ok whitelistMatch) (stringThenStructPtr "x; rm -rf /")
      servicesBinariesStringsWhitelist =
      some (.structIllegalContent "SecurityTemplate" "x; rm -rf /"
        servicesBinariesStringsWhitelist) := by
  decide

/-! ### The default hook name (lines 143-146) -/

/-- C17, the code at the failing input: the hook file `com.example.foo.hook`
parses and has no `Hook-Name`. `readClickHookFile` names the hook `com`, the
text before the first dot of the base name (`strings.Split(..., ".")[0]`),
not the base name without its extension `com.example.foo`, and
`systemClickHooks` registers it under `com`. For `apparmor.hook` the name is
`apparmor`. -/
theorem readClickHookFile_dotted_stem :
    (readClickHookFile (hookFileNamed "com.example.foo.hook") worldEmpty).1 =
      .ok { name := "com", exec := "true", user := "",
            pattern := "/var/lib/hooks/$\x7bid\x7d" } ∧
    (systemClickHooks { envOk with hookFiles := [hookFileNamed "com.example.foo.hook"] }
        worldEmpty).1 =
      .ok [("com", { name := "com", exec := "true", user := "",
                     pattern := "/var/lib/hooks/$\x7bid\x7d" })] ∧
    (readClickHookFile (hookFileNamed "apparmor.hook") worldEmpty).1 =
      .ok { name := "apparmor", exec := "true", user := "",
            pattern := "/var/lib/hooks/$\x7bid\x7d" } := by
  refine ⟨rfl, rfl, rfl⟩


/-! ### The compatibility manifest (lines 778-800) -/

theorem mapSet_lookup {α : Type} (m : List (String × α)) (key : String) (v : α) :
    (mapSet m key v).lookup key = some v := by
  induction m with
  | nil => simp [mapSet, List.lookup]
  | cons hd rest ih =>
    obtain ⟨k, x⟩ := hd
    unfold mapSet
    by_cases hk : k = key
    · simp [hk, List.lookup]
    · have hne : (key == k) = false := by
        simp only [beq_eq_false_iff_ne, ne_eq]
        exact fun h => hk h.symm
      simp only [hk, if_false, List.lookup, hne]
      exact ih

theorem addManifest_lookup (d : ClickDir) (file : String) (cm : ClickManifest) (k : Disk) :
    ∃ c, (addManifest d file cm k).dirs d = some c ∧
      c.manifests.lookup file = some (.ok cm) :=
  ⟨{ (k.dirs d).getD emptyDir with
      manifests := mapSet ((k.dirs d).getD emptyDir).manifests file (.ok cm) },
    by simp [addManifest, Disk.setDir], mapSet_lookup _ _ _⟩

/-- C16 as stated fails: for the app `foo` and the empty origin the manifest
is written with the name `foo.` into the file `foo..manifest`, not with the
qualified name `foo` into `foo.manifest`. -/
theorem writeCompatManifestJSON_empty_origin_counterexample :
    (writeCompatManifestJSON envOk (fooDir "1.0") (.ok (manifestFoo "1.0")) ""
        worldFoo1Installed).1 = none ∧
    (writeCompatManifestJSON envOk (fooDir "1.0") (.ok (manifestFoo "1.0")) ""
        worldFoo1Installed).2.calls =
      [.writeManifest (fooDir "1.0") "foo..manifest" { manifestFoo "1.0" with name := "foo." }] ∧
    (writeCompatManifestJSON envOk (fooDir "1.0") (.ok (manifestFoo "1.0")) ""
        worldFoo1Installed).2.calls ≠
      [.writeManifest (fooDir "1.0") "foo.manifest" (manifestFoo "1.0")] := by
  decide

/-- C16, amended: `writeCompatManifestJSON` writes one file,
`<clickMetaDir>/<written name>.manifest`, holding the manifest with the
written name and every other field unchanged. The written name is the
original name for a manifest of type Framework or OEM, for every origin, and
`name ++ "." ++ origin` for every other type and every origin (for the empty
origin that is `name ++ "."`). When the write succeeds the file is in the
directory with that manifest. -/
theorem writeCompatManifestJSON_name (env : Env) (clickMetaDir : ClickDir) (cm : ClickManifest)
    (origin : String) (w : World) :
    (writeCompatManifestJSON env clickMetaDir (.ok cm) origin w).2.calls =
      w.calls ++ [.writeManifest clickMetaDir (compatManifestName cm origin ++ ".manifest")
        { cm with name := compatManifestName cm origin }] ∧
    ((writeCompatManifestJSON env clickMetaDir (.ok cm) origin w).1 = none →
      ∃ c, (writeCompatManifestJSON env clickMetaDir (.ok cm) origin w).2.disk.dirs clickMetaDir
          = some c ∧
        c.manifests.lookup (compatManifestName cm origin ++ ".manifest") =
          some (.ok { cm with name := compatManifestName cm origin })) ∧
    ((cm.type = .framework ∨ cm.type = .oem) → compatManifestName cm origin = cm.name) ∧
    (cm.type ≠ .framework → cm.type ≠ .oem →
      compatManifestName cm origin = cm.name ++ "." ++ origin) := by
  have hcm : (if cm.type ≠ .framework ∧ cm.type ≠ .oem then
        ({ cm with name := cm.name ++ "." ++ origin } : ClickManifest) else cm) =
      { cm with name := compatManifestName cm origin } := by
    unfold compatManifestName
    cases cm with
    | mk n v a t f d i s ma ti h =>
      cases t <;> simp
  refine ⟨?_, ?_, ?_, ?_⟩
  · unfold writeCompatManifestJSON
    simp only [hcm]
    split
    · rfl
    · unfold attempt
      split <;> rfl
  · unfold writeCompatManifestJSON
    simp only [hcm]
    split
    · intro h
      simp at h
    · unfold attempt
      split
      · intro h
        simp at h
      · intro _
        exact addManifest_lookup _ _ _ _
  · intro h
    simp [compatManifestName, h]
  · intro h1 h2
    simp [compatManifestName, h1, h2]

/-- C16 at the app `foo` 1.0 with the origin `canonical`, and at a framework
of the same name. -/
theorem writeCompatManifestJSON_name_witness :
    compatManifestName (manifestFoo "1.0") "canonical" = "foo" ++ "." ++ "canonical" ∧
    compatManifestName { manifestFoo "1.0" with type := .framework } "canonical" = "foo" :=
  ⟨(writeCompatManifestJSON_name envOk (fooDir "1.0") (manifestFoo "1.0") "canonical"
      worldFoo1Installed).2.2.2 (by decide) (by decide),
   (writeCompatManifestJSON_name envOk (fooDir "1.0")
      { manifestFoo "1.0" with type := .framework } "canonical"
      worldFoo1Installed).2.2.1 (Or.inl rfl)⟩


/-! ### os.Remove of generated files -/

theorem osRemove_calls (env : Env) (p : Path) (w : World) :
    (osRemove env p w).2.calls = w.calls ++ [.remove p] := by
  unfold osRemove attempt
  split
  · rfl
  · split <;> rfl

theorem osRemove_absent (env : Env) (p : Path) (w : World) (h : w.disk.files p = none) :
    osRemove env p w = (some .notExist, w.record (.remove p)) := by
  unfold osRemove
  simp [h]

theorem osRemove_frame (env : Env) (p : Path) (w : World) :
    (osRemove env p w).2.disk.dirs = w.disk.dirs ∧
    (osRemove env p w).2.disk.current = w.disk.current ∧
    (osRemove env p w).2.disk.data = w.disk.data ∧
    ∀ q, q ≠ p → (osRemove env p w).2.disk.files q = w.disk.files q := by
  unfold osRemove attempt
  split
  · exact ⟨rfl, rfl, rfl, fun _ _ => rfl⟩
  · split
    · exact ⟨rfl, rfl, rfl, fun _ _ => rfl⟩
    · refine ⟨rfl, rfl, rfl, fun q hq => ?_⟩
      simp [Disk.setFile, hq]

/-- After `os.Remove(p)` the file is gone, unless the call was refused, which
leaves the disk as it was. -/
theorem osRemove_gone (env : Env) (p : Path) (w : World) :
    (osRemove env p w).2.disk.files p = none ∨
    ∃ e, env.outcome w.calls (.remove p) = some e ∧ (osRemove env p w).1 = some e ∧
      (osRemove env p w).2.disk = w.disk := by
  unfold osRemove attempt
  split
  · next h =>
    left
    simpa using h
  · split
    · next e he => exact Or.inr ⟨e, he, rfl, rfl⟩
    · left
      simp [Disk.setFile]

theorem osRemove_keeps_none (env : Env) (p q : Path) (w : World) (h : w.disk.files q = none) :
    (osRemove env p w).2.disk.files q = none := by
  by_cases hq : q = p
  · subst hq
    rcases osRemove_gone env q w with h1 | ⟨e, _, _, h1⟩
    · exact h1
    · rw [h1]; exact h
  · rw [(osRemove_frame env p w).2.2.2 q hq]; exact h

theorem osRemove_err (env : Env) (p : Path) (w : World) (e : Err)
    (h : (osRemove env p w).1 = some e) :
    (w.disk.files p = none ∧ e = .notExist) ∨ env.outcome w.calls (.remove p) = some e := by
  unfold osRemove attempt at h
  split at h
  · next hn =>
    left
    simp only [Option.some.injEq] at h
    exact ⟨by simpa using hn, h.symm⟩
  · split at h
    · next e0 he =>
      simp only [Option.some.injEq] at h
      right
      rw [← h]; exact he
    · simp at h


/-! ### Stop failures in removePackageServices (lines 568-592) -/

/-- C15 as stated fails: when `sysd.Stop` fails with an error that is no
timeout, `removePackageServices` returns that error at once (line 575): no
signal is sent and the unit file stays. -/
theorem removePackageServices_stop_error_counterexample :
    (removePackageServices (envInstall failStop []) (fooDir "1.0") worldFooSvc).1 =
      some (.other 5) ∧
    (removePackageServices (envInstall failStop []) (fooDir "1.0") worldFooSvc).2.calls =
      [.disable "foo_svc_1.0.service", .stop "foo_svc_1.0.service" 30] ∧
    (removePackageServices (envInstall failStop []) (fooDir "1.0") worldFooSvc).2.disk.files
      (.service "foo_svc_1.0.service") = some "unit" := by
  decide


theorem attempt_id_snd (env : Env) (c : Call) (w : World) :
    (attempt env c id w).2 = w.record c := by
  unfold attempt
  split <;> rfl

theorem attempt_of_none {env : Env} {c : Call} {w : World} (eff : Disk → Disk)
    (h : env.outcome w.calls c = none) :
    attempt env c eff w = (none, { disk := eff w.disk, calls := w.calls ++ [c] }) := by
  unfold attempt
  rw [h]

theorem attempt_of_some {env : Env} {c : Call} {w : World} {e : Err} (eff : Disk → Disk)
    (h : env.outcome w.calls c = some e) :
    attempt env c eff w = (some e, w.record c) := by
  unfold attempt
  rw [h]

theorem attempt_id_of_none {env : Env} {c : Call} {w : World}
    (h : env.outcome w.calls c = none) : attempt env c id w = (none, w.record c) := by
  rw [attempt_of_none id h]
  rfl

theorem removePackageServices_loop_timeout (env : Env) (m : PackageYaml) (service : Service)
    (rest : List Service) (w : World) (e : Err)
    (hdis : env.outcome w.calls (.disable (serviceNameOf m service)) = none)
    (hstop : env.outcome (w.calls ++ [.disable (serviceNameOf m service)])
      (.stop (serviceNameOf m service) service.stopTimeout) = some e)
    (ht : e.isTimeout = true) :
    removePackageServices.loop env m (service :: rest) w =
      removePackageServices.loop env m rest
        (removePackageServices.files env m service
          (removePackageServices.killed m service w)) := by
  have h1 := attempt_id_of_none hdis
  have h2 : attempt env (.stop (serviceNameOf m service) service.stopTimeout) id
      (w.record (.disable (serviceNameOf m service))) =
      (some e, (w.record (.disable (serviceNameOf m service))).record
        (.stop (serviceNameOf m service) service.stopTimeout)) :=
    attempt_of_some id hstop
  rw [removePackageServices.loop]
  simp only [h1, h2, ht, attempt_id_snd, Bool.not_true, Bool.false_eq_true, if_false]
  rfl

theorem removePackageServices_loop_stop_error (env : Env) (m : PackageYaml) (service : Service)
    (rest : List Service) (w : World) (e : Err)
    (hdis : env.outcome w.calls (.disable (serviceNameOf m service)) = none)
    (hstop : env.outcome (w.calls ++ [.disable (serviceNameOf m service)])
      (.stop (serviceNameOf m service) service.stopTimeout) = some e)
    (ht : e.isTimeout = false) :
    removePackageServices.loop env m (service :: rest) w =
      (some e, (w.record (.disable (serviceNameOf m service))).record
        (.stop (serviceNameOf m service) service.stopTimeout)) := by
  have h1 := attempt_id_of_none hdis
  have h2 : attempt env (.stop (serviceNameOf m service) service.stopTimeout) id
      (w.record (.disable (serviceNameOf m service))) =
      (some e, (w.record (.disable (serviceNameOf m service))).record
        (.stop (serviceNameOf m service) service.stopTimeout)) :=
    attempt_of_some id hstop
  rw [removePackageServices.loop]
  simp only [h1, h2, ht, Bool.not_false, if_true]

/-- The removal of one file with its message (lines 584-586, 589-591): the
disk is the one `os.Remove` leaves, the record grows by the call and at most
a message. -/
theorem removeLogged_spec (env : Env) (p : Path) (n : Err → Call) (w w2 : World)
    (h : w2 = match osRemove env p w with
      | (some err, w0) => if !err.isNotExist then w0.record (n err) else w0
      | (none, w0) => w0) :
    w2.disk = (osRemove env p w).2.disk ∧
    ∃ l, w2.calls = w.calls ++ .remove p :: l ∧
      ∀ c ∈ l, ∃ e, (osRemove env p w).1 = some e ∧ e.isNotExist = false ∧ c = n e := by
  have hc := osRemove_calls env p w
  generalize osRemove env p w = r at h hc
  obtain ⟨o, w0⟩ := r
  cases o with
  | none =>
    simp only at h
    subst h
    exact ⟨rfl, [], hc, by simp⟩
  | some err =>
    simp only at h
    cases hn : err.isNotExist with
    | true =>
      simp only [hn, Bool.not_true, Bool.false_eq_true, if_false] at h
      subst h
      exact ⟨rfl, [], hc, by simp⟩
    | false =>
      simp only [hn, Bool.not_false, if_true] at h
      subst h
      refine ⟨rfl, [n err], ?_, ?_⟩
      · simp only [World.record]
        simp only at hc
        rw [hc]
        simp
      · intro c hc2
        exact ⟨err, rfl, hn, by simpa using hc2⟩

theorem removePackageServices_files_spec (env : Env) (m : PackageYaml) (service : Service)
    (w : World) :
    (∃ l, (removePackageServices.files env m service w).calls = w.calls ++ l ∧
      Call.remove (generateServiceFileName m service) ∈ l ∧
      Call.remove (generateBusPolicyFileName m service) ∈ l ∧
      ∀ c ∈ l, c = .remove (generateServiceFileName m service) ∨
        c = .remove (generateBusPolicyFileName m service) ∨ ∃ msg, c = .notice msg) ∧
    (removePackageServices.files env m service w).disk.dirs = w.disk.dirs ∧
    (removePackageServices.files env m service w).disk.current = w.disk.current ∧
    (removePackageServices.files env m service w).disk.data = w.disk.data ∧
    (∀ q, q ≠ generateServiceFileName m service → q ≠ generateBusPolicyFileName m service →
      (removePackageServices.files env m service w).disk.files q = w.disk.files q) ∧
    ((∀ h p, env.outcome h (.remove p) = none) →
      (removePackageServices.files env m service w).disk.files
        (generateServiceFileName m service) = none ∧
      (removePackageServices.files env m service w).disk.files
        (generateBusPolicyFileName m service) = none) := by
  obtain ⟨w7, hw7⟩ : ∃ w7, w7 = match osRemove env (generateServiceFileName m service) w with
      | (some err, w0) =>
        if !err.isNotExist then
          w0.record (.notice (.failedToRemoveServiceFile (serviceNameOf m service) err))
        else w0
      | (none, w0) => w0 := ⟨_, rfl⟩
  obtain ⟨w8, hw8⟩ : ∃ w8, w8 = match osRemove env (generateBusPolicyFileName m service) w7 with
      | (some err, w0) =>
        if !err.isNotExist then
          w0.record (.notice (.failedToRemoveBusPolicy (serviceNameOf m service) err))
        else w0
      | (none, w0) => w0 := ⟨_, rfl⟩
  have hf : removePackageServices.files env m service w = w8 := by
    rw [hw8, hw7]
    rfl
  rw [hf]
  obtain ⟨hd7, hc7⟩ := removeLogged_spec env _
    (fun err => .notice (.failedToRemoveServiceFile (serviceNameOf m service) err)) w w7 hw7
  obtain ⟨hd8, hc8⟩ := removeLogged_spec env _
    (fun err => .notice (.failedToRemoveBusPolicy (serviceNameOf m service) err)) w7 w8 hw8
  obtain ⟨f1, f2, f3, f4⟩ := osRemove_frame env (generateServiceFileName m service) w
  obtain ⟨g1, g2, g3, g4⟩ := osRemove_frame env (generateBusPolicyFileName m service) w7
  refine ⟨?_, ?_, ?_, ?_, ?_, ?_⟩
  · obtain ⟨l7, h7, hl7⟩ := hc7
    obtain ⟨l8, h8, hl8⟩ := hc8
    refine ⟨.remove (generateServiceFileName m service) :: l7 ++
      .remove (generateBusPolicyFileName m service) :: l8, by rw [h8, h7]; simp, by simp,
      by simp, ?_⟩
    intro c hc
    simp only [List.mem_append, List.mem_cons] at hc
    rcases hc with (hc | hc) | hc | hc
    · exact Or.inl hc
    · obtain ⟨e, _, _, he⟩ := hl7 c hc
      exact Or.inr (Or.inr ⟨_, he⟩)
    · exact Or.inr (Or.inl hc)
    · obtain ⟨e, _, _, he⟩ := hl8 c hc
      exact Or.inr (Or.inr ⟨_, he⟩)
  · rw [hd8, g1, hd7, f1]
  · rw [hd8, g2, hd7, f2]
  · rw [hd8, g3, hd7, f3]
  · intro q hq1 hq2
    rw [hd8, g4 q hq2, hd7, f4 q hq1]
  · intro hok
    have hu : w7.disk.files (generateServiceFileName m service) = none := by
      rw [hd7]
      rcases osRemove_gone env (generateServiceFileName m service) w with h | ⟨e, he, _, _⟩
      · exact h
      · rw [hok] at he
        exact absurd he (by simp)
    refine ⟨?_, ?_⟩
    · rw [hd8]
      exact osRemove_keeps_none env _ _ w7 hu
    · rw [hd8]
      rcases osRemove_gone env (generateBusPolicyFileName m service) w7 with h | ⟨e, he, _, _⟩
      · exact h
      · rw [hok] at he
        exact absurd he (by simp)

/-- C15, amended: in the loop of `removePackageServices`, when `Disable` of a
service succeeds and `Stop` fails with the error `e`: if `e` is a timeout
(`systemd.IsTimeout`), the user is notified, the service is sent TERM and,
after `killWait`, KILL, `os.Remove` is called on its unit file and on its
bus-policy file (both are gone when no removal is refused), nothing else on
the disk changes, and the loop goes on with the remaining services, so the
result is the one of the remaining services; if `e` is no timeout, `e` is
returned at once, with no signal sent, no file removed and the remaining
services not processed. -/
theorem removePackageServices_stop_failure (env : Env) (m : PackageYaml) (service : Service)
    (rest : List Service) (w : World) (e : Err)
    (hdis : env.outcome w.calls (.disable (serviceNameOf m service)) = none)
    (hstop : env.outcome (w.calls ++ [.disable (serviceNameOf m service)])
      (.stop (serviceNameOf m service) service.stopTimeout) = some e) :
    (e.isTimeout = true →
      removePackageServices.loop env m (service :: rest) w =
        removePackageServices.loop env m rest
          (removePackageServices.files env m service
            (removePackageServices.killed m service w)) ∧
      (removePackageServices.killed m service w).calls = w.calls ++
        [.disable (serviceNameOf m service),
         .stop (serviceNameOf m service) service.stopTimeout,
         .notify (.refusedToStop (serviceNameOf m service)),
         .kill (serviceNameOf m service) "TERM", .sleep,
         .kill (serviceNameOf m service) "KILL"] ∧
      (∃ l, (removePackageServices.files env m service
            (removePackageServices.killed m service w)).calls =
          (removePackageServices.killed m service w).calls ++ l ∧
        Call.remove (generateServiceFileName m service) ∈ l ∧
        Call.remove (generateBusPolicyFileName m service) ∈ l ∧
        ∀ c ∈ l, c = .remove (generateServiceFileName m service) ∨
          c = .remove (generateBusPolicyFileName m service) ∨ ∃ msg, c = .notice msg) ∧
      (∀ q, q ≠ generateServiceFileName m service → q ≠ generateBusPolicyFileName m service →
        (removePackageServices.files env m service
          (removePackageServices.killed m service w)).disk.files q = w.disk.files q) ∧
      ((∀ h p, env.outcome h (.remove p) = none) →
        (removePackageServices.files env m service
          (removePackageServices.killed m service w)).disk.files
            (generateServiceFileName m service) = none ∧
        (removePackageServices.files env m service
          (removePackageServices.killed m service w)).disk.files
            (generateBusPolicyFileName m service) = none)) ∧
    (e.isTimeout = false →
      removePackageServices.loop env m (service :: rest) w =
        (some e, (w.record (.disable (serviceNameOf m service))).record
          (.stop (serviceNameOf m service) service.stopTimeout))) := by
  refine ⟨fun ht => ?_, fun ht => removePackageServices_loop_stop_error env m service rest w e
    hdis hstop ht⟩
  obtain ⟨hl, _, _, _, hq, hgone⟩ :=
    removePackageServices_files_spec env m service (removePackageServices.killed m service w)
  refine ⟨removePackageServices_loop_timeout env m service rest w e hdis hstop ht, ?_, hl, hq,
    hgone⟩
  simp [removePackageServices.killed, World.record]

/-- C15 at the package `foo` with the service `svc`, whose `Stop` times out:
the service is killed, its unit file is removed, a file of another package
stays, and `removePackageServices` returns nil. -/
theorem removePackageServices_stop_failure_witness :
    removePackageServices.loop (envInstall failStopTimeout []) yamlFooSvc [serviceSvc]
        worldFooSvc =
      removePackageServices.loop (envInstall failStopTimeout []) yamlFooSvc []
        (removePackageServices.files (envInstall failStopTimeout []) yamlFooSvc serviceSvc
          (removePackageServices.killed yamlFooSvc serviceSvc worldFooSvc)) ∧
    (removePackageServices (envInstall failStopTimeout []) (fooDir "1.0") worldFooSvc).1 = none ∧
    (removePackageServices (envInstall failStopTimeout []) (fooDir "1.0") worldFooSvc).2.calls =
      [.disable "foo_svc_1.0.service", .stop "foo_svc_1.0.service" 30,
       .notify (.refusedToStop "foo_svc_1.0.service"), .kill "foo_svc_1.0.service" "TERM",
       .sleep, .kill "foo_svc_1.0.service" "KILL", .remove (.service "foo_svc_1.0.service"),
       .remove (.busPolicy "foo_svc_1.0.conf"), .daemonReload] ∧
    (removePackageServices (envInstall failStopTimeout []) (fooDir "1.0")
      worldFooSvc).2.disk.files (.service "foo_svc_1.0.service") = none ∧
    (removePackageServices (envInstall failStopTimeout []) (fooDir "1.0")
      worldFooSvc).2.disk.files (.service "bar_svc_1.0.service") = some "other" :=
  ⟨((removePackageServices_stop_failure (envInstall failStopTimeout []) yamlFooSvc serviceSvc []
      worldFooSvc (.timeout 30) (by decide) (by decide)).1 (by decide)).1,
   by decide, by decide, by decide, by decide⟩


/-! ### expandHookPattern (lines 170-178) -/

/-- `joinWith` on lists of characters. -/
theorem joinWith_toList (sep : String) :
    ∀ ps : List String, ps ≠ [] → ∀ q, (joinWith sep (q :: ps)).toList =
      q.toList ++ (sep.toList ++ (joinWith sep ps).toList)
  | [], h => absurd rfl h
  | p :: ps, _ => by
    intro q
    simp [joinWith, String.toList, List.append_assoc]

theorem replaceAll_go_skip (old new : List Char) :
    ∀ (xs rest : List Char), stringsReplaceAll.go old new xs.length (xs ++ rest) =
      stringsReplaceAll.go old new 0 rest
  | [], rest => by simp
  | x :: xs, rest => by
    simp only [List.length_cons, List.cons_append, stringsReplaceAll.go]
    exact replaceAll_go_skip old new xs rest

/-- An occurrence of `$\x7bid\x7d` that starts inside a non-empty text
followed by `$\x7bid\x7d` lies inside that text: the variable does not overlap
itself. -/
theorem idVar_unbordered (q rest : List Char) (hq : q ≠ [])
    (h : ['$', '\x7b', 'i', 'd', '\x7d'] <+: q ++ (['$', '\x7b', 'i', 'd', '\x7d'] ++ rest)) :
    ['$', '\x7b', 'i', 'd', '\x7d'] <+: q := by
  match q, hq with
  | [a], _ => simp [List.cons_prefix_cons] at h
  | [a, b], _ => simp [List.cons_prefix_cons] at h
  | [a, b, c], _ => simp [List.cons_prefix_cons] at h
  | [a, b, c, d], _ => simp [List.cons_prefix_cons] at h
  | a :: b :: c :: d :: e :: q, _ =>
    simp only [List.cons_append, List.cons_prefix_cons] at h
    obtain ⟨h1, h2, h3, h4, h5, _⟩ := h
    subst h1 h2 h3 h4 h5
    exact List.prefix_append _ q

theorem replaceAll_go_none (new : List Char) :
    ∀ p : List Char, ¬ ['$', '\x7b', 'i', 'd', '\x7d'] <:+: p →
      stringsReplaceAll.go ['$', '\x7b', 'i', 'd', '\x7d'] new 0 p = p
  | [], _ => by simp [stringsReplaceAll.go]
  | c :: p, h => by
    have hpre : ¬ ['$', '\x7b', 'i', 'd', '\x7d'] <+: c :: p := fun hp => h hp.isInfix
    have hrest : ¬ ['$', '\x7b', 'i', 'd', '\x7d'] <:+: p :=
      fun hp => h (List.infix_cons_iff.mpr (Or.inr hp))
    have hb : List.isPrefixOf ['$', '\x7b', 'i', 'd', '\x7d'] (c :: p) = false := by
      rw [Bool.eq_false_iff]
      intro hb
      exact hpre (List.isPrefixOf_iff_prefix.mp hb)
    rw [stringsReplaceAll.go, hb]
    simp only [Bool.false_eq_true, if_false]
    rw [replaceAll_go_none new p hrest]

theorem replaceAll_go_first (new : List Char) (rest : List Char) :
    ∀ p : List Char, ¬ ['$', '\x7b', 'i', 'd', '\x7d'] <:+: p →
      stringsReplaceAll.go ['$', '\x7b', 'i', 'd', '\x7d'] new 0
          (p ++ (['$', '\x7b', 'i', 'd', '\x7d'] ++ rest)) =
        p ++ (new ++ stringsReplaceAll.go ['$', '\x7b', 'i', 'd', '\x7d'] new 0 rest)
  | [], _ => by
    have hb : List.isPrefixOf ['$', '\x7b', 'i', 'd', '\x7d']
        ('$' :: ('\x7b' :: 'i' :: 'd' :: '\x7d' :: rest)) = true := by
      rw [List.isPrefixOf_iff_prefix]
      exact List.prefix_append ['$', '\x7b', 'i', 'd', '\x7d'] rest
    have hs := replaceAll_go_skip ['$', '\x7b', 'i', 'd', '\x7d'] new ['\x7b', 'i', 'd', '\x7d'] rest
    show stringsReplaceAll.go ['$', '\x7b', 'i', 'd', '\x7d'] new 0
        ('$' :: ('\x7b' :: 'i' :: 'd' :: '\x7d' :: rest)) =
      new ++ stringsReplaceAll.go ['$', '\x7b', 'i', 'd', '\x7d'] new 0 rest
    rw [stringsReplaceAll.go, hb]
    simp only [if_true]
    exact congrArg (fun t => new ++ t) hs
  | c :: p, h => by
    have hrest : ¬ ['$', '\x7b', 'i', 'd', '\x7d'] <:+: p :=
      fun hp => h (List.infix_cons_iff.mpr (Or.inr hp))
    have hb : List.isPrefixOf ['$', '\x7b', 'i', 'd', '\x7d']
        (c :: (p ++ (['$', '\x7b', 'i', 'd', '\x7d'] ++ rest))) = false := by
      rw [Bool.eq_false_iff]
      intro hb
      have hp := List.isPrefixOf_iff_prefix.mp hb
      exact h (idVar_unbordered (c :: p) rest (by simp) hp).isInfix
    show stringsReplaceAll.go ['$', '\x7b', 'i', 'd', '\x7d'] new 0
        (c :: (p ++ (['$', '\x7b', 'i', 'd', '\x7d'] ++ rest))) =
      c :: (p ++ (new ++ stringsReplaceAll.go ['$', '\x7b', 'i', 'd', '\x7d'] new 0 rest))
    rw [stringsReplaceAll.go, hb]
    simp only [Bool.false_eq_true, if_false]
    rw [replaceAll_go_first new rest p hrest]


theorem joinWith_head (sep : String) (ps : List String) :
    ∃ tail : List Char, ∀ q, (joinWith sep (q :: ps)).toList = q.toList ++ tail := by
  cases ps with
  | nil => exact ⟨[], fun q => by simp [joinWith]⟩
  | cons p ps => exact ⟨_, fun q => joinWith_toList sep (p :: ps) (by simp) q⟩

theorem replaceAll_joinWith (new : String) :
    ∀ ps : List String, ps ≠ [] → (∀ p ∈ ps, ¬ Occurs "$\x7bid\x7d" p) →
      stringsReplaceAll.go ['$', '\x7b', 'i', 'd', '\x7d'] new.toList 0
        (joinWith "$\x7bid\x7d" ps).toList = (joinWith new ps).toList
  | [], h, _ => absurd rfl h
  | [p], _, hp => by
    have := hp p (by simp)
    simp only [joinWith]
    exact replaceAll_go_none _ _ this
  | p :: q :: ps, _, hp => by
    have h1 : ¬ ['$', '\x7b', 'i', 'd', '\x7d'] <:+: p.toList := hp p (by simp)
    have ih := replaceAll_joinWith new (q :: ps) (by simp)
      (fun x hx => hp x (List.mem_cons_of_mem _ hx))
    rw [joinWith_toList _ (q :: ps) (by simp) p, joinWith_toList _ (q :: ps) (by simp) p]
    show stringsReplaceAll.go ['$', '\x7b', 'i', 'd', '\x7d'] new.toList 0
      (p.toList ++ (['$', '\x7b', 'i', 'd', '\x7d'] ++ (joinWith "$\x7bid\x7d" (q :: ps)).toList))
      = _
    rw [replaceAll_go_first _ _ _ h1, ih]

/-- Every text is a join of pieces without `$\x7bid\x7d`, separated by
`$\x7bid\x7d`. -/
theorem idVar_pieces : ∀ s : List Char, ∃ (p : String) (ps : List String),
    (∀ x ∈ p :: ps, ¬ Occurs "$\x7bid\x7d" x) ∧
    (joinWith "$\x7bid\x7d" (p :: ps)).toList = s
  | [] => ⟨"", [], by simp [Occurs, String.toList, List.infix_nil], by simp [joinWith]⟩
  | c :: s => by
    obtain ⟨p, ps, hno, hs⟩ := idVar_pieces s
    obtain ⟨tail, htail⟩ := joinWith_head "$\x7bid\x7d" ps
    have hp : ¬ ['$', '\x7b', 'i', 'd', '\x7d'] <:+: p.toList := hno p (by simp)
    by_cases hocc : ['$', '\x7b', 'i', 'd', '\x7d'] <:+: c :: p.toList
    · have hpre : ['$', '\x7b', 'i', 'd', '\x7d'] <+: c :: p.toList := by
        rcases List.infix_cons_iff.mp hocc with h | h
        · exact h
        · exact absurd h hp
      obtain ⟨r, hr⟩ := hpre
      have hc : c = '$' := by
        simp only [List.cons_append, List.cons.injEq] at hr
        exact hr.1.symm
      have hrp : r <:+ p.toList := by
        simp only [List.cons_append, List.cons.injEq] at hr
        exact ⟨['\x7b', 'i', 'd', '\x7d'], hr.2⟩
      refine ⟨"", String.mk r :: ps, ?_, ?_⟩
      · intro x hx
        simp only [List.mem_cons] at hx
        rcases hx with hx | hx | hx
        · subst hx
          simp [Occurs, String.toList, List.infix_nil]
        · subst hx
          intro h
          exact hp (h.trans hrp.isInfix)
        · exact hno x (List.mem_cons_of_mem _ hx)
      · rw [joinWith_toList _ (String.mk r :: ps) (by simp) "", htail (String.mk r)]
        rw [htail p] at hs
        rw [← hs]
        show [] ++ (['$', '\x7b', 'i', 'd', '\x7d'] ++ (r ++ tail)) = c :: (p.toList ++ tail)
        rw [List.nil_append, ← List.append_assoc, hr]
        rfl
    · refine ⟨String.mk (c :: p.toList), ps, ?_, ?_⟩
      · intro x hx
        simp only [List.mem_cons] at hx
        rcases hx with hx | hx
        · subst hx
          exact hocc
        · exact hno x (List.mem_cons_of_mem _ hx)
      · rw [htail]
        rw [htail p] at hs
        rw [← hs]
        rfl

/-- C11: `expandHookPattern(name, app, version, pattern)` is `pattern` with
every occurrence of `$\x7bid\x7d` replaced by `name_app_version`: a pattern
made of pieces without `$\x7bid\x7d` that are separated by `$\x7bid\x7d` gives
the same pieces separated by `name_app_version`, and every pattern is made of
such pieces. A pattern without `$\x7bid\x7d` is returned unchanged, and
`$\x7bid\x7d/foo` with `edge`, `app1`, `1.0` gives `edge_app1_1.0/foo`. -/
theorem expandHookPattern_replaces_every_id (name app version : String) :
    (∀ pieces : List String, pieces ≠ [] → (∀ p ∈ pieces, ¬ Occurs "$\x7bid\x7d" p) →
      expandHookPattern name app version (joinWith "$\x7bid\x7d" pieces) =
        joinWith (name ++ "_" ++ app ++ "_" ++ version) pieces) ∧
    (∀ pattern : String, ∃ pieces : List String, pieces ≠ [] ∧
      (∀ p ∈ pieces, ¬ Occurs "$\x7bid\x7d" p) ∧ pattern = joinWith "$\x7bid\x7d" pieces) ∧
    (∀ pattern : String, ¬ Occurs "$\x7bid\x7d" pattern →
      expandHookPattern name app version pattern = pattern) ∧
    expandHookPattern "edge" "app1" "1.0" "$\x7bid\x7d/foo" = "edge_app1_1.0/foo" := by
  have hmain : ∀ pieces : List String, pieces ≠ [] → (∀ p ∈ pieces, ¬ Occurs "$\x7bid\x7d" p) →
      expandHookPattern name app version (joinWith "$\x7bid\x7d" pieces) =
        joinWith (name ++ "_" ++ app ++ "_" ++ version) pieces := by
    intro pieces hne hno
    have h := replaceAll_joinWith (name ++ "_" ++ app ++ "_" ++ version) pieces hne hno
    unfold expandHookPattern stringsReplaceAll
    show String.mk (stringsReplaceAll.go ['$', '\x7b', 'i', 'd', '\x7d']
      (name ++ "_" ++ app ++ "_" ++ version).toList 0 (joinWith "$\x7bid\x7d" pieces).toList) = _
    rw [h]
    rfl
  refine ⟨hmain, ?_, ?_, by decide⟩
  · intro pattern
    obtain ⟨p, ps, hno, hs⟩ := idVar_pieces pattern.toList
    refine ⟨p :: ps, by simp, hno, ?_⟩
    apply String.ext
    exact hs.symm
  · intro pattern hno
    have := hmain [pattern] (by simp) (by simpa using hno)
    simpa [joinWith] using this

/-- C11 at the pattern `/hooks/$\x7bid\x7d/$\x7bid\x7d.json`. -/
theorem expandHookPattern_replaces_every_id_witness :
    expandHookPattern "edge" "app1" "1.0"
        (joinWith "$\x7bid\x7d" ["/hooks/", "/", ".json"]) =
      joinWith ("edge" ++ "_" ++ "app1" ++ "_" ++ "1.0") ["/hooks/", "/", ".json"] ∧
    joinWith "$\x7bid\x7d" ["/hooks/", "/", ".json"] = "/hooks/$\x7bid\x7d/$\x7bid\x7d.json" ∧
    expandHookPattern "edge" "app1" "1.0" "/hooks/plain" = "/hooks/plain" :=
  ⟨(expandHookPattern_replaces_every_id "edge" "app1" "1.0").1 ["/hooks/", "/", ".json"]
      (by simp) (by decide),
   by decide,
   (expandHookPattern_replaces_every_id "edge" "app1" "1.0").2.2.1 "/hooks/plain" (by decide)⟩


/-! ### Service-manager calls of addPackageServices (lines 495-560) -/

theorem removeOneSecurityPolicy_absent (env : Env) (m : PackageYaml) (name : String)
    (baseDir : ClickDir) (w : World) (pn : String)
    (hp : env.getSecurityProfile m (filepathBase name) baseDir.path = .ok pn)
    (habs : w.disk.files (.seccomp pn) = none) :
    removeOneSecurityPolicy env m name baseDir w = (none, w.record (.remove (.seccomp pn))) := by
  unfold removeOneSecurityPolicy
  rw [hp]
  simp only [osRemove_absent env _ w habs]
  rfl

theorem removeOneSecurityPolicy_keeps_none (env : Env) (m : PackageYaml) (name : String)
    (baseDir : ClickDir) (w : World) (q : Path) (hq : w.disk.files q = none) :
    (removeOneSecurityPolicy env m name baseDir w).2.disk.files q = none := by
  unfold removeOneSecurityPolicy
  split
  · exact hq
  · next pn _ =>
    have hk := osRemove_keeps_none env (.seccomp pn) q w hq
    generalize osRemove env (.seccomp pn) w = r at hk
    obtain ⟨o, w1⟩ := r
    cases o with
    | none => exact hk
    | some e =>
      simp only
      split <;> exact hk

/-- After a successful `removeOneSecurityPolicy` the profile file is absent,
when `os.Remove` reports a missing file only for a file that is missing. -/
theorem removeOneSecurityPolicy_success (env : Env) (m : PackageYaml) (name : String)
    (baseDir : ClickDir) (w : World)
    (hne : ∀ h p, env.outcome h (.remove p) ≠ some .notExist)
    (h : (removeOneSecurityPolicy env m name baseDir w).1 = none) :
    ∃ pn, env.getSecurityProfile m (filepathBase name) baseDir.path = .ok pn ∧
      (removeOneSecurityPolicy env m name baseDir w).2.disk.files (.seccomp pn) = none := by
  unfold removeOneSecurityPolicy at h ⊢
  split at h
  · simp at h
  · next pn hp =>
    refine ⟨pn, hp, ?_⟩
    have hg := osRemove_gone env (.seccomp pn) w
    have he := osRemove_err env (.seccomp pn) w
    generalize osRemove env (.seccomp pn) w = r at hg he h
    obtain ⟨o, w1⟩ := r
    cases o with
    | none =>
      rcases hg with hg | ⟨e, _, h1, _⟩
      · exact hg
      · simp at h1
    | some e =>
      simp only at h ⊢
      cases hn : e.isNotExist with
      | false => simp [hn] at h
      | true =>
        simp only [hn, Bool.not_true, Bool.false_eq_true, if_false]
        have hee : e = .notExist := by simpa [Err.isNotExist] using hn
        subst hee
        rcases he _ rfl with ⟨habs, _⟩ | hout
        · rcases hg with hg | ⟨_, _, _, hd⟩
          · exact hg
          · simp only at hd
            rw [hd]
            exact habs
        · exact absurd hout (hne _ _)

theorem removeSecurityPolicy_loop_absent (env : Env) (m : PackageYaml) (baseDir : ClickDir) :
    ∀ (names : List String) (w : World),
      (∀ n ∈ names, ∀ pn, env.getSecurityProfile m (filepathBase n) baseDir.path = .ok pn →
        w.disk.files (.seccomp pn) = none) →
      (removeSecurityPolicy.loop env m baseDir names w).2.disk = w.disk ∧
      ((∀ n ∈ names, ∃ pn, env.getSecurityProfile m (filepathBase n) baseDir.path = .ok pn) →
        (removeSecurityPolicy.loop env m baseDir names w).1 = none)
  | [], w, _ => ⟨rfl, fun _ => rfl⟩
  | n :: rest, w, habs => by
    unfold removeSecurityPolicy.loop
    cases hp : env.getSecurityProfile m (filepathBase n) baseDir.path with
    | error e =>
      have h1 : removeOneSecurityPolicy env m n baseDir w = (some e, w) := by
        unfold removeOneSecurityPolicy
        rw [hp]
      rw [h1]
      refine ⟨rfl, fun hall => ?_⟩
      obtain ⟨pn, hpn⟩ := hall n (List.mem_cons_self _ _)
      rw [hp] at hpn
      cases hpn
    | ok pn =>
      rw [removeOneSecurityPolicy_absent env m n baseDir w pn hp
        (habs n (List.mem_cons_self _ _) pn hp)]
      obtain ⟨ih1, ih2⟩ := removeSecurityPolicy_loop_absent env m baseDir rest
        (w.record (.remove (.seccomp pn)))
        (fun n2 hn2 pn2 hp2 => habs n2 (List.mem_cons_of_mem _ hn2) pn2 hp2)
      exact ⟨ih1, fun hall => ih2 (fun n2 hn2 => hall n2 (List.mem_cons_of_mem _ hn2))⟩

theorem removeSecurityPolicy_loop_keeps_none (env : Env) (m : PackageYaml) (baseDir : ClickDir)
    (q : Path) :
    ∀ (names : List String) (w : World), w.disk.files q = none →
      (removeSecurityPolicy.loop env m baseDir names w).2.disk.files q = none
  | [], w, h => h
  | n :: rest, w, h => by
    have h1 := removeOneSecurityPolicy_keeps_none env m n baseDir w q h
    unfold removeSecurityPolicy.loop
    generalize removeOneSecurityPolicy env m n baseDir w = r at h1
    obtain ⟨o, w1⟩ := r
    cases o with
    | some e => exact h1
    | none => exact removeSecurityPolicy_loop_keeps_none env m baseDir q rest w1 h1

theorem removeSecurityPolicy_loop_success (env : Env) (m : PackageYaml) (baseDir : ClickDir)
    (hne : ∀ h p, env.outcome h (.remove p) ≠ some .notExist) :
    ∀ (names : List String) (w : World),
      (removeSecurityPolicy.loop env m baseDir names w).1 = none →
      ∀ n ∈ names, ∃ pn, env.getSecurityProfile m (filepathBase n) baseDir.path = .ok pn ∧
        (removeSecurityPolicy.loop env m baseDir names w).2.disk.files (.seccomp pn) = none
  | [], _, _ => fun _ hn => by simp at hn
  | n :: rest, w, h => by
    have h1 := removeOneSecurityPolicy_success env m n baseDir w hne
    unfold removeSecurityPolicy.loop at h ⊢
    generalize removeOneSecurityPolicy env m n baseDir w = r at h1 h
    obtain ⟨o, w1⟩ := r
    cases o with
    | some e => simp at h
    | none =>
      simp only at h ⊢
      obtain ⟨pn, hp, hgone⟩ := h1 rfl
      intro n2 hn2
      rcases List.mem_cons.mp hn2 with hn2 | hn2
      · subst hn2
        exact ⟨pn, hp, removeSecurityPolicy_loop_keeps_none env m baseDir _ rest w1 hgone⟩
      · exact removeSecurityPolicy_loop_success env m baseDir hne rest w1 h n2 hn2

theorem removeSecurityPolicy_loop_append (env : Env) (m : PackageYaml) (baseDir : ClickDir) :
    ∀ (a b : List String) (w : World),
      removeSecurityPolicy.loop env m baseDir (a ++ b) w =
        match removeSecurityPolicy.loop env m baseDir a w with
        | (some err, w1) => (some err, w1)
        | (none, w1) => removeSecurityPolicy.loop env m baseDir b w1
  | [], b, w => by simp [removeSecurityPolicy.loop]
  | n :: a, b, w => by
    simp only [List.cons_append, removeSecurityPolicy.loop]
    generalize removeOneSecurityPolicy env m n baseDir w = r
    obtain ⟨o, w1⟩ := r
    cases o with
    | some e => rfl
    | none => exact removeSecurityPolicy_loop_append env m baseDir a b w1

theorem removeSecurityPolicy_eq_loop (env : Env) (m : PackageYaml) (baseDir : ClickDir)
    (w : World) :
    removeSecurityPolicy env m baseDir w =
      removeSecurityPolicy.loop env m baseDir
        (m.services.map (fun s => s.name) ++ m.binaries.map (fun b => b.name)) w := by
  rw [removeSecurityPolicy_loop_append]
  rfl

theorem removePackageBinaries_loop_absent (env : Env) (m : PackageYaml) :
    ∀ (bins : List Binary) (w : World),
      (∀ b ∈ bins, w.disk.files (generateBinaryName m b) = none) →
      (removePackageBinaries.loop env m bins w).disk = w.disk
  | [], _, _ => rfl
  | b :: rest, w, habs => by
    unfold removePackageBinaries.loop
    rw [osRemove_absent env _ w (habs b (List.mem_cons_self _ _))]
    exact removePackageBinaries_loop_absent env m rest _
      (fun b2 hb2 => habs b2 (List.mem_cons_of_mem _ hb2))

theorem removePackageServices_files_absent (env : Env) (m : PackageYaml) (service : Service)
    (w : World) (hu : w.disk.files (generateServiceFileName m service) = none)
    (hb : w.disk.files (generateBusPolicyFileName m service) = none) :
    removePackageServices.files env m service w =
      (w.record (.remove (generateServiceFileName m service))).record
        (.remove (generateBusPolicyFileName m service)) := by
  unfold removePackageServices.files
  simp only [osRemove_absent env _ w hu]
  have h2 : (w.record (.remove (generateServiceFileName m service))).disk.files
      (generateBusPolicyFileName m service) = none := hb
  have h3 : (if (!Err.notExist.isNotExist) = true then
      (w.record (.remove (generateServiceFileName m service))).record
        (.notice (.failedToRemoveServiceFile (serviceNameOf m service) .notExist))
      else w.record (.remove (generateServiceFileName m service))) =
      w.record (.remove (generateServiceFileName m service)) := rfl
  rw [h3]
  simp only [osRemove_absent env _ _ h2]
  rfl

theorem removePackageServices_loop_stopped (env : Env) (m : PackageYaml) (service : Service)
    (rest : List Service) (w : World)
    (hdis : env.outcome w.calls (.disable (serviceNameOf m service)) = none)
    (hstop : env.outcome (w.calls ++ [.disable (serviceNameOf m service)])
      (.stop (serviceNameOf m service) service.stopTimeout) = none) :
    removePackageServices.loop env m (service :: rest) w =
      removePackageServices.loop env m rest
        (removePackageServices.files env m service
          ((w.record (.disable (serviceNameOf m service))).record
            (.stop (serviceNameOf m service) service.stopTimeout))) := by
  have h1 := attempt_id_of_none hdis
  have h2 : attempt env (.stop (serviceNameOf m service) service.stopTimeout) id
      (w.record (.disable (serviceNameOf m service))) =
      (none, (w.record (.disable (serviceNameOf m service))).record
        (.stop (serviceNameOf m service) service.stopTimeout)) :=
    attempt_id_of_none hstop
  rw [removePackageServices.loop]
  simp only [h1, h2]
  rfl

/-- C19: when the generated files of a package are already absent, their
removal reports no error and changes nothing on the disk:
`removePackageBinaries` returns nil; in `removePackageServices` a service
whose unit and bus-policy files are missing is passed with the two
`os.Remove` calls and no message, and the loop goes on with the remaining
services; `removeSecurityPolicy` returns nil when the profile names are
found. So a second `removeSecurityPolicy` right after one that returned nil
returns nil and leaves the disk as it is (`os.Remove` reports a missing file
only for a file that is missing). -/
theorem removal_of_absent_files (env : Env) (m : PackageYaml) (baseDir : ClickDir) (w : World)
    (hne : ∀ h p, env.outcome h (.remove p) ≠ some .notExist) :
    (parsePackageYamlFile baseDir w.disk = .ok m →
      (∀ b ∈ m.binaries, w.disk.files (generateBinaryName m b) = none) →
      (removePackageBinaries env baseDir w).1 = none ∧
      (removePackageBinaries env baseDir w).2.disk = w.disk) ∧
    (∀ (service : Service) (rest : List Service),
      env.outcome w.calls (.disable (serviceNameOf m service)) = none →
      env.outcome (w.calls ++ [.disable (serviceNameOf m service)])
        (.stop (serviceNameOf m service) service.stopTimeout) = none →
      w.disk.files (generateServiceFileName m service) = none →
      w.disk.files (generateBusPolicyFileName m service) = none →
      removePackageServices.loop env m (service :: rest) w =
        removePackageServices.loop env m rest
          { disk := w.disk
            calls := w.calls ++ [.disable (serviceNameOf m service),
              .stop (serviceNameOf m service) service.stopTimeout,
              .remove (generateServiceFileName m service),
              .remove (generateBusPolicyFileName m service)] }) ∧
    ((∀ n ∈ m.services.map (fun s => s.name) ++ m.binaries.map (fun b => b.name),
        ∀ pn, env.getSecurityProfile m (filepathBase n) baseDir.path = .ok pn →
          w.disk.files (.seccomp pn) = none) →
      (removeSecurityPolicy env m baseDir w).2.disk = w.disk ∧
      ((∀ n ∈ m.services.map (fun s => s.name) ++ m.binaries.map (fun b => b.name),
          ∃ pn, env.getSecurityProfile m (filepathBase n) baseDir.path = .ok pn) →
        (removeSecurityPolicy env m baseDir w).1 = none)) ∧
    ((removeSecurityPolicy env m baseDir w).1 = none →
      (removeSecurityPolicy env m baseDir (removeSecurityPolicy env m baseDir w).2).1 = none ∧
      (removeSecurityPolicy env m baseDir (removeSecurityPolicy env m baseDir w).2).2.disk =
        (removeSecurityPolicy env m baseDir w).2.disk) := by
  refine ⟨?_, ?_, ?_, ?_⟩
  · intro hm habs
    unfold removePackageBinaries
    rw [hm]
    exact ⟨rfl, removePackageBinaries_loop_absent env m m.binaries w habs⟩
  · intro service rest hdis hstop hu hb
    rw [removePackageServices_loop_stopped env m service rest w hdis hstop,
      removePackageServices_files_absent env m service
        ((w.record (.disable (serviceNameOf m service))).record
          (.stop (serviceNameOf m service) service.stopTimeout)) hu hb]
    simp [World.record]
  · intro habs
    rw [removeSecurityPolicy_eq_loop]
    exact removeSecurityPolicy_loop_absent env m baseDir _ w habs
  · intro h1
    rw [removeSecurityPolicy_eq_loop] at h1
    have hs := removeSecurityPolicy_loop_success env m baseDir hne _ w h1
    rw [removeSecurityPolicy_eq_loop env m baseDir w]
    generalize removeSecurityPolicy.loop env m baseDir
      (m.services.map (fun s => s.name) ++ m.binaries.map (fun b => b.name)) w = r at hs
    rw [removeSecurityPolicy_eq_loop]
    have habs : ∀ n ∈ m.services.map (fun s => s.name) ++ m.binaries.map (fun b => b.name),
        ∀ pn, env.getSecurityProfile m (filepathBase n) baseDir.path = .ok pn →
          r.2.disk.files (.seccomp pn) = none := by
      intro n hn pn hp
      obtain ⟨pn2, hp2, hgone⟩ := hs n hn
      rw [hp] at hp2
      cases hp2
      exact hgone
    obtain ⟨hd, hn⟩ := removeSecurityPolicy_loop_absent env m baseDir _ r.2 habs
    exact ⟨hn (fun n hn2 => (hs n hn2).imp (fun _ h => h.1)), hd⟩

/-- C19 at the package `foo` with the service `svc`, whose profile file is
there: the first `removeSecurityPolicy` removes it and returns nil, the second
one returns nil and changes nothing. -/
theorem removal_of_absent_files_witness :
    (removeSecurityPolicy envOk yamlFooSvc (fooDir "1.0") worldFooProfile).1 = none ∧
    (removeSecurityPolicy envOk yamlFooSvc (fooDir "1.0") worldFooProfile).2.disk.files
      (.seccomp "foo_svc_1.0") = none ∧
    ((removeSecurityPolicy envOk yamlFooSvc (fooDir "1.0")
        (removeSecurityPolicy envOk yamlFooSvc (fooDir "1.0") worldFooProfile).2).1 = none ∧
      (removeSecurityPolicy envOk yamlFooSvc (fooDir "1.0")
        (removeSecurityPolicy envOk yamlFooSvc (fooDir "1.0") worldFooProfile).2).2.disk =
        (removeSecurityPolicy envOk yamlFooSvc (fooDir "1.0") worldFooProfile).2.disk) :=
  ⟨by decide, by decide,
   (removal_of_absent_files envOk yamlFooSvc (fooDir "1.0") worldFooProfile
      (fun _ _ h => by simp [envOk] at h)).2.2.2 (by decide)⟩


/-! ### iterHooks (lines 184-228) -/

theorem matchedEntries_append (systemHooks : List (String × ClickHook))
    (a b : List (String × List (String × String))) :
    matchedEntries systemHooks (a ++ b) =
      matchedEntries systemHooks a ++ matchedEntries systemHooks b := by
  simp [matchedEntries, List.flatMap_append]

/-- C21: when `globalRootDir` is `/`, `stripGlobalRootDirImpl` returns `dir`
unchanged. Otherwise it returns `dir[len(globalRootDir):]` without looking at
the prefix: for every `dir` that has `globalRootDir` as a prefix the slice is
in bounds and `globalRootDir ++ result = dir`; for a `dir` shorter than
`globalRootDir` the slice index is out of range and the function panics; and
for a `dir` that is long enough but does not start with `globalRootDir` it
returns a result that is no inverse (`globalRootDir ++ result ≠ dir`). -/
theorem stripGlobalRootDirImpl_prefix_inverse (globalRootDir dir : List UInt8) :
    (globalRootDir = goBytes "/" → stripGlobalRootDirImpl globalRootDir dir = .ok dir) ∧
    (globalRootDir ≠ goBytes "/" → globalRootDir <+: dir →
      ∃ result, stripGlobalRootDirImpl globalRootDir dir = .ok result ∧
        globalRootDir ++ result = dir) ∧
    (globalRootDir ≠ goBytes "/" → dir.length < globalRootDir.length →
      stripGlobalRootDirImpl globalRootDir dir =
        .error (.sliceBoundsOutOfRange globalRootDir.length dir.length)) ∧
    (globalRootDir ≠ goBytes "/" → globalRootDir.length ≤ dir.length →
      ¬ globalRootDir <+: dir →
      ∃ result, stripGlobalRootDirImpl globalRootDir dir = .ok result ∧
        globalRootDir ++ result ≠ dir) := by
  refine ⟨fun h => ?_, fun h hp => ?_, fun h hl => ?_, fun h hl hp => ?_⟩
  · simp [stripGlobalRootDirImpl, h]
  · obtain ⟨t, rfl⟩ := hp
    refine ⟨t, ?_, rfl⟩
    simp [stripGlobalRootDirImpl, goSliceFrom, h]
  · have hn : ¬ globalRootDir.length ≤ dir.length := Nat.not_le.mpr hl
    simp [stripGlobalRootDirImpl, goSliceFrom, h, hn]
  · refine ⟨dir.drop globalRootDir.length, ?_, fun heq => hp ⟨_, heq⟩⟩
    simp [stripGlobalRootDirImpl, goSliceFrom, h, hl]

/-- C21 with the root `/tmp/root`: the root is stripped from
`/tmp/root/apps/foo/1.0`, the slice of `/apps` panics, and `/apps/foo/1.0`,
which does not start with the root, loses its first nine bytes. With the root
`/` the directory is returned as it is. -/
theorem stripGlobalRootDirImpl_prefix_inverse_witness :
    (∃ result, stripGlobalRootDirImpl (goBytes "/tmp/root") (goBytes "/tmp/root/apps/foo/1.0") =
        .ok result ∧
      goBytes "/tmp/root" ++ result = goBytes "/tmp/root/apps/foo/1.0") ∧
    stripGlobalRootDirImpl (goBytes "/tmp/root") (goBytes "/tmp/root/apps/foo/1.0") =
      .ok (goBytes "/apps/foo/1.0") ∧
    stripGlobalRootDirImpl (goBytes "/tmp/root") (goBytes "/apps") =
      .error (.sliceBoundsOutOfRange (goBytes "/tmp/root").length (goBytes "/apps").length) ∧
    (goBytes "/tmp/root").length = 9 ∧ (goBytes "/apps").length = 5 ∧
    stripGlobalRootDirImpl (goBytes "/tmp/root") (goBytes "/apps/foo/1.0") =
      .ok (goBytes "/1.0") ∧
    stripGlobalRootDirImpl (goBytes "/") (goBytes "/apps/foo/1.0") =
      .ok (goBytes "/apps/foo/1.0") :=
  ⟨(stripGlobalRootDirImpl_prefix_inverse (goBytes "/tmp/root")
      (goBytes "/tmp/root/apps/foo/1.0")).2.1 (by decide) ⟨goBytes "/apps/foo/1.0", rfl⟩,
   rfl,
   (stripGlobalRootDirImpl_prefix_inverse (goBytes "/tmp/root") (goBytes "/apps")).2.2.1
     (by decide) (by decide),
   rfl, rfl, rfl,
   (stripGlobalRootDirImpl_prefix_inverse (goBytes "/") (goBytes "/apps/foo/1.0")).1 rfl⟩

end Snappy
